import Mathlib

/-!
# Verification of the WebPipe parser and pretty-printer

A shallow embedding of the WebPipe front end (recursive-descent parser with
explicit backtracking, diagnostics sink, and pretty-printer) found in
`src/dist/index.cjs` of the `webpipe-js` repository.  Source text is modelled
as `List Char` indexed by natural-number positions (the source indexes its
immutable string the same way); the mutable parser object becomes a state
record threaded through a small parser monad; JavaScript exceptions used for
backtracking become the `none` result of that monad, with `tryParse`
restoring only the cursor (the source's `catch` restores only `this.pos`).
Recursion that the source expresses as `while` loops or mutual recursion is
expressed with an explicit fuel parameter.
-/

namespace WebPipe

/-- Source text: a JavaScript string, one entry per UTF-16 code unit. -/
abbrev Str := List Char

/-- `'\0'`, the sentinel JavaScript `cur()` returns at end of input. -/
def nulChar : Char := Char.ofNat 0

/-- JavaScript `String.prototype.trim`: strip leading and trailing
whitespace (the inputs in this development only use ASCII whitespace). -/
def isJsSpace (c : Char) : Bool :=
  c = ' ' || c = '\t' || c = '\n' || c = '\r' || c = Char.ofNat 11 || c = Char.ofNat 12

def jsTrim (s : Str) : Str :=
  ((s.dropWhile isJsSpace).reverse.dropWhile isJsSpace).reverse

/-- JavaScript `text.startsWith(s, pos)`. -/
def startsWithAt (text s : Str) (pos : Nat) : Bool :=
  List.isPrefixOf s (text.drop pos)

/-- JavaScript `text.lastIndexOf(c)` for a single character known to occur:
the index of the last occurrence. -/
def lastIdxOf (c : Char) (text : Str) : Nat :=
  text.length - 1 - ((text.reverse.takeWhile (fun x => x ≠ c)).length)

/-- Decimal rendering of a natural number, as JavaScript `String(n)`
for the non-negative integers produced by `parseNumber`. -/
def natToStr (n : Nat) : Str := (Nat.repr n).data

/- ## The abstract syntax tree (§3 of the spec, `src/parser.ts` types) -/

inductive CommentKind where
  | inline
  | standalone
  deriving DecidableEq, Repr

/-- `{type, text, style, lineNumber}` comment objects. -/
structure Comment where
  kind : CommentKind
  text : Str
  style : Str
  lineNumber : Nat
  deriving DecidableEq, Repr

/-- Diagnostic `{message, start, end, severity}`; `end` is spelled `stop`. -/
structure Diagnostic where
  message : Str
  start : Nat
  stop : Nat
  severity : Str
  deriving DecidableEq, Repr

inductive ConfigValue where
  | String (value : Str)
  | EnvVar (var : Str) (dflt : Option Str)
  | Boolean (value : Bool)
  | Number (value : Nat)
  deriving DecidableEq, Repr

structure ConfigProperty where
  key : Str
  value : ConfigValue
  start : Nat
  stop : Nat
  deriving DecidableEq, Repr

structure Config where
  name : Str
  properties : List ConfigProperty
  inlineComment : Option Comment
  start : Nat
  stop : Nat
  lineNumber : Option Nat
  deriving DecidableEq, Repr

/-- A tag leaf `@name`, `@!name`, `@name(args)`. -/
structure Tag where
  name : Str
  negated : Bool
  args : List Str
  start : Nat
  stop : Nat
  deriving DecidableEq, Repr

/-- Boolean guard expressions over tags. -/
inductive TagExpr where
  | Tag (tag : Tag)
  | And (left right : TagExpr)
  | Or (left right : TagExpr)
  deriving DecidableEq, Repr

/-- Which quoting form a step config used; must round-trip. -/
inductive StepConfigType where
  | backtick
  | quoted
  | identifier
  deriving DecidableEq, Repr

inductive BranchType where
  | Ok
  | Default
  | Custom (name : Str)
  deriving DecidableEq, Repr

mutual
inductive PipelineStep where
  | Regular (name : Str) (args : List Str) (config : Str)
      (configType : StepConfigType) (condition : Option TagExpr)
      (parsedJoinTargets : Option (List Str)) (start stop : Nat)
  | Result (branches : List ResultBranch) (start stop : Nat)
  | If (condition : Pipeline) (thenBranch : Pipeline)
      (elseBranch : Option Pipeline) (start stop : Nat)
  | Dispatch (branches : List DispatchBranch) (dflt : Option Pipeline)
      (start stop : Nat)
  | Foreach (selector : Str) (pipeline : Pipeline) (start stop : Nat)
inductive Pipeline where
  | mk (steps : List PipelineStep) (start stop : Nat)
inductive ResultBranch where
  | mk (branchType : BranchType) (statusCode : Nat) (pipeline : Pipeline)
      (start stop : Nat)
inductive DispatchBranch where
  | mk (condition : TagExpr) (pipeline : Pipeline) (start stop : Nat)
end

def Pipeline.steps : Pipeline → List PipelineStep
  | .mk s _ _ => s

def Pipeline.start : Pipeline → Nat
  | .mk _ a _ => a

def Pipeline.stop : Pipeline → Nat
  | .mk _ _ b => b

def ResultBranch.branchType : ResultBranch → BranchType
  | .mk t _ _ _ _ => t

def ResultBranch.statusCode : ResultBranch → Nat
  | .mk _ c _ _ _ => c

def ResultBranch.pipeline : ResultBranch → Pipeline
  | .mk _ _ p _ _ => p

def DispatchBranch.condition : DispatchBranch → TagExpr
  | .mk c _ _ _ => c

def DispatchBranch.pipeline : DispatchBranch → Pipeline
  | .mk _ p _ _ => p

structure NamedPipeline where
  name : Str
  pipeline : Pipeline
  inlineComment : Option Comment
  start : Nat
  stop : Nat
  lineNumber : Option Nat

structure Variable where
  varType : Str
  name : Str
  value : Str
  inlineComment : Option Comment
  start : Nat
  stop : Nat
  lineNumber : Option Nat
  deriving DecidableEq, Repr

inductive PipelineRef where
  | Inline (pipeline : Pipeline) (start stop : Nat)
  | Named (name : Str) (start stop : Nat)

structure Route where
  method : Str
  path : Str
  pipeline : PipelineRef
  inlineComment : Option Comment
  start : Nat
  stop : Nat
  lineNumber : Option Nat

structure GraphQLSchema where
  sdl : Str
  inlineComment : Option Comment
  start : Nat
  stop : Nat
  lineNumber : Option Nat
  deriving DecidableEq, Repr

structure QueryResolver where
  name : Str
  pipeline : Pipeline
  inlineComment : Option Comment
  start : Nat
  stop : Nat
  lineNumber : Option Nat

structure MutationResolver where
  name : Str
  pipeline : Pipeline
  inlineComment : Option Comment
  start : Nat
  stop : Nat
  lineNumber : Option Nat

structure TypeResolver where
  typeName : Str
  fieldName : Str
  pipeline : Pipeline
  inlineComment : Option Comment
  start : Nat
  stop : Nat
  lineNumber : Option Nat

inductive WhenClause where
  | CallingRoute (method path : Str) (start stop : Nat)
  | ExecutingPipeline (name : Str) (start stop : Nat)
  | ExecutingVariable (varType name : Str) (start stop : Nat)
  deriving DecidableEq, Repr

inductive DomAssert where
  | Exists
  | Text
  | Count
  | Attribute (name : Str)
  deriving DecidableEq, Repr

structure Condition where
  conditionType : Str
  field : Str
  headerName : Option Str
  jqExpr : Option Str
  comparison : Str
  value : Str
  selector : Option Str
  domAssert : Option DomAssert
  isCallAssertion : Option Bool
  callTarget : Option Str
  start : Nat
  stop : Nat
  deriving DecidableEq, Repr

structure Mock where
  target : Str
  returnValue : Str
  start : Nat
  stop : Nat
  deriving DecidableEq, Repr

structure LetBinding where
  name : Str
  value : Str
  format : Str
  start : Nat
  stop : Nat
  fullStart : Nat
  fullEnd : Nat
  deriving DecidableEq, Repr

structure ItBlock where
  name : Str
  mocks : List Mock
  whenClause : WhenClause
  vars : Option (List LetBinding)
  input : Option Str
  body : Option Str
  headers : Option Str
  cookies : Option Str
  conditions : List Condition
  start : Nat
  stop : Nat
  deriving DecidableEq, Repr

structure Describe where
  name : Str
  vars : List LetBinding
  mocks : List Mock
  tests : List ItBlock
  inlineComment : Option Comment
  start : Nat
  stop : Nat
  lineNumber : Option Nat
  deriving DecidableEq, Repr

structure TestLetVariable where
  name : Str
  describeName : Str
  testName : Option Str
  start : Nat
  stop : Nat
  deriving DecidableEq, Repr

structure Program where
  configs : List Config
  pipelines : List NamedPipeline
  vars : List Variable
  routes : List Route
  describes : List Describe
  comments : List Comment
  graphqlSchema : Option GraphQLSchema
  queries : List QueryResolver
  mutations : List MutationResolver
  resolvers : List TypeResolver
  featureFlags : Option Pipeline

structure Range where
  start : Nat
  stop : Nat
  deriving DecidableEq, Repr

/- ## Parser state and monad -/

/-- The mutable fields of the `Parser` object (the immutable `text` is
passed separately to every rule). -/
structure St where
  pos : Nat
  diagnostics : List Diagnostic
  pipelineRanges : List (Str × Range)
  variableRanges : List (Str × Range)
  testLetVariables : List TestLetVariable
  currentDescribeName : Option Str
  currentTestName : Option Str

def initSt : St :=
  { pos := 0, diagnostics := [], pipelineRanges := [], variableRanges := []
  , testLetVariables := [], currentDescribeName := none, currentTestName := none }

/-- The parser monad: a rule either returns a value (`some`) or signals a
parse failure (`none`, the image of a thrown `ParseFailure`); either way the
state at that moment is kept, because a JavaScript `throw` does not undo
assignments already made to `this`. -/
def PM (α : Type) : Type := St → Option α × St

instance : Monad PM where
  pure a := fun st => (some a, st)
  bind m f := fun st =>
    match m st with
    | (some a, st') => f a st'
    | (none, st') => (none, st')

/-- Signal a parse failure (`throw new ParseFailure(...)`). -/
def pfail : PM α := fun st => (none, st)

def getSt : PM St := fun st => (some st, st)

def getPos : PM Nat := fun st => (some st.pos, st)

/-- Raw cursor assignment (`this.pos = p`); only ever used to restore a
previously saved position. -/
def setPos (p : Nat) : PM Unit := fun st => (some (), { st with pos := p })

/-- `this.pos += n`. -/
def bumpPos (n : Nat) : PM Unit := fun st => (some (), { st with pos := st.pos + n })

/-- JavaScript `Map.prototype.set`: overwrite an existing key in place,
otherwise append. -/
def mapSet (m : List (Str × Range)) (k : Str) (v : Range) : List (Str × Range) :=
  if m.any (fun p => p.1 = k) then
    m.map (fun p => if p.1 = k then (k, v) else p)
  else m ++ [(k, v)]

/-- Shorthand turning a Lean string literal into source text. -/
def strL (s : String) : Str := s.data

/- ## Scanner primitives (`eof`, `cur`, `consumeWhile`, `match`, ...) -/

section Scanner

variable (text : Str)

/-- `this.eof()`. -/
def eofAt (pos : Nat) : Bool := decide (pos ≥ text.length)

/-- `this.cur()` / `this.peek()`: the character at `pos`, `'\0'` past the end. -/
def curAt (pos : Nat) : Char := (text.get? pos).getD nulChar

/-- `this.text.slice(a, b)`. -/
def sliceStr (a b : Nat) : Str := (text.drop a).take (b - a)

/-- `findLineStart`: walk back to the character after the previous newline. -/
def findLineStartFrom : Nat → Nat
  | 0 => 0
  | i + 1 => if text.get? i = some '\n' then i + 1 else findLineStartFrom i

def findLineStart (pos : Nat) : Nat := findLineStartFrom text (min pos text.length)

/-- `findLineEnd`: walk forward to the next newline (or end of input). -/
def findLineEnd (pos : Nat) : Nat :=
  let i := min pos text.length
  i + ((text.drop i).takeWhile (fun c => c ≠ '\n')).length

/-- `getLineNumber`: `text.slice(0, pos).split("\n").length`. -/
def getLineNumber (pos : Nat) : Nat :=
  ((text.take pos).countP (fun c => c = '\n')) + 1

/-- `this.diagnostics.push({message, start, end, severity})`. -/
def reportP (message : Str) (start stop : Nat) (severity : Str) : PM Unit :=
  fun st =>
    (some (), { st with diagnostics :=
        st.diagnostics ++ [{ message := message, start := start, stop := stop
                           , severity := severity }] })

/-- `tryParse`: run a rule; on failure restore only the saved cursor (the
`catch` block restores `this.pos` but keeps diagnostics and index maps). -/
def tryParseP (m : PM α) : PM (Option α) := fun st =>
  match m st with
  | (some v, st') => (some (some v), st')
  | (none, st') => (some none, { st' with pos := st.pos })

/-- `consumeWhile(pred)`: advance while the predicate holds, returning the
consumed slice. -/
def consumeWhileP (p : Char → Bool) : PM Str := fun st =>
  let taken := (text.drop st.pos).takeWhile p
  (some taken, { st with pos := st.pos + taken.length })

/-- Check `text.startsWith(s, this.pos)` without consuming. -/
def testPrefixP (s : Str) : PM Bool := fun st =>
  (some (startsWithAt text s st.pos), st)

/-- `match(str)`: consume the literal if present, reporting whether it was. -/
def matchP (s : Str) : PM Bool := fun st =>
  if startsWithAt text s st.pos then (some true, { st with pos := st.pos + s.length })
  else (some false, st)

/-- `expect(str)`: `match` or fail. -/
def expectP (s : Str) : PM Unit := do
  let ok ← matchP text s
  if ok then pure () else pfail

/-- `skipToEol`. -/
def skipToEolP : PM Unit := do
  _ ← consumeWhileP text (fun c => c ≠ '\n')
  pure ()

/-- `skipInlineSpaces` (space / tab / CR only). -/
def skipInlineSpacesP : PM Unit := do
  _ ← consumeWhileP text (fun ch => ch = ' ' || ch = '\t' || ch = '\r')
  pure ()

/-- `skipWhitespaceOnly` (also newlines, but no comment swallowing). -/
def skipWhitespaceOnlyP : PM Unit := do
  _ ← consumeWhileP text (fun ch => ch = ' ' || ch = '\t' || ch = '\r' || ch = '\n')
  pure ()

/-- `cur()` as a monadic read. -/
def curP : PM Char := fun st => (some (curAt text st.pos), st)

/-- `eof()` as a monadic read. -/
def eofP : PM Bool := fun st => (some (eofAt text st.pos), st)

/-- One round of the `skipSpaces` `while (true)` loop; `ih` continues the
loop (fuel-indexed recursion is spelled with `Nat.rec` throughout this
development so that concrete runs reduce efficiently). -/
def skipSpacesStep (ih : PM Unit) : PM Unit := do
  _ ← consumeWhileP text (fun ch => ch = ' ' || ch = '\t' || ch = '\r' || ch = '\n')
  if (← testPrefixP text (strL "#")) then
    skipToEolP text
    _ ← (if (← curP text) = '\n' then bumpPos 1 else pure ())
    ih
  else if (← testPrefixP text (strL "//")) then
    skipToEolP text
    _ ← (if (← curP text) = '\n' then bumpPos 1 else pure ())
    ih
  else
    pure ()

/-- `skipSpaces`: whitespace plus `#`/`//` comment lines, repeatedly.  Each
comment round consumes at least one character, so `text.length + 1` rounds
always suffice. -/
def skipSpacesAux : Nat → PM Unit := fun fuel =>
  Nat.rec pfail (fun _ ih => skipSpacesStep text ih) fuel

def skipSpacesP : PM Unit := fun st => skipSpacesAux text (text.length + 1) st

end Scanner

/- ## Lexical-level rules -/

/-- `/[A-Za-z_]/`. -/
def isIdentStart (ch : Char) : Bool :=
  ('A' ≤ ch && ch ≤ 'Z') || ('a' ≤ ch && ch ≤ 'z') || ch = '_'

/-- `/[A-Za-z0-9_\-]/`. -/
def isIdentCont (ch : Char) : Bool :=
  ('A' ≤ ch && ch ≤ 'Z') || ('a' ≤ ch && ch ≤ 'z') || ('0' ≤ ch && ch ≤ '9')
    || ch = '_' || ch = '-'

/-- `this.isIdentCont(this.text[i] || "")`: false past the end. -/
def identContAt (text : Str) (i : Nat) : Bool :=
  match text.get? i with
  | some c => isIdentCont c
  | none => false

/-- `parseInt(digits, 10)` for a digit string. -/
def strToNat (s : Str) : Nat :=
  s.foldl (fun n c => n * 10 + (c.toNat - '0'.toNat)) 0

section Rules

variable (text : Str)

def parseIdentifier : PM Str := do
  let c ← curP text
  if isIdentStart c then do
    let start ← getPos
    bumpPos 1
    _ ← consumeWhileP text isIdentCont
    let p ← getPos
    pure (sliceStr text start p)
  else pfail

def parseNumber : PM Nat := do
  let start ← getPos
  let digits ← consumeWhileP text (fun c => '0' ≤ c && c ≤ '9')
  if digits.length = 0 then pfail
  else do
    let p ← getPos
    pure (strToNat (sliceStr text start p))

def parseQuotedString : PM Str := do
  expectP text (strL "\"")
  let start ← getPos
  _ ← consumeWhileP text (fun ch => ch ≠ '"')
  let p ← getPos
  let content := sliceStr text start p
  expectP text (strL "\"")
  pure content

def parseBacktickString : PM Str := do
  expectP text (strL "`")
  let start ← getPos
  _ ← consumeWhileP text (fun ch => ch ≠ '`')
  let p ← getPos
  let content := sliceStr text start p
  expectP text (strL "`")
  pure content

/-- `parseMethod`: the fixed closed set, tried in order. -/
def parseMethod : PM Str := do
  if (← matchP text (strL "GET")) then pure (strL "GET")
  else if (← matchP text (strL "POST")) then pure (strL "POST")
  else if (← matchP text (strL "PUT")) then pure (strL "PUT")
  else if (← matchP text (strL "DELETE")) then pure (strL "DELETE")
  else pfail

def parseStepConfig : PM (Str × StepConfigType) := do
  let bt ← tryParseP (parseBacktickString text)
  match bt with
  | some c => pure (c, StepConfigType.backtick)
  | none => do
    let dq ← tryParseP (parseQuotedString text)
    match dq with
    | some c => pure (c, StepConfigType.quoted)
    | none => do
      let id ← tryParseP (parseIdentifier text)
      match id with
      | some c => pure (c, StepConfigType.identifier)
      | none => pfail

def parseInlineComment : PM (Option Comment) := do
  skipInlineSpacesP text
  let start ← getPos
  if (← testPrefixP text (strL "#")) then do
    bumpPos 1
    let t ← consumeWhileP text (fun ch => ch ≠ '\n')
    pure (some { kind := .inline, text := t, style := strL "#"
               , lineNumber := getLineNumber text start })
  else if (← testPrefixP text (strL "//")) then do
    bumpPos 2
    let t ← consumeWhileP text (fun ch => ch ≠ '\n')
    pure (some { kind := .inline, text := t, style := strL "//"
               , lineNumber := getLineNumber text start })
  else pure none

def parseStandaloneComment : PM (Option Comment) := do
  let start ← getPos
  if (← testPrefixP text (strL "#")) then do
    bumpPos 1
    let restOfLine ← consumeWhileP text (fun ch => ch ≠ '\n')
    pure (some { kind := .standalone, text := restOfLine, style := strL "#"
               , lineNumber := getLineNumber text start })
  else if (← testPrefixP text (strL "//")) then do
    bumpPos 2
    let t ← consumeWhileP text (fun ch => ch ≠ '\n')
    pure (some { kind := .standalone, text := t, style := strL "//"
               , lineNumber := getLineNumber text start })
  else pure none

/- ## Tags and tag expressions -/

def parseTagArgument : PM Str := do
  let bt ← tryParseP (parseBacktickString text)
  match bt with
  | some s => pure s
  | none => parseIdentifier text

/-- One round of the `while (this.cur() === ",")` loop of `parseTagArgs`. -/
def parseTagArgsStep (ih : List Str → PM (List Str)) (args : List Str) :
    PM (List Str) := do
  let c ← curP text
  if c = ',' then do
    bumpPos 1
    skipInlineSpacesP text
    let c2 ← curP text
    if c2 = ')' then pfail
    else do
      let a ← parseTagArgument text
      skipInlineSpacesP text
      ih (args ++ [a])
  else pure args

def parseTagArgsLoop : Nat → List Str → PM (List Str) := fun fuel =>
  Nat.rec (fun _ => pfail) (fun _ ih => parseTagArgsStep text ih) fuel

/-- `parseTagArgs`: parenthesised argument lists must be non-empty
(`empty tag arguments not allowed`) and must not end in a comma
(`trailing comma in tag arguments`); both are parse failures. -/
def parseTagArgs : PM (List Str) := do
  expectP text (strL "(")
  skipInlineSpacesP text
  let c ← curP text
  if c = ')' then pfail
  else do
    let a ← parseTagArgument text
    skipInlineSpacesP text
    let args ← parseTagArgsLoop text (text.length + 1) [a]
    expectP text (strL ")")
    pure args

def parseTag : PM Tag := do
  let start ← getPos
  expectP text (strL "@")
  let c ← curP text
  let negated := c = '!'
  _ ← (if negated then bumpPos 1 else pure ())
  let name ← parseIdentifier text
  let c2 ← curP text
  let args ← (if c2 = '(' then parseTagArgs text else pure [])
  let stop ← getPos
  pure { name := name, negated := negated, args := args, start := start, stop := stop }

end Rules

/-- The mutually recursive tag-expression grammar, bundled as a record so
that one `Nat.rec` over fuel can tie the recursive knot (precedence
AND > OR): `or_expr := and_expr ("or" and_expr)*`,
`and_expr := primary ("and" primary)*`, `primary := tag | "(" tag_expr ")"`. -/
structure TagFns where
  tagExpr : PM TagExpr
  orExpr : PM TagExpr
  orLoop : TagExpr → PM TagExpr
  andExpr : PM TagExpr
  andLoop : TagExpr → PM TagExpr
  tagPrimary : PM TagExpr

section Rules2

variable (text : Str)

def tagFnsBot : TagFns :=
  { tagExpr := pfail, orExpr := pfail, orLoop := fun _ => pfail
  , andExpr := pfail, andLoop := fun _ => pfail, tagPrimary := pfail }

/-- One fuel level of the tag-expression grammar; `prev` holds the
functions one fuel level down (every recursive call, including the
`while (true)` loops of `parseOrExpr`/`parseAndExpr`, descends a level). -/
def tagFnsStep (prev : TagFns) : TagFns where
  tagExpr := prev.orExpr
  orExpr := do
    let left ← prev.andExpr
    prev.orLoop left
  orLoop := fun left => do
    let saved ← getPos
    skipInlineSpacesP text
    let p ← getPos
    if startsWithAt text (strL "or") p && !(identContAt text (p + 2)) then do
      bumpPos 2
      skipInlineSpacesP text
      let right ← prev.andExpr
      prev.orLoop (.Or left right)
    else do
      setPos saved
      pure left
  andExpr := do
    let left ← prev.tagPrimary
    prev.andLoop left
  andLoop := fun left => do
    let saved ← getPos
    skipInlineSpacesP text
    let p ← getPos
    if startsWithAt text (strL "and") p && !(identContAt text (p + 3)) then do
      bumpPos 3
      skipInlineSpacesP text
      let right ← prev.tagPrimary
      prev.andLoop (.And left right)
    else do
      setPos saved
      pure left
  tagPrimary := do
    let c ← curP text
    if c = '(' then do
      bumpPos 1
      skipInlineSpacesP text
      let expr ← prev.tagExpr
      skipInlineSpacesP text
      expectP text (strL ")")
      pure expr
    else do
      let tag ← parseTag text
      pure (.Tag tag)

def tagFnsAt : Nat → TagFns := fun fuel =>
  Nat.rec tagFnsBot (fun _ prev => tagFnsStep text prev) fuel

def parseTagExpr (fuel : Nat) : PM TagExpr := (tagFnsAt text fuel).tagExpr

def parseOrExpr (fuel : Nat) : PM TagExpr := (tagFnsAt text fuel).orExpr

def parseAndExpr (fuel : Nat) : PM TagExpr := (tagFnsAt text fuel).andExpr

def parseTagPrimary (fuel : Nat) : PM TagExpr := (tagFnsAt text fuel).tagPrimary

/-- One round of the trailing implicit-AND loop of `parseStepCondition`:
further bare `@tag` tokens are folded in as left-associated `And` nodes. -/
def parseStepCondStep (ih : TagExpr → PM TagExpr) (expr : TagExpr) : PM TagExpr := do
  skipInlineSpacesP text
  let ch2 ← curP text
  if ch2 = '\n' || ch2 = '\r' || ch2 = '#' then pure expr
  else if (← testPrefixP text (strL "//")) then pure expr
  else if ch2 ≠ '@' then pure expr
  else do
    let nextTag ← parseTag text
    ih (.And expr (.Tag nextTag))

def parseStepCondLoop : Nat → TagExpr → PM TagExpr := fun fuel =>
  Nat.rec (fun _ => pfail) (fun _ ih => parseStepCondStep text ih) fuel

/-- `parseStepCondition`: optional tag expression guarding a step. -/
def parseStepCondition (fuel : Nat) : PM (Option TagExpr) := do
  skipInlineSpacesP text
  let ch ← curP text
  if ch ≠ '@' && ch ≠ '(' then pure none
  else do
    let expr ← parseTagExpr text fuel
    let expr2 ← parseStepCondLoop text fuel expr
    pure (some expr2)

end Rules2

/- ## A model of `JSON.parse`, used only by `parseJoinTaskNames`

`parseJoinTaskNames` calls `JSON.parse` on a `join` step's config when it
starts with `[`; the result is used only when it is an array of strings. -/

inductive Json where
  | null
  | bool (b : Bool)
  | num (lexeme : Str)
  | str (s : Str)
  | arr (elems : List Json)
  | obj (members : List (Str × Json))

/-- JSON insignificant whitespace. -/
def jsonDropWs (s : Str) : Str :=
  s.dropWhile (fun c => c = ' ' || c = '\t' || c = '\n' || c = '\r')

/-- The value of one hexadecimal digit of a `\uXXXX` escape, compared on
code points as `parseInt(..., 16)` effectively does. -/
def jsonHexVal (c : Char) : Option Nat :=
  let n := c.toNat
  if 48 ≤ n ∧ n ≤ 57 then some (n - 48)
  else if 97 ≤ n ∧ n ≤ 102 then some (n - 87)
  else if 65 ≤ n ∧ n ≤ 70 then some (n - 55)
  else none

/-- Body of a JSON string after the opening quote, with escapes.
(`\uXXXX` denoting a lone surrogate maps to `Char.ofNat`'s fallback; no
claim in this development evaluates it.) -/
def jsonStringAux : List Char → Option (Str × List Char)
  | [] => none
  | '"' :: rest => some ([], rest)
  | '\\' :: 'u' :: a :: b :: c :: d :: rest => do
    let va ← jsonHexVal a
    let vb ← jsonHexVal b
    let vc ← jsonHexVal c
    let vd ← jsonHexVal d
    let (s, r) ← jsonStringAux rest
    pure (Char.ofNat (((va * 16 + vb) * 16 + vc) * 16 + vd) :: s, r)
  | '\\' :: e :: rest => do
    let decoded ←
      if e = '"' then some '"'
      else if e = '\\' then some '\\'
      else if e = '/' then some '/'
      else if e = 'b' then some (Char.ofNat 8)
      else if e = 'f' then some (Char.ofNat 12)
      else if e = 'n' then some '\n'
      else if e = 'r' then some '\r'
      else if e = 't' then some '\t'
      else none
    let (s, r) ← jsonStringAux rest
    pure (decoded :: s, r)
  | c :: rest =>
    if c.toNat < 32 then none
    else do
      let (s, r) ← jsonStringAux rest
      pure (c :: s, r)

/-- A JSON number lexeme: `-?(0|[1-9][0-9]*)(\.[0-9]+)?([eE][+-]?[0-9]+)?`. -/
def jsonNumberAux (s : List Char) : Option (Str × List Char) :=
  let isDigit : Char → Bool := fun c => '0' ≤ c && c ≤ '9'
  let (sign, s1) := match s with
    | '-' :: r => ((['-'] : Str), r)
    | _ => (([] : Str), s)
  let intPart := s1.takeWhile isDigit
  let s2 := s1.drop intPart.length
  if intPart.length = 0 then none
  else if intPart.length > 1 && intPart.headI = '0' then none
  else
    let (frac, s3) := match s2 with
      | '.' :: r =>
        let ds := r.takeWhile isDigit
        if ds.length = 0 then (none, s2) else (some ('.' :: ds), r.drop ds.length)
      | _ => (none, s2)
    match frac, s3 with
    | none, '.' :: _ => none
    | fr, s3' =>
      let (ex, s4) : Option Str × List Char := match s3' with
        | e :: r =>
          if e = 'e' || e = 'E' then
            let (es, r2) := match r with
              | '+' :: r' => ((['+'] : Str), r')
              | '-' :: r' => ((['-'] : Str), r')
              | _ => (([] : Str), r)
            let ds := r2.takeWhile isDigit
            if ds.length = 0 then (none, s3') else (some (e :: (es ++ ds)), r2.drop ds.length)
          else (none, s3')
        | _ => (none, s3')
      match s3', ex with
      | e :: _, none =>
        if e = 'e' || e = 'E' then none
        else some (sign ++ intPart ++ (fr.getD []) ++ [], s3')
      | _, _ => some (sign ++ intPart ++ (fr.getD []) ++ (ex.getD []), s4)

/-- The recursive part of JSON parsing, tied with fuel. -/
structure JsonFns where
  value : List Char → Option (Json × List Char)
  arrTail : List Json → List Char → Option (List Json × List Char)
  objTail : List (Str × Json) → List Char → Option (List (Str × Json) × List Char)

def jsonMember (valueFn : List Char → Option (Json × List Char))
    (s : List Char) : Option ((Str × Json) × List Char) :=
  match jsonDropWs s with
  | '"' :: r => do
    let (k, r2) ← jsonStringAux r
    match jsonDropWs r2 with
    | ':' :: r3 => do
      let (v, r4) ← valueFn r3
      pure ((k, v), r4)
    | _ => none
  | _ => none

def jsonFnsStep (prev : JsonFns) : JsonFns where
  value := fun s =>
    let s := jsonDropWs s
    match s with
    | '"' :: rest => (jsonStringAux rest).map (fun p => (Json.str p.1, p.2))
    | '[' :: rest =>
      (match jsonDropWs rest with
      | ']' :: r2 => some (Json.arr [], r2)
      | r1 => do
        let (v, r2) ← prev.value r1
        let (vs, r3) ← prev.arrTail [v] r2
        pure (Json.arr vs, r3))
    | '{' :: rest =>
      (match jsonDropWs rest with
      | '}' :: r2 => some (Json.obj [], r2)
      | r1 => do
        let (m, r2) ← jsonMember prev.value r1
        let (ms, r3) ← prev.objTail [m] r2
        pure (Json.obj ms, r3))
    | _ =>
      if startsWithAt s (strL "true") 0 then some (Json.bool true, s.drop 4)
      else if startsWithAt s (strL "false") 0 then some (Json.bool false, s.drop 5)
      else if startsWithAt s (strL "null") 0 then some (Json.null, s.drop 4)
      else (jsonNumberAux s).map (fun p => (Json.num p.1, p.2))
  arrTail := fun acc s =>
    match jsonDropWs s with
    | ',' :: r => do
      let (v, r2) ← prev.value r
      prev.arrTail (acc ++ [v]) r2
    | ']' :: r => some (acc, r)
    | _ => none
  objTail := fun acc s =>
    match jsonDropWs s with
    | ',' :: r => do
      let (m, r2) ← jsonMember prev.value r
      prev.objTail (acc ++ [m]) r2
    | '}' :: r => some (acc, r)
    | _ => none

def jsonFnsBot : JsonFns :=
  { value := fun _ => none, arrTail := fun _ _ => none, objTail := fun _ _ => none }

def jsonFnsAt : Nat → JsonFns := fun fuel =>
  Nat.rec jsonFnsBot (fun _ prev => jsonFnsStep prev) fuel

/-- `JSON.parse`: `none` models a thrown `SyntaxError`. -/
def jsParseJson (s : Str) : Option Json := do
  let (v, rest) ← (jsonFnsAt (s.length + 1)).value s
  if jsonDropWs rest = ([] : Str) then some v else none

/-- `Array.isArray(x) && x.every(n => typeof n === "string")`. -/
def jsonAllStrings : List Json → Option (List Str)
  | [] => some []
  | Json.str s :: rest => (jsonAllStrings rest).map (fun l => s :: l)
  | _ :: _ => none

/-- `parseJoinTaskNames`: pre-parse a `join` config into task names, from a
JSON string array or a comma list; `none` models returning `undefined`. -/
def parseJoinTaskNames (config : Str) : Option (List Str) :=
  let trimmed := jsTrim config
  let commaPath : Option (List Str) :=
    let names := ((trimmed.splitOn ',').map jsTrim).filter (fun s => decide (s.length > 0))
    if names.length = 0 then none else some names
  if startsWithAt trimmed (strL "[") 0 then
    match jsParseJson trimmed with
    | none => none
    | some (Json.arr xs) =>
      match jsonAllStrings xs with
      | some names2 => some names2
      | none => commaPath
    | some _ => commaPath
  else commaPath

/- ## Inline-argument splitting -/

/-- `splitBalancedArgs`: split on commas at bracket depth zero, outside
quoted/backticked strings; backslash escapes inside strings. -/
def splitBalancedArgsAux :
    List Char → Str → Int → Bool → Char → Bool → List Str → List Str
  | [], current, _, _, _, _, args =>
    if (jsTrim current).length > 0 then args ++ [jsTrim current] else args
  | ch :: rest, current, depth, inString, stringChar, escapeNext, args =>
    if escapeNext then
      splitBalancedArgsAux rest (current ++ [ch]) depth inString stringChar false args
    else if ch = '\\' && inString then
      splitBalancedArgsAux rest (current ++ [ch]) depth inString stringChar true args
    else if (ch = '"' || ch = '`') && !inString then
      splitBalancedArgsAux rest (current ++ [ch]) depth true ch false args
    else if ch = stringChar && inString then
      splitBalancedArgsAux rest (current ++ [ch]) depth false nulChar false args
    else if inString then
      splitBalancedArgsAux rest (current ++ [ch]) depth inString stringChar false args
    else if ch = '(' || ch = '[' || ch = '{' then
      splitBalancedArgsAux rest (current ++ [ch]) (depth + 1) inString stringChar false args
    else if ch = ')' || ch = ']' || ch = '}' then
      splitBalancedArgsAux rest (current ++ [ch]) (depth - 1) inString stringChar false args
    else if ch = ',' && depth = 0 then
      splitBalancedArgsAux rest [] depth inString stringChar false (args ++ [jsTrim current])
    else
      splitBalancedArgsAux rest (current ++ [ch]) depth inString stringChar false args

def splitBalancedArgs (content : Str) : List Str :=
  splitBalancedArgsAux content [] 0 false nulChar false []

section Rules3

variable (text : Str)

/-- One round of the bracket-scanning `while` loop of `parseInlineArgs`;
returns the final nesting depth (`0` exactly when the matching close
bracket is under the cursor). -/
def inlineArgsScanStep (openChar closeChar : Char)
    (ih : Int → Bool → Char → Bool → PM Int)
    (depth : Int) (inString : Bool) (stringChar : Char) (escapeNext : Bool) :
    PM Int := do
  if (← eofP text) then pure depth
  else if depth ≤ 0 then pure depth
  else do
    let c ← curP text
    if escapeNext then do
      bumpPos 1
      ih depth inString stringChar false
    else if c = '\\' && inString then do
      bumpPos 1
      ih depth inString stringChar true
    else if (c = '"' || c = '`') && !inString then do
      bumpPos 1
      ih depth true c escapeNext
    else if c = stringChar && inString then do
      bumpPos 1
      ih depth false nulChar escapeNext
    else
      let depth' : Int :=
        if !inString && c = openChar then depth + 1
        else if !inString && c = closeChar then depth - 1
        else depth
      if !inString && c = closeChar && depth' = 0 then pure depth'
      else do
        bumpPos 1
        ih depth' inString stringChar escapeNext

def inlineArgsScan (openChar closeChar : Char) :
    Nat → Int → Bool → Char → Bool → PM Int := fun fuel =>
  Nat.rec (fun _ _ _ _ => pfail)
    (fun _ ih => inlineArgsScanStep text openChar closeChar ih) fuel

/-- `parseInlineArgs`: `middleware(arg1, arg2)` or `middleware[arg1, arg2]`;
restores the cursor and yields `[]` when no bracket follows. -/
def parseInlineArgs : PM (List Str) := do
  let trimmedStart ← getPos
  skipInlineSpacesP text
  let ch ← curP text
  if ch ≠ '(' && ch ≠ '[' then do
    setPos trimmedStart
    pure []
  else do
    let openChar := ch
    let closeChar := if openChar = '(' then ')' else ']'
    bumpPos 1
    let contentStart ← getPos
    let depth ← inlineArgsScan text openChar closeChar (text.length + 1) 1 false nulChar false
    if depth ≠ 0 then pfail
    else do
      let p ← getPos
      let argsContent := sliceStr text contentStart p
      bumpPos 1
      if (jsTrim argsContent).length = 0 then pure []
      else pure (splitBalancedArgs argsContent)

/- ## Config blocks -/

def parseConfigValue : PM ConfigValue := do
  let envWithDefault ← tryParseP (do
    expectP text (strL "$")
    let v ← parseIdentifier text
    skipInlineSpacesP text
    expectP text (strL "||")
    skipInlineSpacesP text
    let dflt ← parseQuotedString text
    pure (ConfigValue.EnvVar v (some dflt)))
  match envWithDefault with
  | some v => pure v
  | none => do
    let envNoDefault ← tryParseP (do
      expectP text (strL "$")
      let v ← parseIdentifier text
      pure (ConfigValue.EnvVar v none))
    match envNoDefault with
    | some v => pure v
    | none => do
      let str ← tryParseP (parseQuotedString text)
      match str with
      | some s => pure (ConfigValue.String s)
      | none => do
        let bool ← tryParseP (do
          if (← matchP text (strL "true")) then pure true
          else if (← matchP text (strL "false")) then pure false
          else pfail)
        match bool with
        | some b => pure (ConfigValue.Boolean b)
        | none => do
          let num ← tryParseP (parseNumber text)
          match num with
          | some n => pure (ConfigValue.Number n)
          | none => pfail

def parseConfigProperty : PM ConfigProperty := do
  skipSpacesP text
  let start ← getPos
  let key ← parseIdentifier text
  skipInlineSpacesP text
  expectP text (strL ":")
  skipInlineSpacesP text
  let value ← parseConfigValue text
  let stop ← getPos
  pure { key := key, value := value, start := start, stop := stop }

/-- One round of the property loop of `parseConfig`. -/
def parseConfigStep (ih : List ConfigProperty → PM (List ConfigProperty))
    (props : List ConfigProperty) : PM (List ConfigProperty) := do
  let prop ← tryParseP (parseConfigProperty text)
  match prop with
  | none => pure props
  | some p => do
    skipSpacesP text
    ih (props ++ [p])

def parseConfigLoop : Nat → List ConfigProperty → PM (List ConfigProperty) :=
  fun fuel => Nat.rec (fun _ => pfail) (fun _ ih => parseConfigStep text ih) fuel

def parseConfig : PM Config := do
  let start ← getPos
  expectP text (strL "config")
  skipInlineSpacesP text
  let name ← parseIdentifier text
  skipInlineSpacesP text
  expectP text (strL "\x7b")
  let inlineComment ← parseInlineComment text
  skipSpacesP text
  let properties ← parseConfigLoop text (text.length + 1) []
  skipSpacesP text
  expectP text (strL "\x7d")
  skipWhitespaceOnlyP text
  let stop ← getPos
  pure { name := name, properties := properties, inlineComment := inlineComment
       , start := start, stop := stop, lineNumber := none }

/- ## Pipelines and steps -/

/-- `parseRegularStep`: `|> name(args)?: config? @guard?`.  A missing
config leaves `config = ""` with quoting form `quoted`. -/
def parseRegularStep : PM PipelineStep := do
  skipWhitespaceOnlyP text
  let start ← getPos
  expectP text (strL "|>")
  skipInlineSpacesP text
  let name ← parseIdentifier text
  let args ← parseInlineArgs text
  skipInlineSpacesP text
  let c ← curP text
  let cfg ←
    (if c = ':' then do
      bumpPos 1
      skipInlineSpacesP text
      parseStepConfig text
    else pure (([] : Str), StepConfigType.quoted))
  let condition ← parseStepCondition text (text.length + 1)
  let parsedJoinTargets :=
    if name = strL "join" then parseJoinTaskNames cfg.1 else none
  skipWhitespaceOnlyP text
  let stop ← getPos
  pure (PipelineStep.Regular name args cfg.1 cfg.2 condition parsedJoinTargets start stop)

end Rules3

/-- The mutually recursive pipeline grammar (`parsePipelineStep`,
`parseResultStep`, `parseIfStep`, `parseDispatchStep`, `parseForeachStep`,
`parseIfPipeline`, `parsePipeline` and their `while` loops), bundled so one
`Nat.rec` over fuel ties the knot. -/
structure PipeFns where
  pipelineStep : PM PipelineStep
  foreachStep : PM PipelineStep
  resultStep : PM PipelineStep
  resultBranch : PM ResultBranch
  resultBranchesLoop : List ResultBranch → PM (List ResultBranch)
  ifStep : PM PipelineStep
  dispatchStep : PM PipelineStep
  dispatchBranch : PM DispatchBranch
  dispatchBranchesLoop : List DispatchBranch → PM (List DispatchBranch)
  ifPipeline : List Str → PM Pipeline
  ifPipelineLoop : List Str → Nat → List PipelineStep → PM Pipeline
  pipeline : PM Pipeline
  pipelineLoop : Nat → List PipelineStep → PM Pipeline

section Rules4

variable (text : Str)

def pipeFnsBot : PipeFns :=
  { pipelineStep := pfail, foreachStep := pfail, resultStep := pfail
  , resultBranch := pfail, resultBranchesLoop := fun _ => pfail
  , ifStep := pfail, dispatchStep := pfail, dispatchBranch := pfail
  , dispatchBranchesLoop := fun _ => pfail, ifPipeline := fun _ => pfail
  , ifPipelineLoop := fun _ _ _ => pfail, pipeline := pfail
  , pipelineLoop := fun _ _ => pfail }

/-- One fuel level of the pipeline grammar; `prev` holds the functions one
fuel level down. -/
def pipeFnsStep (prev : PipeFns) : PipeFns where
  pipelineStep := do
    let result ← tryParseP prev.resultStep
    match result with
    | some s => pure s
    | none => do
      let ifStep ← tryParseP prev.ifStep
      match ifStep with
      | some s => pure s
      | none => do
        let dispatchStep ← tryParseP prev.dispatchStep
        match dispatchStep with
        | some s => pure s
        | none => do
          let foreachStep ← tryParseP prev.foreachStep
          match foreachStep with
          | some s => pure s
          | none => parseRegularStep text
  foreachStep := do
    skipWhitespaceOnlyP text
    let start ← getPos
    expectP text (strL "|>")
    skipInlineSpacesP text
    expectP text (strL "foreach")
    let c ← curP text
    if c ≠ ' ' && c ≠ '\t' then pfail
    else do
      skipInlineSpacesP text
      let raw ← consumeWhileP text (fun ch => ch ≠ '\n' && ch ≠ '#')
      let selector := jsTrim raw
      if selector.length = 0 then pfail
      else do
        skipSpacesP text
        let pipeline ← prev.ifPipeline [strL "end"]
        skipSpacesP text
        expectP text (strL "end")
        let stop ← getPos
        pure (PipelineStep.Foreach selector pipeline start stop)
  resultStep := do
    skipWhitespaceOnlyP text
    let start ← getPos
    expectP text (strL "|>")
    skipInlineSpacesP text
    expectP text (strL "result")
    skipWhitespaceOnlyP text
    let branches ← prev.resultBranchesLoop []
    let stop ← getPos
    pure (PipelineStep.Result branches start stop)
  resultBranch := do
    skipSpacesP text
    let start ← getPos
    let branchIdent ← parseIdentifier text
    let branchType :=
      if branchIdent = strL "ok" then BranchType.Ok
      else if branchIdent = strL "default" then BranchType.Default
      else BranchType.Custom branchIdent
    expectP text (strL "(")
    let statusCode ← parseNumber text
    _ ← (if statusCode < 100 || statusCode > 599 then do
      let p ← getPos
      reportP (strL "Invalid HTTP status code: " ++ natToStr statusCode)
        (p - (natToStr statusCode).length) p (strL "error")
    else pure ())
    expectP text (strL ")")
    expectP text (strL ":")
    skipSpacesP text
    let pipeline ← prev.pipeline
    let stop ← getPos
    pure (ResultBranch.mk branchType statusCode pipeline start stop)
  resultBranchesLoop := fun branches => do
    let br ← tryParseP prev.resultBranch
    match br with
    | none => pure branches
    | some b => prev.resultBranchesLoop (branches ++ [b])
  ifStep := do
    skipWhitespaceOnlyP text
    let start ← getPos
    expectP text (strL "|>")
    skipInlineSpacesP text
    expectP text (strL "if")
    skipSpacesP text
    let condition ← prev.ifPipeline [strL "then:"]
    skipSpacesP text
    expectP text (strL "then:")
    skipSpacesP text
    let thenBranch ← prev.ifPipeline [strL "else:", strL "end"]
    skipSpacesP text
    let elseBranch ← tryParseP (do
      expectP text (strL "else:")
      skipSpacesP text
      prev.ifPipeline [strL "end"])
    skipSpacesP text
    _ ← tryParseP (do
      expectP text (strL "end")
      pure true)
    let stop ← getPos
    pure (PipelineStep.If condition thenBranch elseBranch start stop)
  dispatchStep := do
    skipWhitespaceOnlyP text
    let start ← getPos
    expectP text (strL "|>")
    skipInlineSpacesP text
    expectP text (strL "dispatch")
    skipSpacesP text
    let branches ← prev.dispatchBranchesLoop []
    let defaultBranch ← tryParseP (do
      expectP text (strL "default:")
      skipSpacesP text
      prev.ifPipeline [strL "end"])
    skipSpacesP text
    _ ← tryParseP (do
      expectP text (strL "end")
      pure true)
    let stop ← getPos
    pure (PipelineStep.Dispatch branches defaultBranch start stop)
  dispatchBranch := do
    skipSpacesP text
    let start ← getPos
    expectP text (strL "case")
    skipInlineSpacesP text
    let condition ← parseTagExpr text (text.length + 1)
    skipInlineSpacesP text
    expectP text (strL ":")
    skipSpacesP text
    let pipeline ← prev.ifPipeline [strL "case", strL "default:", strL "end"]
    let stop ← getPos
    pure (DispatchBranch.mk condition pipeline start stop)
  dispatchBranchesLoop := fun branches => do
    let br ← tryParseP prev.dispatchBranch
    match br with
    | none => pure branches
    | some b => do
      skipSpacesP text
      prev.dispatchBranchesLoop (branches ++ [b])
  ifPipeline := fun stopKeywords => do
    let start ← getPos
    prev.ifPipelineLoop stopKeywords start []
  ifPipelineLoop := fun stopKeywords start steps => do
    let save ← getPos
    skipSpacesP text
    let p ← getPos
    if stopKeywords.any (fun kw => startsWithAt text kw p) then do
      setPos save
      pure (Pipeline.mk steps start save)
    else if !(startsWithAt text (strL "|>") p) then do
      setPos save
      pure (Pipeline.mk steps start save)
    else do
      let step ← prev.pipelineStep
      prev.ifPipelineLoop stopKeywords start (steps ++ [step])
  pipeline := do
    let start ← getPos
    prev.pipelineLoop start []
  pipelineLoop := fun start steps => do
    let save ← getPos
    skipSpacesP text
    let p ← getPos
    if !(startsWithAt text (strL "|>") p) then do
      setPos save
      pure (Pipeline.mk steps start save)
    else do
      let step ← prev.pipelineStep
      prev.pipelineLoop start (steps ++ [step])

def pipeFnsAt : Nat → PipeFns := fun fuel =>
  Nat.rec pipeFnsBot (fun _ prev => pipeFnsStep text prev) fuel

def parsePipeline (fuel : Nat) : PM Pipeline := (pipeFnsAt text fuel).pipeline

def parsePipelineStep (fuel : Nat) : PM PipelineStep :=
  (pipeFnsAt text fuel).pipelineStep

def parseIfPipeline (fuel : Nat) (stopKeywords : List Str) : PM Pipeline :=
  (pipeFnsAt text fuel).ifPipeline stopKeywords

end Rules4

/- ## State fields only the test DSL touches -/

def pushTestLetVariableP (v : TestLetVariable) : PM Unit := fun st =>
  (some (), { st with testLetVariables := st.testLetVariables ++ [v] })

def setCurrentDescribeNameP (v : Option Str) : PM Unit := fun st =>
  (some (), { st with currentDescribeName := v })

def setCurrentTestNameP (v : Option Str) : PM Unit := fun st =>
  (some (), { st with currentTestName := v })

def setPipelineRangeP (k : Str) (v : Range) : PM Unit := fun st =>
  (some (), { st with pipelineRanges := mapSet st.pipelineRanges k v })

def setVariableRangeP (k : Str) (v : Range) : PM Unit := fun st =>
  (some (), { st with variableRanges := mapSet st.variableRanges k v })

section Rules5

variable (text : Str)

/- ## The test DSL (`describe` / `it`) -/

def parseWhen : PM WhenClause := do
  let calling ← tryParseP (do
    let start ← getPos
    expectP text (strL "calling")
    skipInlineSpacesP text
    let method ← parseMethod text
    skipInlineSpacesP text
    let path ← consumeWhileP text (fun c => c ≠ '\n')
    let stop ← getPos
    pure (WhenClause.CallingRoute method path start stop))
  match calling with
  | some w => pure w
  | none => do
    let executingPipeline ← tryParseP (do
      let start ← getPos
      expectP text (strL "executing")
      skipInlineSpacesP text
      expectP text (strL "pipeline")
      skipInlineSpacesP text
      let name ← parseIdentifier text
      let stop ← getPos
      pure (WhenClause.ExecutingPipeline name start stop))
    match executingPipeline with
    | some w => pure w
    | none => do
      let executingVariable ← tryParseP (do
        let start ← getPos
        expectP text (strL "executing")
        skipInlineSpacesP text
        expectP text (strL "variable")
        skipInlineSpacesP text
        let varType ← parseIdentifier text
        skipInlineSpacesP text
        let name ← parseIdentifier text
        let stop ← getPos
        pure (WhenClause.ExecutingVariable varType name start stop))
      match executingVariable with
      | some w => pure w
      | none => pfail

/-- Shared tail of `parseCondition`: a backtick string, else a quoted
string, else the rest of the line. -/
def parseConditionValue : PM Str := do
  let v1 ← tryParseP (parseBacktickString text)
  match v1 with
  | some v => pure v
  | none => do
    let v2 ← tryParseP (parseQuotedString text)
    match v2 with
    | some v => pure v
    | none => consumeWhileP text (fun c => c ≠ '\n')

/-- A backtick string, else a quoted string, else fail (selector names and
attribute names). -/
def parseQuotedOrBacktick : PM Str := do
  let bt ← tryParseP (parseBacktickString text)
  match bt with
  | some v => pure v
  | none => do
    let qt ← tryParseP (parseQuotedString text)
    match qt with
    | some v => pure v
    | none => pfail

def parseCondition : PM Condition := do
  skipSpacesP text
  let start ← getPos
  let thenM ← matchP text (strL "then")
  let ct ←
    (if thenM then pure (strL "Then")
    else do
      let andM ← matchP text (strL "and")
      if andM then pure (strL "And") else pfail)
  skipInlineSpacesP text
  let field ← consumeWhileP text (fun c => c ≠ ' ' && c ≠ '\n' && c ≠ '`')
  skipInlineSpacesP text
  if field = strL "call" then do
    let callType ← consumeWhileP text (fun c => c ≠ ' ')
    skipInlineSpacesP text
    let callName ← consumeWhileP text (fun c => c ≠ ' ' && c ≠ '\n')
    let callTarget := callType ++ strL "." ++ callName
    skipInlineSpacesP text
    let hasWithArgs ← testPrefixP text (strL "with arguments")
    let comparison2 ←
      (if hasWithArgs then do
        bumpPos 14
        pure (strL "with arguments")
      else do
        let hasWith ← testPrefixP text (strL "with")
        if hasWith then do
          bumpPos 4
          pure (strL "with")
        else pfail)
    skipInlineSpacesP text
    let value2 ← parseConditionValue text
    let stop ← getPos
    pure { conditionType := ct, field := strL "call", headerName := none
         , jqExpr := none, comparison := comparison2, value := value2
         , selector := none, domAssert := none, isCallAssertion := some true
         , callTarget := some callTarget, start := start, stop := stop }
  else if field = strL "selector" then do
    let selectorStr ← parseQuotedOrBacktick text
    skipInlineSpacesP text
    let operation ← consumeWhileP text (fun c => c ≠ ' ' && c ≠ '\n')
    skipInlineSpacesP text
    let dcv ←
      (if operation = strL "exists" then
        pure (DomAssert.Exists, strL "exists", strL "true")
      else if operation = strL "does" then do
        expectP text (strL "not")
        skipInlineSpacesP text
        expectP text (strL "exist")
        pure (DomAssert.Exists, strL "does_not_exist", strL "false")
      else if operation = strL "text" then do
        skipInlineSpacesP text
        let comparison2 ← consumeWhileP text (fun c => c ≠ ' ' && c ≠ '\n')
        skipInlineSpacesP text
        let value2 ← parseConditionValue text
        pure (DomAssert.Text, comparison2, value2)
      else if operation = strL "count" then do
        let compParts ← consumeWhileP text
          (fun c => c ≠ '\n' && !('0' ≤ c && c ≤ '9'))
        let rawValue ← consumeWhileP text (fun c => c ≠ '\n')
        pure (DomAssert.Count, jsTrim compParts, jsTrim rawValue)
      else if operation = strL "attribute" then do
        let attrName ← parseQuotedOrBacktick text
        skipInlineSpacesP text
        let comparison2 ← consumeWhileP text (fun c => c ≠ ' ' && c ≠ '\n')
        skipInlineSpacesP text
        let value2 ← parseConditionValue text
        pure (DomAssert.Attribute attrName, comparison2, value2)
      else pfail)
    let stop ← getPos
    pure { conditionType := ct, field := strL "selector", headerName := none
         , jqExpr := none, comparison := dcv.2.1, value := dcv.2.2
         , selector := some selectorStr, domAssert := some dcv.1
         , isCallAssertion := none, callTarget := none, start := start, stop := stop }
  else do
    let headerName ←
      (if field = strL "header" then do
        let h1 ← tryParseP (parseBacktickString text)
        match h1 with
        | some h => do
          skipInlineSpacesP text
          pure (some h)
        | none => do
          let h2 ← tryParseP (parseQuotedString text)
          skipInlineSpacesP text
          pure h2
      else pure none)
    let jqExpr ←
      (if headerName = none then tryParseP (parseBacktickString text)
      else pure none)
    skipInlineSpacesP text
    let comparison ← consumeWhileP text (fun c => c ≠ ' ' && c ≠ '\n')
    skipInlineSpacesP text
    let value ← parseConditionValue text
    let stop ← getPos
    pure { conditionType := ct, field := field, headerName := headerName
         , jqExpr := jqExpr, comparison := comparison, value := value
         , selector := none, domAssert := none, isCallAssertion := none
         , callTarget := none, start := start, stop := stop }

def parseMockHead (prefixWord : Str) : PM Mock := do
  skipSpacesP text
  let start ← getPos
  expectP text prefixWord
  skipInlineSpacesP text
  expectP text (strL "mock")
  skipInlineSpacesP text
  let q ← testPrefixP text (strL "query ")
  let m ← testPrefixP text (strL "mutation ")
  let isTyped := q || m
  let target ←
    (if isTyped then do
      let type ← consumeWhileP text (fun c => c ≠ ' ')
      skipInlineSpacesP text
      let name ← consumeWhileP text (fun c => c ≠ ' ' && c ≠ '\n')
      pure (type ++ strL "." ++ name)
    else consumeWhileP text (fun c => c ≠ ' ' && c ≠ '\n'))
  skipInlineSpacesP text
  expectP text (strL "returning")
  skipInlineSpacesP text
  let returnValue ← parseBacktickString text
  skipSpacesP text
  let stop ← getPos
  pure { target := target, returnValue := returnValue, start := start, stop := stop }

def parseMock : PM Mock := parseMockHead text (strL "with")

def parseAndMock : PM Mock := parseMockHead text (strL "and")

/-- The value/format scan inside `parseLetBinding`: backtick, quoted,
`null`/`true`/`false`, or a (possibly decimal) number, with its format tag. -/
def parseLetValue : PM (Str × Str) := do
  let bt ← tryParseP (parseBacktickString text)
  match bt with
  | some v => pure (v, strL "backtick")
  | none => do
    let qt ← tryParseP (parseQuotedString text)
    match qt with
    | some v => pure (v, strL "quoted")
    | none => do
      if (← testPrefixP text (strL "null")) then do
        bumpPos 4
        pure (strL "null", strL "bare")
      else if (← testPrefixP text (strL "true")) then do
        bumpPos 4
        pure (strL "true", strL "bare")
      else if (← testPrefixP text (strL "false")) then do
        bumpPos 5
        pure (strL "false", strL "bare")
      else do
        let num ← tryParseP (do
          let digits ← consumeWhileP text (fun c => '0' ≤ c && c ≤ '9')
          if digits.length = 0 then pfail
          else do
            let c ← curP text
            if c = '.' then do
              bumpPos 1
              let decimals ← consumeWhileP text (fun ch => '0' ≤ ch && ch ≤ '9')
              if decimals.length = 0 then pfail
              else pure (digits ++ strL "." ++ decimals)
            else pure digits)
        match num with
        | some v => pure (v, strL "bare")
        | none => pfail

def parseLetBinding : PM LetBinding := do
  let fullStart ← getPos
  expectP text (strL "let")
  skipInlineSpacesP text
  let nameStart ← getPos
  let name ← parseIdentifier text
  let nameEnd ← getPos
  let st ← getSt
  _ ← (match st.currentDescribeName with
  | some dn =>
    pushTestLetVariableP
      { name := name, describeName := dn, testName := st.currentTestName
      , start := nameStart, stop := nameEnd }
  | none => pure ())
  skipInlineSpacesP text
  expectP text (strL "=")
  skipInlineSpacesP text
  let vf ← parseLetValue text
  let fullEnd ← getPos
  pure { name := name, value := vf.1, format := vf.2, start := nameStart
       , stop := nameEnd, fullStart := fullStart, fullEnd := fullEnd }

/-- The mock loop at the head of `parseIt`. -/
def parseItMocksStep (ih : List Mock → PM (List Mock)) (mocks : List Mock) :
    PM (List Mock) := do
  let m ← tryParseP (parseMock text)
  match m with
  | none => pure mocks
  | some mk => ih (mocks ++ [mk])

def parseItMocksLoop : Nat → List Mock → PM (List Mock) := fun fuel =>
  Nat.rec (fun _ => pfail) (fun _ ih => parseItMocksStep text ih) fuel

/-- The `and mock` loop near the tail of `parseIt`. -/
def parseItAndMocksStep (ih : List Mock → PM (List Mock)) (mocks : List Mock) :
    PM (List Mock) := do
  let m ← tryParseP (parseAndMock text)
  match m with
  | none => pure mocks
  | some mk => do
    skipSpacesP text
    ih (mocks ++ [mk])

def parseItAndMocksLoop : Nat → List Mock → PM (List Mock) := fun fuel =>
  Nat.rec (fun _ => pfail) (fun _ ih => parseItAndMocksStep text ih) fuel

/-- The `let` loop of `parseIt` (each binding is followed by `skipSpaces`
inside the attempt). -/
def parseItLetsStep (ih : List LetBinding → PM (List LetBinding))
    (vars : List LetBinding) : PM (List LetBinding) := do
  let letBinding ← tryParseP (do
    let binding ← parseLetBinding text
    skipSpacesP text
    pure binding)
  match letBinding with
  | none => pure vars
  | some b => ih (vars ++ [b])

def parseItLetsLoop : Nat → List LetBinding → PM (List LetBinding) := fun fuel =>
  Nat.rec (fun _ => pfail) (fun _ ih => parseItLetsStep text ih) fuel

/-- One parsed `with ...` fixture clause of `parseIt`. -/
inductive WithClause where
  | input (v : Str)
  | body (v : Str)
  | headers (v : Str)
  | cookies (v : Str)

/-- The fixture quadruple `input/body/headers/cookies` (later clauses of
the same kind overwrite earlier ones). -/
def applyWithClause (acc : Option Str × Option Str × Option Str × Option Str) :
    WithClause → Option Str × Option Str × Option Str × Option Str
  | WithClause.input v => (some v, acc.2.1, acc.2.2.1, acc.2.2.2)
  | WithClause.body v => (acc.1, some v, acc.2.2.1, acc.2.2.2)
  | WithClause.headers v => (acc.1, acc.2.1, some v, acc.2.2.2)
  | WithClause.cookies v => (acc.1, acc.2.1, acc.2.2.1, some v)

def parseWithClauseBody : PM WithClause := do
  skipInlineSpacesP text
  if (← testPrefixP text (strL "input")) then do
    expectP text (strL "input")
    skipInlineSpacesP text
    let v ← parseBacktickString text
    skipSpacesP text
    pure (WithClause.input v)
  else if (← testPrefixP text (strL "body")) then do
    expectP text (strL "body")
    skipInlineSpacesP text
    let v ← parseBacktickString text
    skipSpacesP text
    pure (WithClause.body v)
  else if (← testPrefixP text (strL "headers")) then do
    expectP text (strL "headers")
    skipInlineSpacesP text
    let v ← parseBacktickString text
    skipSpacesP text
    pure (WithClause.headers v)
  else if (← testPrefixP text (strL "cookies")) then do
    expectP text (strL "cookies")
    skipInlineSpacesP text
    let v ← parseBacktickString text
    skipSpacesP text
    pure (WithClause.cookies v)
  else pfail

/-- The `with` / `and with` fixture loop of `parseIt`. -/
def parseItWithStep
    (ih : Bool → Option Str × Option Str × Option Str × Option Str →
      PM (Option Str × Option Str × Option Str × Option Str))
    (firstWithClause : Bool)
    (acc : Option Str × Option Str × Option Str × Option Str) :
    PM (Option Str × Option Str × Option Str × Option Str) := do
  let parsed ← tryParseP (do
    _ ← (if firstWithClause then expectP text (strL "with")
    else do
      expectP text (strL "and")
      skipInlineSpacesP text
      expectP text (strL "with"))
    parseWithClauseBody text)
  match parsed with
  | none => pure acc
  | some w => ih false (applyWithClause acc w)

def parseItWithLoop :
    Nat → Bool → Option Str × Option Str × Option Str × Option Str →
      PM (Option Str × Option Str × Option Str × Option Str) := fun fuel =>
  Nat.rec (fun _ _ => pfail) (fun _ ih => parseItWithStep text ih) fuel

/-- The trailing condition loop of `parseIt`. -/
def parseItCondsStep (ih : List Condition → PM (List Condition))
    (conds : List Condition) : PM (List Condition) := do
  let c ← tryParseP (parseCondition text)
  match c with
  | none => pure conds
  | some cd => ih (conds ++ [cd])

def parseItCondsLoop : Nat → List Condition → PM (List Condition) := fun fuel =>
  Nat.rec (fun _ => pfail) (fun _ ih => parseItCondsStep text ih) fuel

def parseIt : PM ItBlock := do
  let start ← getPos
  skipSpacesP text
  expectP text (strL "it")
  skipInlineSpacesP text
  expectP text (strL "\"")
  let name ← consumeWhileP text (fun c => c ≠ '"')
  expectP text (strL "\"")
  skipSpacesP text
  setCurrentTestNameP (some name)
  let mocks ← parseItMocksLoop text (text.length + 1) []
  let vars ← parseItLetsLoop text (text.length + 1) []
  expectP text (strL "when")
  skipInlineSpacesP text
  let whenClause ← parseWhen text
  skipSpacesP text
  let fixtures ← parseItWithLoop text (text.length + 1) true (none, none, none, none)
  let extraMocks ← parseItAndMocksLoop text (text.length + 1) []
  let conditions ← parseItCondsLoop text (text.length + 1) []
  setCurrentTestNameP none
  let stop ← getPos
  pure { name := name, mocks := mocks ++ extraMocks, whenClause := whenClause
       , vars := if vars.length > 0 then some vars else none
       , input := fixtures.1, body := fixtures.2.1, headers := fixtures.2.2.1
       , cookies := fixtures.2.2.2, conditions := conditions
       , start := start, stop := stop }

/-- One item of the `describe` body loop: a `let` binding, a
`with mock ...`, an `and mock ...`, or an `it` block. -/
def parseDescribeStep
    (ih : List LetBinding × List Mock × List ItBlock →
      PM (List LetBinding × List Mock × List ItBlock))
    (acc : List LetBinding × List Mock × List ItBlock) :
    PM (List LetBinding × List Mock × List ItBlock) := do
  skipSpacesP text
  let letBinding ← tryParseP (parseLetBinding text)
  match letBinding with
  | some b => ih (acc.1 ++ [b], acc.2.1, acc.2.2)
  | none => do
    let withMock ← tryParseP (parseMock text)
    match withMock with
    | some m => ih (acc.1, acc.2.1 ++ [m], acc.2.2)
    | none => do
      let andMock ← tryParseP (parseAndMock text)
      match andMock with
      | some m => ih (acc.1, acc.2.1 ++ [m], acc.2.2)
      | none => do
        let it ← tryParseP (parseIt text)
        match it with
        | some t => ih (acc.1, acc.2.1, acc.2.2 ++ [t])
        | none => pure acc

def parseDescribeLoop :
    Nat → List LetBinding × List Mock × List ItBlock →
      PM (List LetBinding × List Mock × List ItBlock) := fun fuel =>
  Nat.rec (fun _ => pfail) (fun _ ih => parseDescribeStep text ih) fuel

def parseDescribe : PM Describe := do
  let start ← getPos
  skipSpacesP text
  expectP text (strL "describe")
  skipInlineSpacesP text
  expectP text (strL "\"")
  let name ← consumeWhileP text (fun c => c ≠ '"')
  expectP text (strL "\"")
  let inlineComment ← parseInlineComment text
  skipSpacesP text
  setCurrentDescribeNameP (some name)
  let acc ← parseDescribeLoop text (text.length + 1) ([], [], [])
  setCurrentDescribeNameP none
  let stop ← getPos
  pure { name := name, vars := acc.1, mocks := acc.2.1, tests := acc.2.2
       , inlineComment := inlineComment, start := start, stop := stop
       , lineNumber := none }

end Rules5

/- ## Top-level declarations -/

section Rules6

variable (text : Str)

/-- Pipeline-grammar fuel handed to the top-level alternatives: generous
enough for any nesting the input can express (each level of nesting and
each loop round consumes source characters). -/
def fuelOf : Nat := (text.length + 2) * (text.length + 2)

def parseNamedPipeline : PM NamedPipeline := do
  let start ← getPos
  expectP text (strL "pipeline")
  skipInlineSpacesP text
  let name ← parseIdentifier text
  skipInlineSpacesP text
  expectP text (strL "=")
  let inlineComment ← parseInlineComment text
  skipInlineSpacesP text
  let pipeline ← parsePipeline text (fuelOf text)
  let stop ← getPos
  setPipelineRangeP name { start := start, stop := stop }
  skipWhitespaceOnlyP text
  pure { name := name, pipeline := pipeline, inlineComment := inlineComment
       , start := start, stop := stop, lineNumber := none }

def parsePipelineRef : PM PipelineRef := do
  let inline ← tryParseP (parsePipeline text (fuelOf text))
  match inline with
  | some p =>
    if p.steps.length > 0 then
      pure (PipelineRef.Inline p p.start p.stop)
    else parseNamedRefTail text
  | none => parseNamedRefTail text
where
  parseNamedRefTail (text : Str) : PM PipelineRef := do
    let named ← tryParseP (do
      skipWhitespaceOnlyP text
      let start ← getPos
      expectP text (strL "|>")
      skipInlineSpacesP text
      expectP text (strL "pipeline:")
      skipInlineSpacesP text
      let name ← parseIdentifier text
      let stop ← getPos
      pure (PipelineRef.Named name start stop))
    match named with
    | some r => pure r
    | none => pfail

def parseVariable : PM Variable := do
  let start ← getPos
  let varType ← parseIdentifier text
  skipInlineSpacesP text
  let name ← parseIdentifier text
  skipInlineSpacesP text
  expectP text (strL "=")
  skipInlineSpacesP text
  let value ← parseBacktickString text
  let inlineComment ← parseInlineComment text
  let stop ← getPos
  setVariableRangeP (varType ++ strL "::" ++ name) { start := start, stop := stop }
  skipWhitespaceOnlyP text
  pure { varType := varType, name := name, value := value
       , inlineComment := inlineComment, start := start, stop := stop
       , lineNumber := none }

def parseGraphQLSchema : PM GraphQLSchema := do
  let start ← getPos
  expectP text (strL "graphqlSchema")
  skipInlineSpacesP text
  expectP text (strL "=")
  let inlineComment ← parseInlineComment text
  skipInlineSpacesP text
  let sdl ← parseBacktickString text
  let stop ← getPos
  skipWhitespaceOnlyP text
  pure { sdl := sdl, inlineComment := inlineComment, start := start
       , stop := stop, lineNumber := none }

def parseQueryResolver : PM QueryResolver := do
  let start ← getPos
  expectP text (strL "query")
  skipInlineSpacesP text
  let name ← parseIdentifier text
  skipInlineSpacesP text
  expectP text (strL "=")
  let inlineComment ← parseInlineComment text
  skipWhitespaceOnlyP text
  let pipeline ← parsePipeline text (fuelOf text)
  let stop ← getPos
  skipWhitespaceOnlyP text
  pure { name := name, pipeline := pipeline, inlineComment := inlineComment
       , start := start, stop := stop, lineNumber := none }

def parseMutationResolver : PM MutationResolver := do
  let start ← getPos
  expectP text (strL "mutation")
  skipInlineSpacesP text
  let name ← parseIdentifier text
  skipInlineSpacesP text
  expectP text (strL "=")
  let inlineComment ← parseInlineComment text
  skipWhitespaceOnlyP text
  let pipeline ← parsePipeline text (fuelOf text)
  let stop ← getPos
  skipWhitespaceOnlyP text
  pure { name := name, pipeline := pipeline, inlineComment := inlineComment
       , start := start, stop := stop, lineNumber := none }

def parseTypeResolver : PM TypeResolver := do
  let start ← getPos
  expectP text (strL "resolver")
  skipInlineSpacesP text
  let typeName ← parseIdentifier text
  expectP text (strL ".")
  let fieldName ← parseIdentifier text
  skipInlineSpacesP text
  expectP text (strL "=")
  let inlineComment ← parseInlineComment text
  skipWhitespaceOnlyP text
  let pipeline ← parsePipeline text (fuelOf text)
  let stop ← getPos
  skipWhitespaceOnlyP text
  pure { typeName := typeName, fieldName := fieldName, pipeline := pipeline
       , inlineComment := inlineComment, start := start, stop := stop
       , lineNumber := none }

def parseFeatureFlags : PM Pipeline := do
  expectP text (strL "featureFlags")
  skipInlineSpacesP text
  expectP text (strL "=")
  skipWhitespaceOnlyP text
  let pipeline ← parsePipeline text (fuelOf text)
  skipWhitespaceOnlyP text
  pure pipeline

def parseRoute : PM Route := do
  let start ← getPos
  let method ← parseMethod text
  skipInlineSpacesP text
  let path ← consumeWhileP text (fun c => c ≠ ' ' && c ≠ '\n' && c ≠ '#')
  let inlineComment ← parseInlineComment text
  skipSpacesP text
  let pipeline ← parsePipelineRef text
  let stop ← getPos
  skipWhitespaceOnlyP text
  pure { method := method, path := path, pipeline := pipeline
       , inlineComment := inlineComment, start := start, stop := stop
       , lineNumber := none }

/- ## The top-level program loop -/

def emptyProgram : Program :=
  { configs := [], pipelines := [], vars := [], routes := [], describes := []
  , comments := [], graphqlSchema := none, queries := [], mutations := []
  , resolvers := [], featureFlags := none }

/-- Outcome of one round of the `while (!this.eof())` loop. -/
inductive LoopOut (α : Type) where
  | done (a : α)
  | next (a : α)

/-- The alternative chain at the heart of the top-level loop of
`Parser.parseProgram`: try each declaration kind in fixed priority order,
else recover by skipping the current line under an
`Unrecognized or unsupported syntax` warning (`start` is the cursor
position saved on entering the round). -/
def parseProgramAlts (acc : Program) (start : Nat) : PM (LoopOut Program) := do
      let comment ← tryParseP (parseStandaloneComment text)
      match comment.join with
      | some c => do
        _ ← (if (← curP text) = '\n' then bumpPos 1 else pure ())
        pure (.next { acc with comments := acc.comments ++ [c] })
      | none => do
        let cfg ← tryParseP (parseConfig text)
        match cfg with
        | some c =>
          pure (.next { acc with configs :=
            acc.configs ++ [{ c with lineNumber := some (getLineNumber text start) }] })
        | none => do
          let schema ← tryParseP (parseGraphQLSchema text)
          match schema with
          | some s => do
            let s2 : GraphQLSchema := { s with lineNumber := some (getLineNumber text start) }
            pure (.next { acc with graphqlSchema := some s2 })
          | none => do
            let query ← tryParseP (parseQueryResolver text)
            match query with
            | some q =>
              pure (.next { acc with queries :=
                acc.queries ++ [{ q with lineNumber := some (getLineNumber text start) }] })
            | none => do
              let mutation ← tryParseP (parseMutationResolver text)
              match mutation with
              | some m =>
                pure (.next { acc with mutations :=
                  acc.mutations ++ [{ m with lineNumber := some (getLineNumber text start) }] })
              | none => do
                let resolver ← tryParseP (parseTypeResolver text)
                match resolver with
                | some r =>
                  pure (.next { acc with resolvers :=
                    acc.resolvers ++ [{ r with lineNumber := some (getLineNumber text start) }] })
                | none => do
                  let flags ← tryParseP (parseFeatureFlags text)
                  match flags with
                  | some f =>
                    pure (.next { acc with featureFlags := some f })
                  | none => do
                    let namedPipe ← tryParseP (parseNamedPipeline text)
                    match namedPipe with
                    | some np =>
                      pure (.next { acc with pipelines :=
                        acc.pipelines ++ [{ np with lineNumber := some (getLineNumber text start) }] })
                    | none => do
                      let variable0 ← tryParseP (parseVariable text)
                      match variable0 with
                      | some v =>
                        pure (.next { acc with vars :=
                          acc.vars ++ [{ v with lineNumber := some (getLineNumber text start) }] })
                      | none => do
                        let route ← tryParseP (parseRoute text)
                        match route with
                        | some r =>
                          pure (.next { acc with routes :=
                            acc.routes ++ [{ r with lineNumber := some (getLineNumber text start) }] })
                        | none => do
                          let describe ← tryParseP (parseDescribe text)
                          match describe with
                          | some d =>
                            pure (.next { acc with describes :=
                              acc.describes ++ [{ d with lineNumber := some (getLineNumber text start) }] })
                          | none => do
                            let p ← getPos
                            if p = start then do
                              let lineStart := findLineStart text p
                              let lineEnd := findLineEnd text p
                              reportP (strL "Unrecognized or unsupported syntax")
                                lineStart lineEnd (strL "warning")
                              skipToEolP text
                              _ ← (if (← curP text) = '\n' then bumpPos 1 else pure ())
                              _ ← consumeWhileP text (fun c => c = '\n')
                              pure (.next acc)
                            else pure (.next acc)

/-- One round of the top-level loop: stop at end of input (also after
skipping leading whitespace), otherwise run the alternative chain from the
saved cursor position. -/
def parseProgramIter (acc : Program) : PM (LoopOut Program) := do
  if (← eofP text) then pure (.done acc)
  else do
    skipWhitespaceOnlyP text
    if (← eofP text) then pure (.done acc)
    else do
      let start ← getPos
      parseProgramAlts text acc start

def parseProgramLoop : Nat → Program → PM Program := fun fuel =>
  Nat.rec (fun _ => pfail)
    (fun _ ih acc => do
      let r ← parseProgramIter text acc
      match r with
      | .done a => pure a
      | .next a => ih a)
    fuel

/-- `Parser.parseProgram`: the full single pass, then the unclosed-backtick
check over the whole source. -/
def Parser.parseProgram : PM Program := do
  skipWhitespaceOnlyP text
  let prog ← parseProgramLoop text (text.length + 1) (emptyProgram)
  let backtickCount := (text.filter (fun c => c = '`')).length
  _ ← (if backtickCount % 2 = 1 then do
    let idx := lastIdxOf '`' text
    let start := max 0 idx
    reportP (strL "Unclosed backtick-delimited string") start (start + 1)
      (strL "warning")
  else pure ())
  pure prog

/- ## Exported entry points: each constructs a fresh parser over `text`
and runs the same single pass. -/

end Rules6

def parseProgram (text : Str) : Option Program :=
  (Parser.parseProgram text initSt).1

def parseProgramWithDiagnostics (text : Str) :
    Option (Program × List Diagnostic) :=
  match Parser.parseProgram text initSt with
  | (some program, st) => some (program, st.diagnostics)
  | (none, _) => none

def getPipelineRanges (text : Str) : Option (List (Str × Range)) :=
  match Parser.parseProgram text initSt with
  | (some _, st) => some st.pipelineRanges
  | (none, _) => none

def getVariableRanges (text : Str) : Option (List (Str × Range)) :=
  match Parser.parseProgram text initSt with
  | (some _, st) => some st.variableRanges
  | (none, _) => none

def getTestLetVariables (text : Str) : Option (List TestLetVariable) :=
  match Parser.parseProgram text initSt with
  | (some _, st) => some st.testLetVariables
  | (none, _) => none

/- ## The pretty-printer -/

/-- `lines.join("\n")`. -/
def joinNl (xs : List Str) : Str := List.intercalate (strL "\n") xs

def printComment (comment : Comment) : Str :=
  if comment.style = strL "#" && startsWithAt comment.text (strL "#") 0 then
    comment.style ++ comment.text
  else if comment.text = ([] : Str) || startsWithAt comment.text (strL " ") 0 then
    comment.style ++ comment.text
  else
    comment.style ++ strL " " ++ comment.text

def formatConfigValue : ConfigValue → Str
  | ConfigValue.String v => strL "\"" ++ v ++ strL "\""
  | ConfigValue.EnvVar v (some dflt) =>
    strL "$" ++ v ++ strL " || \"" ++ dflt ++ strL "\""
  | ConfigValue.EnvVar v none => strL "$" ++ v
  | ConfigValue.Boolean b => if b then strL "true" else strL "false"
  | ConfigValue.Number n => natToStr n

def formatStepConfig (config : Str) : StepConfigType → Str
  | StepConfigType.backtick => strL "`" ++ config ++ strL "`"
  | StepConfigType.quoted => strL "\"" ++ config ++ strL "\""
  | StepConfigType.identifier => config

def formatTag (tag : Tag) : Str :=
  let negation := if tag.negated then strL "!" else []
  let formattedArgs := tag.args.map (fun arg =>
    if arg.any (fun c => !(isIdentCont c)) then strL "`" ++ arg ++ strL "`"
    else arg)
  let args :=
    if tag.args.length > 0 then
      strL "(" ++ List.intercalate (strL ",") formattedArgs ++ strL ")"
    else []
  strL "@" ++ negation ++ tag.name ++ args

/-- `formatTagExpr`: parenthesise an `Or` nested under an `And` so that
re-parsing preserves precedence. -/
def formatTagExpr : TagExpr → Str
  | TagExpr.Tag tag => formatTag tag
  | TagExpr.And left right =>
    let leftStr := match left with
      | TagExpr.Or _ _ => strL "(" ++ formatTagExpr left ++ strL ")"
      | _ => formatTagExpr left
    let rightStr := match right with
      | TagExpr.Or _ _ => strL "(" ++ formatTagExpr right ++ strL ")"
      | _ => formatTagExpr right
    leftStr ++ strL " and " ++ rightStr
  | TagExpr.Or left right =>
    formatTagExpr left ++ strL " or " ++ formatTagExpr right

/-- `formatPipelineStep`, fuel-indexed over nesting depth (the source
recurses through branch pipelines). -/
def formatPipelineStepAux : Nat → PipelineStep → Str → Str := fun fuel =>
  Nat.rec (fun _ _ => [])
    (fun _ prev step indent =>
      match step with
      | PipelineStep.Regular name args config configType condition _ _ _ =>
        let argsPart :=
          if args.length > 0 then
            strL "(" ++ List.intercalate (strL ", ") args ++ strL ")"
          else []
        let configPart := formatStepConfig config configType
        let conditionPart := match condition with
          | some c => strL " " ++ formatTagExpr c
          | none => []
        indent ++ strL "|> " ++ name ++ argsPart ++ strL ": " ++ configPart ++ conditionPart
      | PipelineStep.Result branches _ _ =>
        let branchLines := branches.map (fun branch =>
          let branchName := match branch.branchType with
            | BranchType.Ok => strL "ok"
            | BranchType.Default => strL "default"
            | BranchType.Custom n => n
          [indent ++ strL "  " ++ branchName ++ strL "(" ++
            natToStr branch.statusCode ++ strL "):"] ++
          branch.pipeline.steps.map (fun s => prev s (indent ++ strL "    ")))
        joinNl ([indent ++ strL "|> result"] ++ branchLines.flatten)
      | PipelineStep.If condition thenBranch elseBranch _ _ =>
        let condLines := condition.steps.map (fun s => prev s (indent ++ strL "  "))
        let thenLines := thenBranch.steps.map (fun s => prev s (indent ++ strL "    "))
        let elseLines := match elseBranch with
          | some e =>
            [indent ++ strL "  else:"] ++
              e.steps.map (fun s => prev s (indent ++ strL "    "))
          | none => []
        joinNl ([indent ++ strL "|> if"] ++ condLines ++
          [indent ++ strL "  then:"] ++ thenLines ++ elseLines)
      | PipelineStep.Dispatch branches dflt _ _ =>
        let branchLines := branches.map (fun branch =>
          [indent ++ strL "  case " ++ formatTagExpr branch.condition ++ strL ":"] ++
          branch.pipeline.steps.map (fun s => prev s (indent ++ strL "    ")))
        let defaultLines := match dflt with
          | some d =>
            [indent ++ strL "  default:"] ++
              d.steps.map (fun s => prev s (indent ++ strL "    "))
          | none => []
        joinNl ([indent ++ strL "|> dispatch"] ++ branchLines.flatten ++ defaultLines)
      | PipelineStep.Foreach selector pipeline _ _ =>
        joinNl ([indent ++ strL "|> foreach " ++ selector] ++
          pipeline.steps.map (fun s => prev s (indent ++ strL "  ")) ++
          [indent ++ strL "end"]))
    fuel

mutual

/-- Nesting depth bound of a step, used as printer fuel. -/
def stepDepth : PipelineStep → Nat
  | PipelineStep.Regular _ _ _ _ _ _ _ _ => 1
  | PipelineStep.Result branches _ _ => 1 + resultBranchesDepth branches
  | PipelineStep.If condition thenBranch elseBranch _ _ =>
    1 + pipelineDepth condition + pipelineDepth thenBranch +
      (match elseBranch with
       | some e => pipelineDepth e
       | none => 0)
  | PipelineStep.Dispatch branches dflt _ _ =>
    1 + dispatchBranchesDepth branches +
      (match dflt with
       | some d => pipelineDepth d
       | none => 0)
  | PipelineStep.Foreach _ pipeline _ _ => 1 + pipelineDepth pipeline

def pipelineDepth : Pipeline → Nat
  | Pipeline.mk steps _ _ => 1 + stepsDepth steps

def stepsDepth : List PipelineStep → Nat
  | [] => 0
  | s :: rest => stepDepth s + stepsDepth rest

def resultBranchesDepth : List ResultBranch → Nat
  | [] => 0
  | ResultBranch.mk _ _ p _ _ :: rest => pipelineDepth p + resultBranchesDepth rest

def dispatchBranchesDepth : List DispatchBranch → Nat
  | [] => 0
  | DispatchBranch.mk _ p _ _ :: rest => pipelineDepth p + dispatchBranchesDepth rest

end

def formatPipelineStep (step : PipelineStep) (indent : Str := strL "  ") : Str :=
  formatPipelineStepAux (1 + stepDepth step) step indent

def formatPipelineRef : PipelineRef → List Str
  | PipelineRef.Named name _ _ => [strL "  |> pipeline: " ++ name]
  | PipelineRef.Inline pipeline _ _ =>
    pipeline.steps.map (fun step => formatPipelineStep step)

def formatWhen : WhenClause → Str
  | WhenClause.CallingRoute method path _ _ =>
    strL "calling " ++ method ++ strL " " ++ path
  | WhenClause.ExecutingPipeline name _ _ => strL "executing pipeline " ++ name
  | WhenClause.ExecutingVariable varType name _ _ =>
    strL "executing variable " ++ varType ++ strL " " ++ name

def printRoute (route : Route) : Str :=
  let routeLine := route.method ++ strL " " ++ route.path
  let headLine := match route.inlineComment with
    | some c => routeLine ++ strL " " ++ printComment c
    | none => routeLine
  joinNl ([headLine] ++ formatPipelineRef route.pipeline)

def printConfig (config : Config) : Str :=
  let configLine := strL "config " ++ config.name ++ strL " \x7b"
  let headLine := match config.inlineComment with
    | some c => configLine ++ strL " " ++ printComment c
    | none => configLine
  joinNl ([headLine] ++
    config.properties.map (fun prop =>
      strL "  " ++ prop.key ++ strL ": " ++ formatConfigValue prop.value) ++
    [strL "\x7d"])

def printPipeline (pipeline : NamedPipeline) : Str :=
  let pipelineLine := strL "pipeline " ++ pipeline.name ++ strL " ="
  let headLine := match pipeline.inlineComment with
    | some c => pipelineLine ++ strL " " ++ printComment c
    | none => pipelineLine
  joinNl ([headLine] ++
    pipeline.pipeline.steps.map (fun step => formatPipelineStep step))

def printVariable (variable0 : Variable) : Str :=
  let variableLine := variable0.varType ++ strL " " ++ variable0.name ++
    strL " = `" ++ variable0.value ++ strL "`"
  match variable0.inlineComment with
  | some c => variableLine ++ strL " " ++ printComment c
  | none => variableLine

def printGraphQLSchema (schema : GraphQLSchema) : Str :=
  let schemaLine := strL "graphql schema = `" ++ schema.sdl ++ strL "`"
  match schema.inlineComment with
  | some c => schemaLine ++ strL " " ++ printComment c
  | none => schemaLine

def printQueryResolver (query : QueryResolver) : Str :=
  let queryLine := strL "query " ++ query.name ++ strL " ="
  let headLine := match query.inlineComment with
    | some c => queryLine ++ strL " " ++ printComment c
    | none => queryLine
  joinNl ([headLine] ++ query.pipeline.steps.map (fun step => formatPipelineStep step))

def printMutationResolver (mutation : MutationResolver) : Str :=
  let mutationLine := strL "mutation " ++ mutation.name ++ strL " ="
  let headLine := match mutation.inlineComment with
    | some c => mutationLine ++ strL " " ++ printComment c
    | none => mutationLine
  joinNl ([headLine] ++ mutation.pipeline.steps.map (fun step => formatPipelineStep step))

def printTypeResolver (resolver : TypeResolver) : Str :=
  let resolverLine := strL "resolver " ++ resolver.typeName ++ strL "." ++
    resolver.fieldName ++ strL " ="
  let headLine := match resolver.inlineComment with
    | some c => resolverLine ++ strL " " ++ printComment c
    | none => resolverLine
  joinNl ([headLine] ++ resolver.pipeline.steps.map (fun step => formatPipelineStep step))

def printMock (mock : Mock) (indent : Str := strL "  ") : Str :=
  indent ++ strL "with mock " ++ mock.target ++ strL " returning `" ++
    mock.returnValue ++ strL "`"

/-- `condType.toLowerCase()` for the two condition types produced by the
parser (`"Then"` / `"And"`). -/
def condTypeLower (s : Str) : Str := s.map Char.toLower

/-- The `formatValue` helper of `printCondition`'s selector branch. -/
def printCondFormatValue (val : Str) : Str :=
  if startsWithAt val (strL "`") 0 || startsWithAt val (strL "\"") 0 then val
  else if val.any (fun c => c = '\n') || val.any (fun c => c = '{') ||
      val.any (fun c => c = '[') then
    strL "`" ++ val ++ strL "`"
  else strL "\"" ++ val ++ strL "\""

/-- The fall-through (non-selector) tail of `printCondition`. -/
def printConditionPlain (condition : Condition) (indent : Str) : Str :=
  let condType := condTypeLower condition.conditionType
  let fieldPart := match condition.headerName with
    | some h => condition.field ++ strL " \"" ++ h ++ strL "\""
    | none => match condition.jqExpr with
      | some j => condition.field ++ strL " `" ++ j ++ strL "`"
      | none => condition.field
  let value :=
    if startsWithAt condition.value (strL "`") 0 then condition.value
    else if condition.value.any (fun c => c = '\n') ||
        condition.value.any (fun c => c = '{') ||
        condition.value.any (fun c => c = '[') then
      strL "`" ++ condition.value ++ strL "`"
    else condition.value
  indent ++ condType ++ strL " " ++ fieldPart ++ strL " " ++
    condition.comparison ++ strL " " ++ value

def printCondition (condition : Condition) (indent : Str := strL "    ") : Str :=
  let condType := condTypeLower condition.conditionType
  if condition.field = strL "selector" then
    match condition.selector, condition.domAssert with
    | some selector, some domAssert =>
      (match domAssert with
      | DomAssert.Exists =>
        let operation :=
          if condition.comparison = strL "exists" then strL "exists"
          else strL "does not exist"
        indent ++ condType ++ strL " selector \"" ++ selector ++ strL "\" " ++ operation
      | DomAssert.Text =>
        indent ++ condType ++ strL " selector \"" ++ selector ++ strL "\" text " ++
          condition.comparison ++ strL " " ++ printCondFormatValue condition.value
      | DomAssert.Count =>
        indent ++ condType ++ strL " selector \"" ++ selector ++ strL "\" count " ++
          condition.comparison ++ strL " " ++ condition.value
      | DomAssert.Attribute name =>
        indent ++ condType ++ strL " selector \"" ++ selector ++ strL "\" attribute \"" ++
          name ++ strL "\" " ++ condition.comparison ++ strL " " ++
          printCondFormatValue condition.value)
    | _, _ => printConditionPlain condition indent
  else printConditionPlain condition indent

/-- `let` bindings re-render with their recorded quoting format. -/
def printLetValue (v : LetBinding) : Str :=
  if v.format = strL "quoted" then strL "\"" ++ v.value ++ strL "\""
  else if v.format = strL "backtick" then strL "`" ++ v.value ++ strL "`"
  else v.value

def printTest (test : ItBlock) : Str :=
  let mockLines := test.mocks.map (fun mock => printMock mock (strL "    "))
  let letLines := match test.vars with
    | some vars => vars.map (fun v =>
        strL "    let " ++ v.name ++ strL " = " ++ printLetValue v)
    | none => []
  let inputLines := match test.input with
    | some v => [strL "    with input `" ++ v ++ strL "`"]
    | none => []
  let bodyLines := match test.body with
    | some v => [strL "    with body `" ++ v ++ strL "`"]
    | none => []
  let headerLines := match test.headers with
    | some v => [strL "    with headers `" ++ v ++ strL "`"]
    | none => []
  let cookieLines := match test.cookies with
    | some v => [strL "    with cookies `" ++ v ++ strL "`"]
    | none => []
  joinNl ([strL "  it \"" ++ test.name ++ strL "\""] ++ mockLines ++
    [strL "    when " ++ formatWhen test.whenClause] ++ letLines ++
    inputLines ++ bodyLines ++ headerLines ++ cookieLines ++
    test.conditions.map (fun c => printCondition c))

/-- `.replace(/\n\n$/, "\n")`: drop one of two trailing newlines. -/
def dropDoubleTrailingNl (s : Str) : Str :=
  if (s.reverse.take 2) = strL "\n\n" then s.dropLast else s

def printDescribe (describe : Describe) : Str :=
  let describeLine := strL "describe \"" ++ describe.name ++ strL "\""
  let headLine := match describe.inlineComment with
    | some c => describeLine ++ strL " " ++ printComment c
    | none => describeLine
  let letLines :=
    if describe.vars.length > 0 then
      describe.vars.map (fun v =>
        strL "  let " ++ v.name ++ strL " = " ++ printLetValue v) ++ [[]]
    else []
  let mockLines := describe.mocks.map (fun mock => printMock mock)
  let mockBlank : List Str := if describe.mocks.length > 0 then [[]] else []
  let testLines := (describe.tests.map (fun t => [printTest t, []])).flatten
  dropDoubleTrailingNl
    (joinNl ([headLine] ++ letLines ++ mockLines ++ mockBlank ++ testLines))

/-- One sortable entry of `prettyPrint`'s `allItems` array. -/
inductive PrintItem where
  | config (c : Config)
  | graphqlSchema (s : GraphQLSchema)
  | query (q : QueryResolver)
  | mutation (m : MutationResolver)
  | resolver (r : TypeResolver)
  | route (r : Route)
  | pipeline (p : NamedPipeline)
  | variable0 (v : Variable)
  | describe (d : Describe)
  | comment (c : Comment)

def PrintItem.isVariable : PrintItem → Bool
  | PrintItem.variable0 _ => true
  | _ => false

structure PrintEntry where
  item : PrintItem
  lineNumber : Nat

/-- Stable insertion keeping earlier entries first among equal line
numbers (JavaScript `Array.prototype.sort` is stable). -/
def insertEntry (e : PrintEntry) : List PrintEntry → List PrintEntry
  | [] => [e]
  | y :: ys =>
    if y.lineNumber ≤ e.lineNumber then y :: insertEntry e ys
    else e :: y :: ys

def sortEntries (xs : List PrintEntry) : List PrintEntry :=
  xs.foldl (fun acc e => insertEntry e acc) []

/-- The per-item emission of `prettyPrint`, with the look-ahead rule that a
variable not followed by any non-variable item gets no blank line. -/
def emitEntries : List PrintEntry → List Str
  | [] => []
  | e :: rest =>
    (match e.item with
    | PrintItem.comment c => [printComment c]
    | PrintItem.config c => [printConfig c, []]
    | PrintItem.graphqlSchema s => [printGraphQLSchema s, []]
    | PrintItem.query q => [printQueryResolver q, []]
    | PrintItem.mutation m => [printMutationResolver m, []]
    | PrintItem.resolver r => [printTypeResolver r, []]
    | PrintItem.route r => [printRoute r, []]
    | PrintItem.pipeline p => [printPipeline p, []]
    | PrintItem.variable0 v =>
      if rest.any (fun it => !(it.item.isVariable)) then [printVariable v, []]
      else [printVariable v]
    | PrintItem.describe d => [printDescribe d, []]) ++ emitEntries rest

def prettyPrint (program : Program) : Str :=
  let allItems : List PrintEntry :=
    program.configs.map (fun c =>
      { item := PrintItem.config c, lineNumber := c.lineNumber.getD 0 }) ++
    (match program.graphqlSchema with
    | some s => [{ item := PrintItem.graphqlSchema s, lineNumber := s.lineNumber.getD 0 }]
    | none => []) ++
    program.queries.map (fun q =>
      { item := PrintItem.query q, lineNumber := q.lineNumber.getD 0 }) ++
    program.mutations.map (fun m =>
      { item := PrintItem.mutation m, lineNumber := m.lineNumber.getD 0 }) ++
    program.resolvers.map (fun r =>
      { item := PrintItem.resolver r, lineNumber := r.lineNumber.getD 0 }) ++
    program.routes.map (fun r =>
      { item := PrintItem.route r, lineNumber := r.lineNumber.getD 0 }) ++
    program.pipelines.map (fun p =>
      { item := PrintItem.pipeline p, lineNumber := p.lineNumber.getD 0 }) ++
    program.vars.map (fun v =>
      { item := PrintItem.variable0 v, lineNumber := v.lineNumber.getD 0 }) ++
    program.describes.map (fun d =>
      { item := PrintItem.describe d, lineNumber := d.lineNumber.getD 0 }) ++
    program.comments.map (fun c =>
      { item := PrintItem.comment c, lineNumber := c.lineNumber })
  let sorted := sortEntries allItems
  jsTrim (joinNl (emitEntries sorted)) ++ strL "\n"

/- ## Concrete inputs and their parses, used by the claim theorems -/

/-- A program whose only declaration is a feature-flags pipeline. -/
def ffText : Str := strL "featureFlags =\n  |> jq: `x`"

def ffPipe : Pipeline :=
  Pipeline.mk [PipelineStep.Regular (strL "jq") [] (strL "x")
    StepConfigType.backtick none none 17 27] 17 27

def ffProg : Program := { emptyProgram with featureFlags := some ffPipe }

/-- The tag-precedence guards of §8. -/
def precText1 : Str := strL "@a and @b or @c"

def precText2 : Str := strL "@a and (@b or @c)"

def precTree1 : TagExpr :=
  TagExpr.Or
    (TagExpr.And (TagExpr.Tag ⟨strL "a", false, [], 0, 2⟩)
      (TagExpr.Tag ⟨strL "b", false, [], 7, 9⟩))
    (TagExpr.Tag ⟨strL "c", false, [], 13, 15⟩)

def precTree2 : TagExpr :=
  TagExpr.And (TagExpr.Tag ⟨strL "a", false, [], 0, 2⟩)
    (TagExpr.Or (TagExpr.Tag ⟨strL "b", false, [], 8, 10⟩)
      (TagExpr.Tag ⟨strL "c", false, [], 14, 16⟩))

/-- A route with a result step whose first branch carries status 700. -/
def badStatusText : Str :=
  strL "GET /x\n  |> result\n    ok(700):\n      |> jq: `a`\n    default(500):\n      |> jq: `b`"

def badStatusBranches : List ResultBranch :=
  [ ResultBranch.mk BranchType.Ok 700
      (Pipeline.mk [PipelineStep.Regular (strL "jq") [] (strL "a")
        StepConfigType.backtick none none 38 53] 38 53) 23 53
  , ResultBranch.mk BranchType.Default 500
      (Pipeline.mk [PipelineStep.Regular (strL "jq") [] (strL "b")
        StepConfigType.backtick none none 73 83] 73 83) 53 83 ]

def badStatusProg : Program :=
  { emptyProgram with routes :=
      [ { method := strL "GET", path := strL "/x"
        , pipeline := PipelineRef.Inline
            (Pipeline.mk [PipelineStep.Result badStatusBranches 9 83] 9 83) 9 83
        , inlineComment := none, start := 0, stop := 83, lineNumber := some 1 } ] }

def badStatusDiag : Diagnostic :=
  { message := strL "Invalid HTTP status code: 700", start := 26, stop := 29
  , severity := strL "error" }

/-- The argument-balancing example of §8. -/
def echoText : Str := strL "GET /e\n  |> echo(a, \"b,c\", [d,e]): x"

def echoArgs : List Str := [strL "a", strL "\"b,c\"", strL "[d,e]"]

def echoProg : Program :=
  { emptyProgram with routes :=
      [ { method := strL "GET", path := strL "/e"
        , pipeline := PipelineRef.Inline
            (Pipeline.mk [PipelineStep.Regular (strL "echo") echoArgs (strL "x")
              StepConfigType.identifier none none 9 36] 9 36) 9 36
        , inlineComment := none, start := 0, stop := 36, lineNumber := some 1 } ] }

/-- Ill-formed tag argument lists. -/
def emptyArgsTagText : Str := strL "@flag()"

def trailingCommaTagText : Str := strL "@flag(foo,)"

/-- A named pipeline whose step guard has an empty argument list, making
the tag (and hence the whole `pipeline` alternative) fail to parse. -/
def badTagPipelineText : Str := strL "pipeline p =\n  |> jq: `x` @flag()"

def badTagPipelineDiags : List Diagnostic :=
  [ { message := strL "Unrecognized or unsupported syntax", start := 0
    , stop := 12, severity := strL "warning" }
  , { message := strL "Unrecognized or unsupported syntax", start := 13
    , stop := 33, severity := strL "warning" } ]

/- ## Predicates for the safety / termination / diagnostics claims -/

/-- The message of the unclosed-backtick diagnostic. -/
def ubMsg : Str := strL "Unclosed backtick-delimited string"

/-- The message of the error-recovery warning. -/
def unrecMsg : Str := strL "Unrecognized or unsupported syntax"

/-- A parser computation is well behaved when the cursor never moves left
of where it started and diagnostics are only appended, never with the
unclosed-backtick message (that message is produced once, after the loop). -/
def StOk (text : Str) (m : PM α) : Prop :=
  ∀ st r st', m st = (r, st') →
    st.pos ≤ st'.pos ∧
    ∃ ds, st'.diagnostics = st.diagnostics ++ ds ∧ ∀ d ∈ ds, d.message ≠ ubMsg

/-- A computation whose success strictly advances the cursor. -/
def StrictSome (m : PM α) : Prop :=
  ∀ st a st', m st = (some a, st') → st.pos < st'.pos

/-- Well-behavedness anchored at a saved position `p`: started at or right
of `p`, the computation ends at or right of `p` (it may restore the cursor
to `p`, the pattern of every `save`/`restore` site in the parser). -/
def StOkA (text : Str) (p : Nat) (m : PM α) : Prop :=
  ∀ st r st', p ≤ st.pos → m st = (r, st') →
    p ≤ st'.pos ∧
    ∃ ds, st'.diagnostics = st.diagnostics ++ ds ∧ ∀ d ∈ ds, d.message ≠ ubMsg

/-- Bundled well-behavedness of the tag-expression grammar record. -/
def TagFnsOk (text : Str) (t : TagFns) : Prop :=
  StOk text t.tagExpr ∧ StOk text t.orExpr ∧ (∀ e, StOk text (t.orLoop e)) ∧
  StOk text t.andExpr ∧ (∀ e, StOk text (t.andLoop e)) ∧ StOk text t.tagPrimary

/-- Bundled well-behavedness of the pipeline grammar record. -/
def PipeFnsOk (text : Str) (p : PipeFns) : Prop :=
  StOk text p.pipelineStep ∧ StOk text p.foreachStep ∧ StOk text p.resultStep ∧
  StOk text p.resultBranch ∧ (∀ bs, StOk text (p.resultBranchesLoop bs)) ∧
  StOk text p.ifStep ∧ StOk text p.dispatchStep ∧ StOk text p.dispatchBranch ∧
  (∀ bs, StOk text (p.dispatchBranchesLoop bs)) ∧
  (∀ ks, StOk text (p.ifPipeline ks)) ∧
  (∀ ks s steps, StOk text (p.ifPipelineLoop ks s steps)) ∧
  StOk text p.pipeline ∧ (∀ s steps, StOk text (p.pipelineLoop s steps))

/-- The cursor position after the error-recovery line skip from `p`:
to the end of the line, past its newline, then past any further blank
lines. -/
def recoveryPosFinal (text : Str) (p : Nat) : Nat :=
  let q := p + ((text.drop p).takeWhile (fun c => c ≠ '\n')).length
  let q2 := if curAt text q = '\n' then q + 1 else q
  q2 + ((text.drop q2).takeWhile (fun c => c = '\n')).length

/-- The diagnostic recorded by error recovery at position `p`. -/
def unrecDiagAt (text : Str) (p : Nat) : Diagnostic :=
  { message := unrecMsg, start := findLineStart text p
  , stop := findLineEnd text p, severity := strL "warning" }

/-- A parser computation that never signals a parse failure. -/
def Total {α : Type} (m : PM α) : Prop :=
  ∀ st, ((m st).1).isSome = true

/-- Anchored strict progress for the alternative chain of the top-level
loop: run from cursor `p` (with input remaining), a `.next` outcome leaves
the cursor strictly right of `p`. -/
def ProgFrom (text : Str) (p : Nat) (m : PM (LoopOut Program)) : Prop :=
  ∀ st a st', st.pos = p → p < text.length →
    m st = (some (LoopOut.next a), st') → p < st'.pos

/-- Erase the recorded source offsets of a tag (the fields that depend on
where in the input the tag was written). -/
def tagScrub (t : Tag) : Tag :=
  { t with start := 0, stop := 0 }

/-- Erase the recorded source offsets of every tag in a tag expression. -/
def exprScrub : TagExpr → TagExpr
  | TagExpr.Tag t => TagExpr.Tag (tagScrub t)
  | TagExpr.And l r => TagExpr.And (exprScrub l) (exprScrub r)
  | TagExpr.Or l r => TagExpr.Or (exprScrub l) (exprScrub r)

/-- A source whose first line matches no top-level form (forcing error
recovery) followed by a perfectly good route declaration. -/
def recovText : Str := strL "???\nGET /x\n  |> jq: `.`"

/-- The unclosed-backtick diagnostic as the final check of
`Parser.parseProgram` constructs it: it points at the last backtick of the
source. -/
def ubDiagAt (text : Str) : Diagnostic :=
  { message := ubMsg, start := max 0 (lastIdxOf '`' text)
  , stop := max 0 (lastIdxOf '`' text) + 1, severity := strL "warning" }

set_option maxRecDepth 4000000

/- ## Theorems -/

section StOkLemmas

variable {α β : Type} {text : Str}

theorem stOk_pure (a : α) : StOk text (pure a : PM α) := by
  intro st r st' h
  cases h
  exact ⟨le_refl _, [], by simp, by simp⟩

theorem stOk_pfail : StOk text (pfail : PM α) := by
  intro st r st' h
  cases h
  exact ⟨le_refl _, [], by simp, by simp⟩

theorem stOk_bind {m : PM α} {f : α → PM β} (hm : StOk text m)
    (hf : ∀ a, StOk text (f a)) : StOk text (m >>= f) := by
  intro st r st' h
  simp only [Bind.bind] at h
  generalize hm0 : m st = p at h
  obtain ⟨r0, st0⟩ := p
  rcases r0 with _ | a
  · obtain ⟨hp, hds⟩ := hm st none st0 hm0
    cases h
    exact ⟨hp, hds⟩
  · obtain ⟨hp0, ds0, hd0, hm0'⟩ := hm st (some a) st0 hm0
    obtain ⟨hp1, ds1, hd1, hm1⟩ := hf a st0 r st' h
    exact ⟨le_trans hp0 hp1, ds0 ++ ds1, by rw [hd1, hd0, List.append_assoc],
      by intro d hd; rcases List.mem_append.mp hd with h' | h'
         exacts [hm0' d h', hm1 d h']⟩

theorem stOk_tryParse {m : PM α} (hm : StOk text m) :
    StOk text (tryParseP m) := by
  intro st r st' h
  unfold tryParseP at h
  generalize hm0 : m st = p at h
  obtain ⟨r0, st0⟩ := p
  rcases r0 with _ | a
  · obtain ⟨_, ds, hd, hmsg⟩ := hm st none st0 hm0
    cases h
    exact ⟨le_refl _, ds, by simpa using hd, hmsg⟩
  · obtain ⟨hp, hds⟩ := hm st (some a) st0 hm0
    cases h
    exact ⟨hp, hds⟩

theorem stOk_ite {c : Prop} [Decidable c] {m₁ m₂ : PM α} (h₁ : StOk text m₁)
    (h₂ : StOk text m₂) : StOk text (if c then m₁ else m₂) := by
  split
  · exact h₁
  · exact h₂

theorem stOk_getSt : StOk text getSt := by
  intro st r st' h
  cases h
  exact ⟨le_refl _, [], by simp, by simp⟩

theorem stOk_getPos : StOk text getPos := by
  intro st r st' h
  cases h
  exact ⟨le_refl _, [], by simp, by simp⟩

theorem stOk_bumpPos (n : Nat) : StOk text (bumpPos n) := by
  intro st r st' h
  cases h
  exact ⟨Nat.le_add_right _ _, [], by simp, by simp⟩

theorem stOk_reportP {msg : Str} (start stop : Nat) (sev : Str)
    (hmsg : msg ≠ ubMsg) : StOk text (reportP msg start stop sev) := by
  intro st r st' h
  cases h
  exact ⟨le_refl _, [⟨msg, start, stop, sev⟩], by simp, by simpa using hmsg⟩

theorem stOk_pushTestLetVariable (v : TestLetVariable) :
    StOk text (pushTestLetVariableP v) := by
  intro st r st' h
  cases h
  exact ⟨le_refl _, [], by simp, by simp⟩

theorem stOk_setCurrentDescribeName (v : Option Str) :
    StOk text (setCurrentDescribeNameP v) := by
  intro st r st' h
  cases h
  exact ⟨le_refl _, [], by simp, by simp⟩

theorem stOk_setCurrentTestName (v : Option Str) :
    StOk text (setCurrentTestNameP v) := by
  intro st r st' h
  cases h
  exact ⟨le_refl _, [], by simp, by simp⟩

theorem stOk_setPipelineRange (k : Str) (v : Range) :
    StOk text (setPipelineRangeP k v) := by
  intro st r st' h
  cases h
  exact ⟨le_refl _, [], by simp, by simp⟩

theorem stOk_setVariableRange (k : Str) (v : Range) :
    StOk text (setVariableRangeP k v) := by
  intro st r st' h
  cases h
  exact ⟨le_refl _, [], by simp, by simp⟩

theorem stOk_consumeWhile (p : Char → Bool) :
    StOk text (consumeWhileP text p) := by
  intro st r st' h
  cases h
  exact ⟨Nat.le_add_right _ _, [], by simp, by simp⟩

theorem stOk_testPrefix (s : Str) : StOk text (testPrefixP text s) := by
  intro st r st' h
  cases h
  exact ⟨le_refl _, [], by simp, by simp⟩

theorem stOk_matchP (s : Str) : StOk text (matchP text s) := by
  intro st r st' h
  unfold matchP at h
  split at h <;> cases h
  · exact ⟨Nat.le_add_right _ _, [], by simp, by simp⟩
  · exact ⟨le_refl _, [], by simp, by simp⟩

theorem stOk_expectP (s : Str) : StOk text (expectP text s) := by
  unfold expectP
  exact stOk_bind (stOk_matchP s) (fun b => stOk_ite (stOk_pure _) stOk_pfail)

theorem stOk_skipToEol : StOk text (skipToEolP text) := by
  unfold skipToEolP
  exact stOk_bind (stOk_consumeWhile _) (fun _ => stOk_pure _)

theorem stOk_skipInlineSpaces : StOk text (skipInlineSpacesP text) := by
  unfold skipInlineSpacesP
  exact stOk_bind (stOk_consumeWhile _) (fun _ => stOk_pure _)

theorem stOk_skipWhitespaceOnly : StOk text (skipWhitespaceOnlyP text) := by
  unfold skipWhitespaceOnlyP
  exact stOk_bind (stOk_consumeWhile _) (fun _ => stOk_pure _)

theorem stOk_curP : StOk text (curP text) := by
  intro st r st' h
  cases h
  exact ⟨le_refl _, [], by simp, by simp⟩

theorem stOk_eofP : StOk text (eofP text) := by
  intro st r st' h
  cases h
  exact ⟨le_refl _, [], by simp, by simp⟩

theorem stOk_skipSpacesAux (fuel : Nat) : StOk text (skipSpacesAux text fuel) := by
  induction fuel with
  | zero => exact stOk_pfail
  | succ f ih =>
    show StOk text (skipSpacesStep text (skipSpacesAux text f))
    unfold skipSpacesStep
    refine stOk_bind (stOk_consumeWhile _) (fun _ => ?_)
    refine stOk_bind (stOk_testPrefix _) (fun b => stOk_ite ?_ ?_)
    · refine stOk_bind stOk_skipToEol (fun _ => ?_)
      refine stOk_bind stOk_curP (fun c => ?_)
      exact stOk_bind (stOk_ite (stOk_bumpPos 1) (stOk_pure _)) (fun _ => ih)
    · refine stOk_bind (stOk_testPrefix _) (fun b2 => stOk_ite ?_ (stOk_pure _))
      refine stOk_bind stOk_skipToEol (fun _ => ?_)
      refine stOk_bind stOk_curP (fun c => ?_)
      exact stOk_bind (stOk_ite (stOk_bumpPos 1) (stOk_pure _)) (fun _ => ih)

theorem stOk_skipSpaces : StOk text (skipSpacesP text) := by
  intro st r st' h
  exact stOk_skipSpacesAux (text.length + 1) st r st' h

theorem stOk_parseIdentifier : StOk text (parseIdentifier text) := by
  unfold parseIdentifier
  refine stOk_bind stOk_curP (fun c => ?_)
  refine stOk_ite ?_ stOk_pfail
  refine stOk_bind stOk_getPos (fun start => ?_)
  refine stOk_bind (stOk_bumpPos 1) (fun _ => ?_)
  refine stOk_bind (stOk_consumeWhile _) (fun _ => ?_)
  exact stOk_bind stOk_getPos (fun p => stOk_pure _)

theorem stOk_parseNumber : StOk text (parseNumber text) := by
  unfold parseNumber
  refine stOk_bind stOk_getPos (fun start => ?_)
  refine stOk_bind (stOk_consumeWhile _) (fun digits => ?_)
  refine stOk_ite stOk_pfail ?_
  exact stOk_bind stOk_getPos (fun p => stOk_pure _)

theorem stOk_parseQuotedString : StOk text (parseQuotedString text) := by
  unfold parseQuotedString
  refine stOk_bind (stOk_expectP _) (fun _ => ?_)
  refine stOk_bind stOk_getPos (fun start => ?_)
  refine stOk_bind (stOk_consumeWhile _) (fun _ => ?_)
  refine stOk_bind stOk_getPos (fun p => ?_)
  exact stOk_bind (stOk_expectP _) (fun _ => stOk_pure _)

theorem stOk_parseBacktickString : StOk text (parseBacktickString text) := by
  unfold parseBacktickString
  refine stOk_bind (stOk_expectP _) (fun _ => ?_)
  refine stOk_bind stOk_getPos (fun start => ?_)
  refine stOk_bind (stOk_consumeWhile _) (fun _ => ?_)
  refine stOk_bind stOk_getPos (fun p => ?_)
  exact stOk_bind (stOk_expectP _) (fun _ => stOk_pure _)

theorem stOk_parseMethod : StOk text (parseMethod text) := by
  unfold parseMethod
  refine stOk_bind (stOk_matchP _) (fun b => stOk_ite (stOk_pure _) ?_)
  refine stOk_bind (stOk_matchP _) (fun b => stOk_ite (stOk_pure _) ?_)
  refine stOk_bind (stOk_matchP _) (fun b => stOk_ite (stOk_pure _) ?_)
  exact stOk_bind (stOk_matchP _) (fun b => stOk_ite (stOk_pure _) stOk_pfail)

theorem stOk_parseStepConfig : StOk text (parseStepConfig text) := by
  unfold parseStepConfig
  refine stOk_bind (stOk_tryParse stOk_parseBacktickString) (fun bt => ?_)
  cases bt
  · refine stOk_bind (stOk_tryParse stOk_parseQuotedString) (fun dq => ?_)
    cases dq
    · refine stOk_bind (stOk_tryParse stOk_parseIdentifier) (fun id => ?_)
      cases id
      · exact stOk_pfail
      · exact stOk_pure _
    · exact stOk_pure _
  · exact stOk_pure _

theorem stOk_parseInlineComment : StOk text (parseInlineComment text) := by
  unfold parseInlineComment
  refine stOk_bind stOk_skipInlineSpaces (fun _ => ?_)
  refine stOk_bind stOk_getPos (fun start => ?_)
  refine stOk_bind (stOk_testPrefix _) (fun b => stOk_ite ?_ ?_)
  · refine stOk_bind (stOk_bumpPos 1) (fun _ => ?_)
    exact stOk_bind (stOk_consumeWhile _) (fun t => stOk_pure _)
  · refine stOk_bind (stOk_testPrefix _) (fun b2 => stOk_ite ?_ (stOk_pure _))
    refine stOk_bind (stOk_bumpPos 2) (fun _ => ?_)
    exact stOk_bind (stOk_consumeWhile _) (fun t => stOk_pure _)

theorem stOk_parseStandaloneComment : StOk text (parseStandaloneComment text) := by
  unfold parseStandaloneComment
  refine stOk_bind stOk_getPos (fun start => ?_)
  refine stOk_bind (stOk_testPrefix _) (fun b => stOk_ite ?_ ?_)
  · refine stOk_bind (stOk_bumpPos 1) (fun _ => ?_)
    exact stOk_bind (stOk_consumeWhile _) (fun t => stOk_pure _)
  · refine stOk_bind (stOk_testPrefix _) (fun b2 => stOk_ite ?_ (stOk_pure _))
    refine stOk_bind (stOk_bumpPos 2) (fun _ => ?_)
    exact stOk_bind (stOk_consumeWhile _) (fun t => stOk_pure _)

theorem stOk_parseTagArgument : StOk text (parseTagArgument text) := by
  unfold parseTagArgument
  refine stOk_bind (stOk_tryParse stOk_parseBacktickString) (fun bt => ?_)
  cases bt
  · exact stOk_parseIdentifier
  · exact stOk_pure _

theorem stOk_parseTagArgsLoop (fuel : Nat) (args : List Str) :
    StOk text (parseTagArgsLoop text fuel args) := by
  induction fuel generalizing args with
  | zero => exact stOk_pfail
  | succ f ih =>
    show StOk text (parseTagArgsStep text (parseTagArgsLoop text f) args)
    unfold parseTagArgsStep
    refine stOk_bind stOk_curP (fun c => stOk_ite ?_ (stOk_pure _))
    refine stOk_bind (stOk_bumpPos 1) (fun _ => ?_)
    refine stOk_bind stOk_skipInlineSpaces (fun _ => ?_)
    refine stOk_bind stOk_curP (fun c2 => stOk_ite stOk_pfail ?_)
    refine stOk_bind stOk_parseTagArgument (fun a => ?_)
    exact stOk_bind stOk_skipInlineSpaces (fun _ => ih _)

theorem stOk_parseTagArgs : StOk text (parseTagArgs text) := by
  unfold parseTagArgs
  refine stOk_bind (stOk_expectP _) (fun _ => ?_)
  refine stOk_bind stOk_skipInlineSpaces (fun _ => ?_)
  refine stOk_bind stOk_curP (fun c => stOk_ite stOk_pfail ?_)
  refine stOk_bind stOk_parseTagArgument (fun a => ?_)
  refine stOk_bind stOk_skipInlineSpaces (fun _ => ?_)
  refine stOk_bind (stOk_parseTagArgsLoop _ _) (fun args => ?_)
  exact stOk_bind (stOk_expectP _) (fun _ => stOk_pure _)

theorem stOkA_of_stOk {p : Nat} {m : PM α} (hm : StOk text m) :
    StOkA text p m := by
  intro st r st' hp h
  obtain ⟨h1, h2⟩ := hm st r st' h
  exact ⟨le_trans hp h1, h2⟩

theorem stOkA_pure {p : Nat} (a : α) : StOkA text p (pure a : PM α) :=
  stOkA_of_stOk (stOk_pure a)

theorem stOkA_pfail {p : Nat} : StOkA text p (pfail : PM α) :=
  stOkA_of_stOk stOk_pfail

theorem stOkA_setPos {p : Nat} : StOkA text p (setPos p) := by
  intro st r st' hp h
  cases h
  exact ⟨le_refl _, [], by simp, by simp⟩

theorem stOkA_bind {p : Nat} {m : PM α} {f : α → PM β} (hm : StOkA text p m)
    (hf : ∀ a, StOkA text p (f a)) : StOkA text p (m >>= f) := by
  intro st r st' hp h
  simp only [Bind.bind] at h
  generalize hm0 : m st = q at h
  obtain ⟨r0, st0⟩ := q
  rcases r0 with _ | a
  · obtain ⟨h1, h2⟩ := hm st none st0 hp hm0
    cases h
    exact ⟨h1, h2⟩
  · obtain ⟨hp0, ds0, hd0, hm0'⟩ := hm st (some a) st0 hp hm0
    obtain ⟨hp1, ds1, hd1, hm1⟩ := hf a st0 r st' hp0 h
    exact ⟨hp1, ds0 ++ ds1, by rw [hd1, hd0, List.append_assoc],
      by intro d hd; rcases List.mem_append.mp hd with h' | h'
         exacts [hm0' d h', hm1 d h']⟩

theorem stOkA_ite {p : Nat} {c : Prop} [Decidable c] {m₁ m₂ : PM α}
    (h₁ : StOkA text p m₁) (h₂ : StOkA text p m₂) :
    StOkA text p (if c then m₁ else m₂) := by
  split
  · exact h₁
  · exact h₂

/-- The `save = this.pos; ...; this.pos = save` pattern: binding the
current position and running a continuation that never moves left of it. -/
theorem stOk_getPos_bind {f : Nat → PM α} (hf : ∀ v, StOkA text v (f v)) :
    StOk text (getPos >>= f) := by
  intro st r st' h
  simp only [Bind.bind, getPos] at h
  obtain ⟨h1, h2⟩ := hf st.pos st r st' (le_refl _) h
  exact ⟨h1, h2⟩

theorem stOk_parseTag : StOk text (parseTag text) := by
  unfold parseTag
  refine stOk_bind stOk_getPos (fun start => ?_)
  refine stOk_bind (stOk_expectP _) (fun _ => ?_)
  refine stOk_bind stOk_curP (fun c => ?_)
  refine stOk_bind (stOk_ite (stOk_bumpPos 1) (stOk_pure _)) (fun _ => ?_)
  refine stOk_bind stOk_parseIdentifier (fun name => ?_)
  refine stOk_bind stOk_curP (fun c2 => ?_)
  refine stOk_bind ?_ (fun args => ?_)
  · exact stOk_ite stOk_parseTagArgs (stOk_pure _)
  · exact stOk_bind stOk_getPos (fun stop => stOk_pure _)

theorem stOk_tagFnsAt (fuel : Nat) : TagFnsOk text (tagFnsAt text fuel) := by
  induction fuel with
  | zero =>
    exact ⟨stOk_pfail, stOk_pfail, fun _ => stOk_pfail, stOk_pfail,
      fun _ => stOk_pfail, stOk_pfail⟩
  | succ f ih =>
    obtain ⟨ihTag, ihOr, ihOrLoop, ihAnd, ihAndLoop, ihPrim⟩ := ih
    show TagFnsOk text (tagFnsStep text (tagFnsAt text f))
    have hOrLoop : ∀ e, StOk text ((tagFnsStep text (tagFnsAt text f)).orLoop e) := by
      intro e
      show StOk text (getPos >>= fun saved =>
        skipInlineSpacesP text >>= fun _ => getPos >>= fun p =>
        if startsWithAt text (strL "or") p && !(identContAt text (p + 2)) then
          bumpPos 2 >>= fun _ => skipInlineSpacesP text >>= fun _ =>
          (tagFnsAt text f).andExpr >>= fun right =>
          (tagFnsAt text f).orLoop (TagExpr.Or e right)
        else setPos saved >>= fun _ => pure e)
      refine stOk_getPos_bind (fun saved => ?_)
      refine stOkA_bind (stOkA_of_stOk stOk_skipInlineSpaces) (fun _ => ?_)
      refine stOkA_bind (stOkA_of_stOk stOk_getPos) (fun p => ?_)
      refine stOkA_ite ?_ ?_
      · refine stOkA_bind (stOkA_of_stOk (stOk_bumpPos 2)) (fun _ => ?_)
        refine stOkA_bind (stOkA_of_stOk stOk_skipInlineSpaces) (fun _ => ?_)
        refine stOkA_bind (stOkA_of_stOk ihAnd) (fun right => ?_)
        exact stOkA_of_stOk (ihOrLoop _)
      · exact stOkA_bind stOkA_setPos (fun _ => stOkA_pure _)
    have hAndLoop : ∀ e, StOk text ((tagFnsStep text (tagFnsAt text f)).andLoop e) := by
      intro e
      show StOk text (getPos >>= fun saved =>
        skipInlineSpacesP text >>= fun _ => getPos >>= fun p =>
        if startsWithAt text (strL "and") p && !(identContAt text (p + 3)) then
          bumpPos 3 >>= fun _ => skipInlineSpacesP text >>= fun _ =>
          (tagFnsAt text f).tagPrimary >>= fun right =>
          (tagFnsAt text f).andLoop (TagExpr.And e right)
        else setPos saved >>= fun _ => pure e)
      refine stOk_getPos_bind (fun saved => ?_)
      refine stOkA_bind (stOkA_of_stOk stOk_skipInlineSpaces) (fun _ => ?_)
      refine stOkA_bind (stOkA_of_stOk stOk_getPos) (fun p => ?_)
      refine stOkA_ite ?_ ?_
      · refine stOkA_bind (stOkA_of_stOk (stOk_bumpPos 3)) (fun _ => ?_)
        refine stOkA_bind (stOkA_of_stOk stOk_skipInlineSpaces) (fun _ => ?_)
        refine stOkA_bind (stOkA_of_stOk ihPrim) (fun right => ?_)
        exact stOkA_of_stOk (ihAndLoop _)
      · exact stOkA_bind stOkA_setPos (fun _ => stOkA_pure _)
    have hPrim : StOk text (tagFnsStep text (tagFnsAt text f)).tagPrimary := by
      refine stOk_bind stOk_curP (fun c => stOk_ite ?_ ?_)
      · refine stOk_bind (stOk_bumpPos 1) (fun _ => ?_)
        refine stOk_bind stOk_skipInlineSpaces (fun _ => ?_)
        refine stOk_bind ihTag (fun expr => ?_)
        refine stOk_bind stOk_skipInlineSpaces (fun _ => ?_)
        exact stOk_bind (stOk_expectP _) (fun _ => stOk_pure _)
      · exact stOk_bind stOk_parseTag (fun tag => stOk_pure _)
    have hAnd : StOk text (tagFnsStep text (tagFnsAt text f)).andExpr :=
      stOk_bind ihPrim (fun left => ihAndLoop left)
    have hOr : StOk text (tagFnsStep text (tagFnsAt text f)).orExpr :=
      stOk_bind ihAnd (fun left => ihOrLoop left)
    exact ⟨ihOr, hOr, hOrLoop, hAnd, hAndLoop, hPrim⟩

theorem stOk_parseTagExpr (fuel : Nat) : StOk text (parseTagExpr text fuel) :=
  (stOk_tagFnsAt fuel).1

theorem stOk_parseStepCondLoop (fuel : Nat) (e : TagExpr) :
    StOk text (parseStepCondLoop text fuel e) := by
  induction fuel generalizing e with
  | zero => exact stOk_pfail
  | succ f ih =>
    show StOk text (parseStepCondStep text (parseStepCondLoop text f) e)
    unfold parseStepCondStep
    refine stOk_bind stOk_skipInlineSpaces (fun _ => ?_)
    refine stOk_bind stOk_curP (fun ch2 => stOk_ite (stOk_pure _) ?_)
    refine stOk_bind (stOk_testPrefix _) (fun b => stOk_ite (stOk_pure _) ?_)
    refine stOk_ite (stOk_pure _) ?_
    exact stOk_bind stOk_parseTag (fun t => ih _)

theorem stOk_parseStepCondition (fuel : Nat) :
    StOk text (parseStepCondition text fuel) := by
  unfold parseStepCondition
  refine stOk_bind stOk_skipInlineSpaces (fun _ => ?_)
  refine stOk_bind stOk_curP (fun ch => stOk_ite (stOk_pure _) ?_)
  refine stOk_bind (stOk_parseTagExpr fuel) (fun e => ?_)
  exact stOk_bind (stOk_parseStepCondLoop fuel e) (fun e2 => stOk_pure _)

theorem stOk_inlineArgsScan (o c : Char) (fuel : Nat) :
    ∀ d i sc e, StOk text (inlineArgsScan text o c fuel d i sc e) := by
  induction fuel with
  | zero => intro d i sc e; exact stOk_pfail
  | succ f ih =>
    intro d i sc e
    show StOk text (inlineArgsScanStep text o c (inlineArgsScan text o c f) d i sc e)
    unfold inlineArgsScanStep
    refine stOk_bind stOk_eofP (fun b => stOk_ite (stOk_pure _) ?_)
    refine stOk_ite (stOk_pure _) ?_
    refine stOk_bind stOk_curP (fun ch => ?_)
    refine stOk_ite ?_ (stOk_ite ?_ (stOk_ite ?_ (stOk_ite ?_ ?_)))
    · exact stOk_bind (stOk_bumpPos 1) (fun _ => ih _ _ _ _)
    · exact stOk_bind (stOk_bumpPos 1) (fun _ => ih _ _ _ _)
    · exact stOk_bind (stOk_bumpPos 1) (fun _ => ih _ _ _ _)
    · exact stOk_bind (stOk_bumpPos 1) (fun _ => ih _ _ _ _)
    · exact stOk_ite (stOk_pure _) (stOk_bind (stOk_bumpPos 1) (fun _ => ih _ _ _ _))

theorem stOk_parseInlineArgs : StOk text (parseInlineArgs text) := by
  unfold parseInlineArgs
  refine stOk_getPos_bind (fun trimmedStart => ?_)
  refine stOkA_bind (stOkA_of_stOk stOk_skipInlineSpaces) (fun _ => ?_)
  refine stOkA_bind (stOkA_of_stOk stOk_curP) (fun ch => ?_)
  refine stOkA_ite ?_ ?_
  · exact stOkA_bind stOkA_setPos (fun _ => stOkA_pure _)
  · refine stOkA_of_stOk ?_
    refine stOk_bind (stOk_bumpPos 1) (fun _ => ?_)
    refine stOk_bind stOk_getPos (fun contentStart => ?_)
    refine stOk_bind (stOk_inlineArgsScan _ _ _ _ _ _ _) (fun depth => ?_)
    refine stOk_ite stOk_pfail ?_
    refine stOk_bind stOk_getPos (fun p => ?_)
    refine stOk_bind (stOk_bumpPos 1) (fun _ => ?_)
    exact stOk_ite (stOk_pure _) (stOk_pure _)

theorem stOk_parseConfigValue : StOk text (parseConfigValue text) := by
  unfold parseConfigValue
  refine stOk_bind (stOk_tryParse ?_) (fun ewd => ?_)
  · refine stOk_bind (stOk_expectP _) (fun _ => ?_)
    refine stOk_bind stOk_parseIdentifier (fun v => ?_)
    refine stOk_bind stOk_skipInlineSpaces (fun _ => ?_)
    refine stOk_bind (stOk_expectP _) (fun _ => ?_)
    refine stOk_bind stOk_skipInlineSpaces (fun _ => ?_)
    exact stOk_bind stOk_parseQuotedString (fun dflt => stOk_pure _)
  cases ewd
  · refine stOk_bind (stOk_tryParse ?_) (fun env => ?_)
    · refine stOk_bind (stOk_expectP _) (fun _ => ?_)
      exact stOk_bind stOk_parseIdentifier (fun v => stOk_pure _)
    cases env
    · refine stOk_bind (stOk_tryParse stOk_parseQuotedString) (fun str => ?_)
      cases str
      · refine stOk_bind (stOk_tryParse ?_) (fun bool => ?_)
        · refine stOk_bind (stOk_matchP _) (fun b => stOk_ite (stOk_pure _) ?_)
          exact stOk_bind (stOk_matchP _) (fun b2 => stOk_ite (stOk_pure _) stOk_pfail)
        cases bool
        · refine stOk_bind (stOk_tryParse stOk_parseNumber) (fun num => ?_)
          cases num
          · exact stOk_pfail
          · exact stOk_pure _
        · exact stOk_pure _
      · exact stOk_pure _
    · exact stOk_pure _
  · exact stOk_pure _

theorem stOk_parseConfigProperty : StOk text (parseConfigProperty text) := by
  unfold parseConfigProperty
  refine stOk_bind stOk_skipSpaces (fun _ => ?_)
  refine stOk_bind stOk_getPos (fun start => ?_)
  refine stOk_bind stOk_parseIdentifier (fun key => ?_)
  refine stOk_bind stOk_skipInlineSpaces (fun _ => ?_)
  refine stOk_bind (stOk_expectP _) (fun _ => ?_)
  refine stOk_bind stOk_skipInlineSpaces (fun _ => ?_)
  refine stOk_bind stOk_parseConfigValue (fun value => ?_)
  exact stOk_bind stOk_getPos (fun stop => stOk_pure _)

theorem stOk_parseConfigLoop (fuel : Nat) (props : List ConfigProperty) :
    StOk text (parseConfigLoop text fuel props) := by
  induction fuel generalizing props with
  | zero => exact stOk_pfail
  | succ f ih =>
    show StOk text (parseConfigStep text (parseConfigLoop text f) props)
    unfold parseConfigStep
    refine stOk_bind (stOk_tryParse stOk_parseConfigProperty) (fun prop => ?_)
    cases prop
    · exact stOk_pure _
    · exact stOk_bind stOk_skipSpaces (fun _ => ih _)

theorem stOk_parseConfig : StOk text (parseConfig text) := by
  unfold parseConfig
  refine stOk_bind stOk_getPos (fun start => ?_)
  refine stOk_bind (stOk_expectP _) (fun _ => ?_)
  refine stOk_bind stOk_skipInlineSpaces (fun _ => ?_)
  refine stOk_bind stOk_parseIdentifier (fun name => ?_)
  refine stOk_bind stOk_skipInlineSpaces (fun _ => ?_)
  refine stOk_bind (stOk_expectP _) (fun _ => ?_)
  refine stOk_bind stOk_parseInlineComment (fun ic => ?_)
  refine stOk_bind stOk_skipSpaces (fun _ => ?_)
  refine stOk_bind (stOk_parseConfigLoop _ _) (fun props => ?_)
  refine stOk_bind stOk_skipSpaces (fun _ => ?_)
  refine stOk_bind (stOk_expectP _) (fun _ => ?_)
  refine stOk_bind stOk_skipWhitespaceOnly (fun _ => ?_)
  exact stOk_bind stOk_getPos (fun stop => stOk_pure _)

theorem stOk_parseRegularStep : StOk text (parseRegularStep text) := by
  unfold parseRegularStep
  refine stOk_bind stOk_skipWhitespaceOnly (fun _ => ?_)
  refine stOk_bind stOk_getPos (fun start => ?_)
  refine stOk_bind (stOk_expectP _) (fun _ => ?_)
  refine stOk_bind stOk_skipInlineSpaces (fun _ => ?_)
  refine stOk_bind stOk_parseIdentifier (fun name => ?_)
  refine stOk_bind stOk_parseInlineArgs (fun args => ?_)
  refine stOk_bind stOk_skipInlineSpaces (fun _ => ?_)
  refine stOk_bind stOk_curP (fun c => ?_)
  refine stOk_bind ?_ (fun cfg => ?_)
  · refine stOk_ite ?_ (stOk_pure _)
    refine stOk_bind (stOk_bumpPos 1) (fun _ => ?_)
    exact stOk_bind stOk_skipInlineSpaces (fun _ => stOk_parseStepConfig)
  · refine stOk_bind (stOk_parseStepCondition _) (fun condition => ?_)
    refine stOk_bind stOk_skipWhitespaceOnly (fun _ => ?_)
    exact stOk_bind stOk_getPos (fun stop => stOk_pure _)

theorem invalid_status_ne_ub (n : Nat) :
    strL "Invalid HTTP status code: " ++ natToStr n ≠ ubMsg := by
  intro h
  have h0 : some 'I' = some 'U' := by
    rw [show some 'I' = (strL "Invalid HTTP status code: " ++ natToStr n).head?
      from rfl, h]
    rfl
  simp at h0

theorem stOk_pipeFnsAt (fuel : Nat) : PipeFnsOk text (pipeFnsAt text fuel) := by
  induction fuel with
  | zero =>
    exact ⟨stOk_pfail, stOk_pfail, stOk_pfail, stOk_pfail, fun _ => stOk_pfail,
      stOk_pfail, stOk_pfail, stOk_pfail, fun _ => stOk_pfail,
      fun _ => stOk_pfail, fun _ _ _ => stOk_pfail, stOk_pfail,
      fun _ _ => stOk_pfail⟩
  | succ f ih =>
    obtain ⟨ihStep, ihForeach, ihResult, ihResBr, ihResLoop, ihIf, ihDisp,
      ihDispBr, ihDispLoop, ihIfPipe, ihIfPipeLoop, ihPipe, ihPipeLoop⟩ := ih
    show PipeFnsOk text (pipeFnsStep text (pipeFnsAt text f))
    have hStep : StOk text (pipeFnsStep text (pipeFnsAt text f)).pipelineStep := by
      refine stOk_bind (stOk_tryParse ihResult) (fun r1 => ?_)
      cases r1
      · refine stOk_bind (stOk_tryParse ihIf) (fun r2 => ?_)
        cases r2
        · refine stOk_bind (stOk_tryParse ihDisp) (fun r3 => ?_)
          cases r3
          · refine stOk_bind (stOk_tryParse ihForeach) (fun r4 => ?_)
            cases r4
            · exact stOk_parseRegularStep
            · exact stOk_pure _
          · exact stOk_pure _
        · exact stOk_pure _
      · exact stOk_pure _
    have hForeach : StOk text (pipeFnsStep text (pipeFnsAt text f)).foreachStep := by
      refine stOk_bind stOk_skipWhitespaceOnly (fun _ => ?_)
      refine stOk_bind stOk_getPos (fun start => ?_)
      refine stOk_bind (stOk_expectP _) (fun _ => ?_)
      refine stOk_bind stOk_skipInlineSpaces (fun _ => ?_)
      refine stOk_bind (stOk_expectP _) (fun _ => ?_)
      refine stOk_bind stOk_curP (fun c => stOk_ite stOk_pfail ?_)
      refine stOk_bind stOk_skipInlineSpaces (fun _ => ?_)
      refine stOk_bind (stOk_consumeWhile _) (fun raw => ?_)
      refine stOk_ite stOk_pfail ?_
      refine stOk_bind stOk_skipSpaces (fun _ => ?_)
      refine stOk_bind (ihIfPipe _) (fun pipeline => ?_)
      refine stOk_bind stOk_skipSpaces (fun _ => ?_)
      refine stOk_bind (stOk_expectP _) (fun _ => ?_)
      exact stOk_bind stOk_getPos (fun stop => stOk_pure _)
    have hResBr : StOk text (pipeFnsStep text (pipeFnsAt text f)).resultBranch := by
      refine stOk_bind stOk_skipSpaces (fun _ => ?_)
      refine stOk_bind stOk_getPos (fun start => ?_)
      refine stOk_bind stOk_parseIdentifier (fun branchIdent => ?_)
      refine stOk_bind (stOk_expectP _) (fun _ => ?_)
      refine stOk_bind stOk_parseNumber (fun statusCode => ?_)
      refine stOk_bind ?_ (fun _ => ?_)
      · refine stOk_ite ?_ (stOk_pure _)
        exact stOk_bind stOk_getPos
          (fun p => stOk_reportP _ _ _ (invalid_status_ne_ub _))
      · refine stOk_bind (stOk_expectP _) (fun _ => ?_)
        refine stOk_bind (stOk_expectP _) (fun _ => ?_)
        refine stOk_bind stOk_skipSpaces (fun _ => ?_)
        refine stOk_bind ihPipe (fun pipeline => ?_)
        exact stOk_bind stOk_getPos (fun stop => stOk_pure _)
    have hResLoop : ∀ bs,
        StOk text ((pipeFnsStep text (pipeFnsAt text f)).resultBranchesLoop bs) := by
      intro bs
      refine stOk_bind (stOk_tryParse ihResBr) (fun br => ?_)
      cases br
      · exact stOk_pure _
      · exact ihResLoop _
    have hResult : StOk text (pipeFnsStep text (pipeFnsAt text f)).resultStep := by
      refine stOk_bind stOk_skipWhitespaceOnly (fun _ => ?_)
      refine stOk_bind stOk_getPos (fun start => ?_)
      refine stOk_bind (stOk_expectP _) (fun _ => ?_)
      refine stOk_bind stOk_skipInlineSpaces (fun _ => ?_)
      refine stOk_bind (stOk_expectP _) (fun _ => ?_)
      refine stOk_bind stOk_skipWhitespaceOnly (fun _ => ?_)
      refine stOk_bind (ihResLoop _) (fun branches => ?_)
      exact stOk_bind stOk_getPos (fun stop => stOk_pure _)
    have hIf : StOk text (pipeFnsStep text (pipeFnsAt text f)).ifStep := by
      refine stOk_bind stOk_skipWhitespaceOnly (fun _ => ?_)
      refine stOk_bind stOk_getPos (fun start => ?_)
      refine stOk_bind (stOk_expectP _) (fun _ => ?_)
      refine stOk_bind stOk_skipInlineSpaces (fun _ => ?_)
      refine stOk_bind (stOk_expectP _) (fun _ => ?_)
      refine stOk_bind stOk_skipSpaces (fun _ => ?_)
      refine stOk_bind (ihIfPipe _) (fun condition => ?_)
      refine stOk_bind stOk_skipSpaces (fun _ => ?_)
      refine stOk_bind (stOk_expectP _) (fun _ => ?_)
      refine stOk_bind stOk_skipSpaces (fun _ => ?_)
      refine stOk_bind (ihIfPipe _) (fun thenBranch => ?_)
      refine stOk_bind stOk_skipSpaces (fun _ => ?_)
      refine stOk_bind (stOk_tryParse ?_) (fun elseBranch => ?_)
      · refine stOk_bind (stOk_expectP _) (fun _ => ?_)
        exact stOk_bind stOk_skipSpaces (fun _ => ihIfPipe _)
      · refine stOk_bind stOk_skipSpaces (fun _ => ?_)
        refine stOk_bind (stOk_tryParse ?_) (fun _ => ?_)
        · exact stOk_bind (stOk_expectP _) (fun _ => stOk_pure _)
        · exact stOk_bind stOk_getPos (fun stop => stOk_pure _)
    have hDispBr : StOk text (pipeFnsStep text (pipeFnsAt text f)).dispatchBranch := by
      refine stOk_bind stOk_skipSpaces (fun _ => ?_)
      refine stOk_bind stOk_getPos (fun start => ?_)
      refine stOk_bind (stOk_expectP _) (fun _ => ?_)
      refine stOk_bind stOk_skipInlineSpaces (fun _ => ?_)
      refine stOk_bind (stOk_parseTagExpr _) (fun condition => ?_)
      refine stOk_bind stOk_skipInlineSpaces (fun _ => ?_)
      refine stOk_bind (stOk_expectP _) (fun _ => ?_)
      refine stOk_bind stOk_skipSpaces (fun _ => ?_)
      refine stOk_bind (ihIfPipe _) (fun pipeline => ?_)
      exact stOk_bind stOk_getPos (fun stop => stOk_pure _)
    have hDispLoop : ∀ bs,
        StOk text ((pipeFnsStep text (pipeFnsAt text f)).dispatchBranchesLoop bs) := by
      intro bs
      refine stOk_bind (stOk_tryParse ihDispBr) (fun br => ?_)
      cases br
      · exact stOk_pure _
      · exact stOk_bind stOk_skipSpaces (fun _ => ihDispLoop _)
    have hDisp : StOk text (pipeFnsStep text (pipeFnsAt text f)).dispatchStep := by
      refine stOk_bind stOk_skipWhitespaceOnly (fun _ => ?_)
      refine stOk_bind stOk_getPos (fun start => ?_)
      refine stOk_bind (stOk_expectP _) (fun _ => ?_)
      refine stOk_bind stOk_skipInlineSpaces (fun _ => ?_)
      refine stOk_bind (stOk_expectP _) (fun _ => ?_)
      refine stOk_bind stOk_skipSpaces (fun _ => ?_)
      refine stOk_bind (ihDispLoop _) (fun branches => ?_)
      refine stOk_bind (stOk_tryParse ?_) (fun defaultBranch => ?_)
      · refine stOk_bind (stOk_expectP _) (fun _ => ?_)
        exact stOk_bind stOk_skipSpaces (fun _ => ihIfPipe _)
      · refine stOk_bind stOk_skipSpaces (fun _ => ?_)
        refine stOk_bind (stOk_tryParse ?_) (fun _ => ?_)
        · exact stOk_bind (stOk_expectP _) (fun _ => stOk_pure _)
        · exact stOk_bind stOk_getPos (fun stop => stOk_pure _)
    have hIfPipeLoop : ∀ ks s steps,
        StOk text ((pipeFnsStep text (pipeFnsAt text f)).ifPipelineLoop ks s steps) := by
      intro ks s steps
      refine stOk_getPos_bind (fun save => ?_)
      refine stOkA_bind (stOkA_of_stOk stOk_skipSpaces) (fun _ => ?_)
      refine stOkA_bind (stOkA_of_stOk stOk_getPos) (fun p => ?_)
      refine stOkA_ite ?_ (stOkA_ite ?_ ?_)
      · exact stOkA_bind stOkA_setPos (fun _ => stOkA_pure _)
      · exact stOkA_bind stOkA_setPos (fun _ => stOkA_pure _)
      · refine stOkA_bind (stOkA_of_stOk ihStep) (fun step => ?_)
        exact stOkA_of_stOk (ihIfPipeLoop _ _ _)
    have hIfPipe : ∀ ks,
        StOk text ((pipeFnsStep text (pipeFnsAt text f)).ifPipeline ks) := by
      intro ks
      exact stOk_bind stOk_getPos (fun start => ihIfPipeLoop _ _ _)
    have hPipeLoop : ∀ s steps,
        StOk text ((pipeFnsStep text (pipeFnsAt text f)).pipelineLoop s steps) := by
      intro s steps
      refine stOk_getPos_bind (fun save => ?_)
      refine stOkA_bind (stOkA_of_stOk stOk_skipSpaces) (fun _ => ?_)
      refine stOkA_bind (stOkA_of_stOk stOk_getPos) (fun p => ?_)
      refine stOkA_ite ?_ ?_
      · exact stOkA_bind stOkA_setPos (fun _ => stOkA_pure _)
      · refine stOkA_bind (stOkA_of_stOk ihStep) (fun step => ?_)
        exact stOkA_of_stOk (ihPipeLoop _ _)
    have hPipe : StOk text (pipeFnsStep text (pipeFnsAt text f)).pipeline :=
      stOk_bind stOk_getPos (fun start => ihPipeLoop _ _)
    exact ⟨hStep, hForeach, hResult, hResBr, hResLoop, hIf, hDisp, hDispBr,
      hDispLoop, hIfPipe, hIfPipeLoop, hPipe, hPipeLoop⟩

theorem stOk_parsePipeline (fuel : Nat) : StOk text (parsePipeline text fuel) :=
  (stOk_pipeFnsAt fuel).2.2.2.2.2.2.2.2.2.2.2.1

theorem stOk_parseWhen : StOk text (parseWhen text) := by
  unfold parseWhen
  refine stOk_bind (stOk_tryParse ?_) (fun calling => ?_)
  · refine stOk_bind stOk_getPos (fun start => ?_)
    refine stOk_bind (stOk_expectP _) (fun _ => ?_)
    refine stOk_bind stOk_skipInlineSpaces (fun _ => ?_)
    refine stOk_bind stOk_parseMethod (fun method => ?_)
    refine stOk_bind stOk_skipInlineSpaces (fun _ => ?_)
    refine stOk_bind (stOk_consumeWhile _) (fun path => ?_)
    exact stOk_bind stOk_getPos (fun stop => stOk_pure _)
  cases calling
  · refine stOk_bind (stOk_tryParse ?_) (fun ep => ?_)
    · refine stOk_bind stOk_getPos (fun start => ?_)
      refine stOk_bind (stOk_expectP _) (fun _ => ?_)
      refine stOk_bind stOk_skipInlineSpaces (fun _ => ?_)
      refine stOk_bind (stOk_expectP _) (fun _ => ?_)
      refine stOk_bind stOk_skipInlineSpaces (fun _ => ?_)
      refine stOk_bind stOk_parseIdentifier (fun name => ?_)
      exact stOk_bind stOk_getPos (fun stop => stOk_pure _)
    cases ep
    · refine stOk_bind (stOk_tryParse ?_) (fun ev => ?_)
      · refine stOk_bind stOk_getPos (fun start => ?_)
        refine stOk_bind (stOk_expectP _) (fun _ => ?_)
        refine stOk_bind stOk_skipInlineSpaces (fun _ => ?_)
        refine stOk_bind (stOk_expectP _) (fun _ => ?_)
        refine stOk_bind stOk_skipInlineSpaces (fun _ => ?_)
        refine stOk_bind stOk_parseIdentifier (fun varType => ?_)
        refine stOk_bind stOk_skipInlineSpaces (fun _ => ?_)
        refine stOk_bind stOk_parseIdentifier (fun name => ?_)
        exact stOk_bind stOk_getPos (fun stop => stOk_pure _)
      cases ev
      · exact stOk_pfail
      · exact stOk_pure _
    · exact stOk_pure _
  · exact stOk_pure _

theorem stOk_parseConditionValue : StOk text (parseConditionValue text) := by
  unfold parseConditionValue
  refine stOk_bind (stOk_tryParse stOk_parseBacktickString) (fun v1 => ?_)
  cases v1
  · refine stOk_bind (stOk_tryParse stOk_parseQuotedString) (fun v2 => ?_)
    cases v2
    · exact stOk_consumeWhile _
    · exact stOk_pure _
  · exact stOk_pure _

theorem stOk_parseQuotedOrBacktick : StOk text (parseQuotedOrBacktick text) := by
  unfold parseQuotedOrBacktick
  refine stOk_bind (stOk_tryParse stOk_parseBacktickString) (fun bt => ?_)
  cases bt
  · refine stOk_bind (stOk_tryParse stOk_parseQuotedString) (fun qt => ?_)
    cases qt
    · exact stOk_pfail
    · exact stOk_pure _
  · exact stOk_pure _

theorem stOk_parseCondition : StOk text (parseCondition text) := by
  unfold parseCondition
  refine stOk_bind stOk_skipSpaces (fun _ => ?_)
  refine stOk_bind stOk_getPos (fun start => ?_)
  refine stOk_bind (stOk_matchP _) (fun thenM => ?_)
  refine stOk_bind ?_ (fun ct => ?_)
  · refine stOk_ite (stOk_pure _) ?_
    exact stOk_bind (stOk_matchP _)
      (fun andM => stOk_ite (stOk_pure _) stOk_pfail)
  refine stOk_bind stOk_skipInlineSpaces (fun _ => ?_)
  refine stOk_bind (stOk_consumeWhile _) (fun field => ?_)
  refine stOk_bind stOk_skipInlineSpaces (fun _ => ?_)
  refine stOk_ite ?_ (stOk_ite ?_ ?_)
  · refine stOk_bind (stOk_consumeWhile _) (fun callType => ?_)
    refine stOk_bind stOk_skipInlineSpaces (fun _ => ?_)
    refine stOk_bind (stOk_consumeWhile _) (fun callName => ?_)
    refine stOk_bind stOk_skipInlineSpaces (fun _ => ?_)
    refine stOk_bind (stOk_testPrefix _) (fun hasWithArgs => ?_)
    refine stOk_bind ?_ (fun comparison2 => ?_)
    · refine stOk_ite ?_ ?_
      · exact stOk_bind (stOk_bumpPos 14) (fun _ => stOk_pure _)
      · refine stOk_bind (stOk_testPrefix _) (fun hasWith => ?_)
        refine stOk_ite ?_ stOk_pfail
        exact stOk_bind (stOk_bumpPos 4) (fun _ => stOk_pure _)
    · refine stOk_bind stOk_skipInlineSpaces (fun _ => ?_)
      refine stOk_bind stOk_parseConditionValue (fun value2 => ?_)
      exact stOk_bind stOk_getPos (fun stop => stOk_pure _)
  · refine stOk_bind stOk_parseQuotedOrBacktick (fun selectorStr => ?_)
    refine stOk_bind stOk_skipInlineSpaces (fun _ => ?_)
    refine stOk_bind (stOk_consumeWhile _) (fun operation => ?_)
    refine stOk_bind stOk_skipInlineSpaces (fun _ => ?_)
    refine stOk_bind ?_ (fun dcv => ?_)
    · refine stOk_ite (stOk_pure _) (stOk_ite ?_ (stOk_ite ?_ (stOk_ite ?_
        (stOk_ite ?_ stOk_pfail))))
      · refine stOk_bind (stOk_expectP _) (fun _ => ?_)
        refine stOk_bind stOk_skipInlineSpaces (fun _ => ?_)
        exact stOk_bind (stOk_expectP _) (fun _ => stOk_pure _)
      · refine stOk_bind stOk_skipInlineSpaces (fun _ => ?_)
        refine stOk_bind (stOk_consumeWhile _) (fun comparison2 => ?_)
        refine stOk_bind stOk_skipInlineSpaces (fun _ => ?_)
        exact stOk_bind stOk_parseConditionValue (fun value2 => stOk_pure _)
      · refine stOk_bind (stOk_consumeWhile _) (fun compParts => ?_)
        exact stOk_bind (stOk_consumeWhile _) (fun rawValue => stOk_pure _)
      · refine stOk_bind stOk_parseQuotedOrBacktick (fun attrName => ?_)
        refine stOk_bind stOk_skipInlineSpaces (fun _ => ?_)
        refine stOk_bind (stOk_consumeWhile _) (fun comparison2 => ?_)
        refine stOk_bind stOk_skipInlineSpaces (fun _ => ?_)
        exact stOk_bind stOk_parseConditionValue (fun value2 => stOk_pure _)
    · exact stOk_bind stOk_getPos (fun stop => stOk_pure _)
  · refine stOk_bind ?_ (fun headerName => ?_)
    · refine stOk_ite ?_ (stOk_pure _)
      refine stOk_bind (stOk_tryParse stOk_parseBacktickString) (fun h1 => ?_)
      cases h1
      · refine stOk_bind (stOk_tryParse stOk_parseQuotedString) (fun h2 => ?_)
        exact stOk_bind stOk_skipInlineSpaces (fun _ => stOk_pure _)
      · exact stOk_bind stOk_skipInlineSpaces (fun _ => stOk_pure _)
    · refine stOk_bind ?_ (fun jqExpr => ?_)
      · exact stOk_ite (stOk_tryParse stOk_parseBacktickString) (stOk_pure _)
      · refine stOk_bind stOk_skipInlineSpaces (fun _ => ?_)
        refine stOk_bind (stOk_consumeWhile _) (fun comparison => ?_)
        refine stOk_bind stOk_skipInlineSpaces (fun _ => ?_)
        refine stOk_bind stOk_parseConditionValue (fun value => ?_)
        exact stOk_bind stOk_getPos (fun stop => stOk_pure _)

theorem stOk_parseMockHead (prefixWord : Str) :
    StOk text (parseMockHead text prefixWord) := by
  unfold parseMockHead
  refine stOk_bind stOk_skipSpaces (fun _ => ?_)
  refine stOk_bind stOk_getPos (fun start => ?_)
  refine stOk_bind (stOk_expectP _) (fun _ => ?_)
  refine stOk_bind stOk_skipInlineSpaces (fun _ => ?_)
  refine stOk_bind (stOk_expectP _) (fun _ => ?_)
  refine stOk_bind stOk_skipInlineSpaces (fun _ => ?_)
  refine stOk_bind (stOk_testPrefix _) (fun q => ?_)
  refine stOk_bind (stOk_testPrefix _) (fun m => ?_)
  refine stOk_bind ?_ (fun target => ?_)
  · refine stOk_ite ?_ (stOk_consumeWhile _)
    refine stOk_bind (stOk_consumeWhile _) (fun type => ?_)
    refine stOk_bind stOk_skipInlineSpaces (fun _ => ?_)
    exact stOk_bind (stOk_consumeWhile _) (fun name => stOk_pure _)
  · refine stOk_bind stOk_skipInlineSpaces (fun _ => ?_)
    refine stOk_bind (stOk_expectP _) (fun _ => ?_)
    refine stOk_bind stOk_skipInlineSpaces (fun _ => ?_)
    refine stOk_bind stOk_parseBacktickString (fun rv => ?_)
    refine stOk_bind stOk_skipSpaces (fun _ => ?_)
    exact stOk_bind stOk_getPos (fun stop => stOk_pure _)

theorem stOk_parseMock : StOk text (parseMock text) :=
  stOk_parseMockHead _

theorem stOk_parseAndMock : StOk text (parseAndMock text) :=
  stOk_parseMockHead _

theorem stOk_parseLetValue : StOk text (parseLetValue text) := by
  unfold parseLetValue
  refine stOk_bind (stOk_tryParse stOk_parseBacktickString) (fun bt => ?_)
  cases bt
  · refine stOk_bind (stOk_tryParse stOk_parseQuotedString) (fun qt => ?_)
    cases qt
    · refine stOk_bind (stOk_testPrefix _) (fun b => stOk_ite ?_ ?_)
      · exact stOk_bind (stOk_bumpPos 4) (fun _ => stOk_pure _)
      · refine stOk_bind (stOk_testPrefix _) (fun b2 => stOk_ite ?_ ?_)
        · exact stOk_bind (stOk_bumpPos 4) (fun _ => stOk_pure _)
        · refine stOk_bind (stOk_testPrefix _) (fun b3 => stOk_ite ?_ ?_)
          · exact stOk_bind (stOk_bumpPos 5) (fun _ => stOk_pure _)
          · refine stOk_bind (stOk_tryParse ?_) (fun num => ?_)
            · refine stOk_bind (stOk_consumeWhile _) (fun digits => ?_)
              refine stOk_ite stOk_pfail ?_
              refine stOk_bind stOk_curP (fun c => stOk_ite ?_ (stOk_pure _))
              refine stOk_bind (stOk_bumpPos 1) (fun _ => ?_)
              refine stOk_bind (stOk_consumeWhile _) (fun decimals => ?_)
              exact stOk_ite stOk_pfail (stOk_pure _)
            cases num
            · exact stOk_pfail
            · exact stOk_pure _
    · exact stOk_pure _
  · exact stOk_pure _

theorem stOk_parseLetBinding : StOk text (parseLetBinding text) := by
  unfold parseLetBinding
  refine stOk_bind stOk_getPos (fun fullStart => ?_)
  refine stOk_bind (stOk_expectP _) (fun _ => ?_)
  refine stOk_bind stOk_skipInlineSpaces (fun _ => ?_)
  refine stOk_bind stOk_getPos (fun nameStart => ?_)
  refine stOk_bind stOk_parseIdentifier (fun name => ?_)
  refine stOk_bind stOk_getPos (fun nameEnd => ?_)
  refine stOk_bind stOk_getSt (fun st0 => ?_)
  refine stOk_bind ?_ (fun _ => ?_)
  · rcases hdn : st0.currentDescribeName with _ | dn
    · exact stOk_pure _
    · exact stOk_pushTestLetVariable _
  · refine stOk_bind stOk_skipInlineSpaces (fun _ => ?_)
    refine stOk_bind (stOk_expectP _) (fun _ => ?_)
    refine stOk_bind stOk_skipInlineSpaces (fun _ => ?_)
    refine stOk_bind stOk_parseLetValue (fun vf => ?_)
    exact stOk_bind stOk_getPos (fun fullEnd => stOk_pure _)

theorem stOk_parseItMocksLoop (fuel : Nat) (mocks : List Mock) :
    StOk text (parseItMocksLoop text fuel mocks) := by
  induction fuel generalizing mocks with
  | zero => exact stOk_pfail
  | succ f ih =>
    show StOk text (parseItMocksStep text (parseItMocksLoop text f) mocks)
    unfold parseItMocksStep
    refine stOk_bind (stOk_tryParse stOk_parseMock) (fun m => ?_)
    cases m
    · exact stOk_pure _
    · exact ih _

theorem stOk_parseItAndMocksLoop (fuel : Nat) (mocks : List Mock) :
    StOk text (parseItAndMocksLoop text fuel mocks) := by
  induction fuel generalizing mocks with
  | zero => exact stOk_pfail
  | succ f ih =>
    show StOk text (parseItAndMocksStep text (parseItAndMocksLoop text f) mocks)
    unfold parseItAndMocksStep
    refine stOk_bind (stOk_tryParse stOk_parseAndMock) (fun m => ?_)
    cases m
    · exact stOk_pure _
    · exact stOk_bind stOk_skipSpaces (fun _ => ih _)

theorem stOk_parseItLetsLoop (fuel : Nat) (vars : List LetBinding) :
    StOk text (parseItLetsLoop text fuel vars) := by
  induction fuel generalizing vars with
  | zero => exact stOk_pfail
  | succ f ih =>
    show StOk text (parseItLetsStep text (parseItLetsLoop text f) vars)
    unfold parseItLetsStep
    refine stOk_bind (stOk_tryParse ?_) (fun lb => ?_)
    · exact stOk_bind stOk_parseLetBinding
        (fun b => stOk_bind stOk_skipSpaces (fun _ => stOk_pure _))
    cases lb
    · exact stOk_pure _
    · exact ih _

theorem stOk_parseWithClauseBody : StOk text (parseWithClauseBody text) := by
  unfold parseWithClauseBody
  refine stOk_bind stOk_skipInlineSpaces (fun _ => ?_)
  refine stOk_bind (stOk_testPrefix _) (fun b1 => stOk_ite ?_ ?_)
  · refine stOk_bind (stOk_expectP _) (fun _ => ?_)
    refine stOk_bind stOk_skipInlineSpaces (fun _ => ?_)
    refine stOk_bind stOk_parseBacktickString (fun v => ?_)
    exact stOk_bind stOk_skipSpaces (fun _ => stOk_pure _)
  refine stOk_bind (stOk_testPrefix _) (fun b2 => stOk_ite ?_ ?_)
  · refine stOk_bind (stOk_expectP _) (fun _ => ?_)
    refine stOk_bind stOk_skipInlineSpaces (fun _ => ?_)
    refine stOk_bind stOk_parseBacktickString (fun v => ?_)
    exact stOk_bind stOk_skipSpaces (fun _ => stOk_pure _)
  refine stOk_bind (stOk_testPrefix _) (fun b3 => stOk_ite ?_ ?_)
  · refine stOk_bind (stOk_expectP _) (fun _ => ?_)
    refine stOk_bind stOk_skipInlineSpaces (fun _ => ?_)
    refine stOk_bind stOk_parseBacktickString (fun v => ?_)
    exact stOk_bind stOk_skipSpaces (fun _ => stOk_pure _)
  refine stOk_bind (stOk_testPrefix _) (fun b4 => stOk_ite ?_ stOk_pfail)
  refine stOk_bind (stOk_expectP _) (fun _ => ?_)
  refine stOk_bind stOk_skipInlineSpaces (fun _ => ?_)
  refine stOk_bind stOk_parseBacktickString (fun v => ?_)
  exact stOk_bind stOk_skipSpaces (fun _ => stOk_pure _)

theorem stOk_parseItWithLoop (fuel : Nat) :
    ∀ (b : Bool) acc, StOk text (parseItWithLoop text fuel b acc) := by
  induction fuel with
  | zero => intro b acc; exact stOk_pfail
  | succ f ih =>
    intro b acc
    show StOk text (parseItWithStep text (parseItWithLoop text f) b acc)
    unfold parseItWithStep
    refine stOk_bind (stOk_tryParse ?_) (fun parsed => ?_)
    · refine stOk_bind ?_ (fun _ => stOk_parseWithClauseBody)
      refine stOk_ite (stOk_expectP _) ?_
      refine stOk_bind (stOk_expectP _) (fun _ => ?_)
      exact stOk_bind stOk_skipInlineSpaces (fun _ => stOk_expectP _)
    cases parsed
    · exact stOk_pure _
    · exact ih _ _

theorem stOk_parseItCondsLoop (fuel : Nat) (conds : List Condition) :
    StOk text (parseItCondsLoop text fuel conds) := by
  induction fuel generalizing conds with
  | zero => exact stOk_pfail
  | succ f ih =>
    show StOk text (parseItCondsStep text (parseItCondsLoop text f) conds)
    unfold parseItCondsStep
    refine stOk_bind (stOk_tryParse stOk_parseCondition) (fun c => ?_)
    cases c
    · exact stOk_pure _
    · exact ih _

theorem stOk_parseIt : StOk text (parseIt text) := by
  unfold parseIt
  refine stOk_bind stOk_getPos (fun start => ?_)
  refine stOk_bind stOk_skipSpaces (fun _ => ?_)
  refine stOk_bind (stOk_expectP _) (fun _ => ?_)
  refine stOk_bind stOk_skipInlineSpaces (fun _ => ?_)
  refine stOk_bind (stOk_expectP _) (fun _ => ?_)
  refine stOk_bind (stOk_consumeWhile _) (fun name => ?_)
  refine stOk_bind (stOk_expectP _) (fun _ => ?_)
  refine stOk_bind stOk_skipSpaces (fun _ => ?_)
  refine stOk_bind (stOk_setCurrentTestName _) (fun _ => ?_)
  refine stOk_bind (stOk_parseItMocksLoop _ _) (fun mocks => ?_)
  refine stOk_bind (stOk_parseItLetsLoop _ _) (fun vars => ?_)
  refine stOk_bind (stOk_expectP _) (fun _ => ?_)
  refine stOk_bind stOk_skipInlineSpaces (fun _ => ?_)
  refine stOk_bind stOk_parseWhen (fun whenClause => ?_)
  refine stOk_bind stOk_skipSpaces (fun _ => ?_)
  refine stOk_bind (stOk_parseItWithLoop _ _ _) (fun fixtures => ?_)
  refine stOk_bind (stOk_parseItAndMocksLoop _ _) (fun extraMocks => ?_)
  refine stOk_bind (stOk_parseItCondsLoop _ _) (fun conditions => ?_)
  refine stOk_bind (stOk_setCurrentTestName _) (fun _ => ?_)
  exact stOk_bind stOk_getPos (fun stop => stOk_pure _)

theorem stOk_parseDescribeLoop (fuel : Nat) :
    ∀ acc, StOk text (parseDescribeLoop text fuel acc) := by
  induction fuel with
  | zero => intro acc; exact stOk_pfail
  | succ f ih =>
    intro acc
    show StOk text (parseDescribeStep text (parseDescribeLoop text f) acc)
    unfold parseDescribeStep
    refine stOk_bind stOk_skipSpaces (fun _ => ?_)
    refine stOk_bind (stOk_tryParse stOk_parseLetBinding) (fun lb => ?_)
    cases lb
    · refine stOk_bind (stOk_tryParse stOk_parseMock) (fun wm => ?_)
      cases wm
      · refine stOk_bind (stOk_tryParse stOk_parseAndMock) (fun am => ?_)
        cases am
        · refine stOk_bind (stOk_tryParse stOk_parseIt) (fun it => ?_)
          cases it
          · exact stOk_pure _
          · exact ih _
        · exact ih _
      · exact ih _
    · exact ih _

theorem stOk_parseDescribe : StOk text (parseDescribe text) := by
  unfold parseDescribe
  refine stOk_bind stOk_getPos (fun start => ?_)
  refine stOk_bind stOk_skipSpaces (fun _ => ?_)
  refine stOk_bind (stOk_expectP _) (fun _ => ?_)
  refine stOk_bind stOk_skipInlineSpaces (fun _ => ?_)
  refine stOk_bind (stOk_expectP _) (fun _ => ?_)
  refine stOk_bind (stOk_consumeWhile _) (fun name => ?_)
  refine stOk_bind (stOk_expectP _) (fun _ => ?_)
  refine stOk_bind stOk_parseInlineComment (fun ic => ?_)
  refine stOk_bind stOk_skipSpaces (fun _ => ?_)
  refine stOk_bind (stOk_setCurrentDescribeName _) (fun _ => ?_)
  refine stOk_bind (stOk_parseDescribeLoop _ _) (fun acc => ?_)
  refine stOk_bind (stOk_setCurrentDescribeName _) (fun _ => ?_)
  exact stOk_bind stOk_getPos (fun stop => stOk_pure _)

theorem stOk_parseNamedPipeline : StOk text (parseNamedPipeline text) := by
  unfold parseNamedPipeline
  refine stOk_bind stOk_getPos (fun start => ?_)
  refine stOk_bind (stOk_expectP _) (fun _ => ?_)
  refine stOk_bind stOk_skipInlineSpaces (fun _ => ?_)
  refine stOk_bind stOk_parseIdentifier (fun name => ?_)
  refine stOk_bind stOk_skipInlineSpaces (fun _ => ?_)
  refine stOk_bind (stOk_expectP _) (fun _ => ?_)
  refine stOk_bind stOk_parseInlineComment (fun ic => ?_)
  refine stOk_bind stOk_skipInlineSpaces (fun _ => ?_)
  refine stOk_bind (stOk_parsePipeline _) (fun pipeline => ?_)
  refine stOk_bind stOk_getPos (fun stop => ?_)
  refine stOk_bind (stOk_setPipelineRange _ _) (fun _ => ?_)
  exact stOk_bind stOk_skipWhitespaceOnly (fun _ => stOk_pure _)

theorem stOk_parseNamedRefTail :
    StOk text (parsePipelineRef.parseNamedRefTail text) := by
  unfold parsePipelineRef.parseNamedRefTail
  refine stOk_bind (stOk_tryParse ?_) (fun named => ?_)
  · refine stOk_bind stOk_skipWhitespaceOnly (fun _ => ?_)
    refine stOk_bind stOk_getPos (fun start => ?_)
    refine stOk_bind (stOk_expectP _) (fun _ => ?_)
    refine stOk_bind stOk_skipInlineSpaces (fun _ => ?_)
    refine stOk_bind (stOk_expectP _) (fun _ => ?_)
    refine stOk_bind stOk_skipInlineSpaces (fun _ => ?_)
    refine stOk_bind stOk_parseIdentifier (fun name => ?_)
    exact stOk_bind stOk_getPos (fun stop => stOk_pure _)
  cases named
  · exact stOk_pfail
  · exact stOk_pure _

theorem stOk_parsePipelineRef : StOk text (parsePipelineRef text) := by
  unfold parsePipelineRef
  refine stOk_bind (stOk_tryParse (stOk_parsePipeline _)) (fun inline => ?_)
  cases inline
  · exact stOk_parseNamedRefTail
  · exact stOk_ite (stOk_pure _) stOk_parseNamedRefTail

theorem stOk_parseVariable : StOk text (parseVariable text) := by
  unfold parseVariable
  refine stOk_bind stOk_getPos (fun start => ?_)
  refine stOk_bind stOk_parseIdentifier (fun varType => ?_)
  refine stOk_bind stOk_skipInlineSpaces (fun _ => ?_)
  refine stOk_bind stOk_parseIdentifier (fun name => ?_)
  refine stOk_bind stOk_skipInlineSpaces (fun _ => ?_)
  refine stOk_bind (stOk_expectP _) (fun _ => ?_)
  refine stOk_bind stOk_skipInlineSpaces (fun _ => ?_)
  refine stOk_bind stOk_parseBacktickString (fun value => ?_)
  refine stOk_bind stOk_parseInlineComment (fun ic => ?_)
  refine stOk_bind stOk_getPos (fun stop => ?_)
  refine stOk_bind (stOk_setVariableRange _ _) (fun _ => ?_)
  exact stOk_bind stOk_skipWhitespaceOnly (fun _ => stOk_pure _)

theorem stOk_parseGraphQLSchema : StOk text (parseGraphQLSchema text) := by
  unfold parseGraphQLSchema
  refine stOk_bind stOk_getPos (fun start => ?_)
  refine stOk_bind (stOk_expectP _) (fun _ => ?_)
  refine stOk_bind stOk_skipInlineSpaces (fun _ => ?_)
  refine stOk_bind (stOk_expectP _) (fun _ => ?_)
  refine stOk_bind stOk_parseInlineComment (fun ic => ?_)
  refine stOk_bind stOk_skipInlineSpaces (fun _ => ?_)
  refine stOk_bind stOk_parseBacktickString (fun sdl => ?_)
  refine stOk_bind stOk_getPos (fun stop => ?_)
  exact stOk_bind stOk_skipWhitespaceOnly (fun _ => stOk_pure _)

theorem stOk_parseQueryResolver : StOk text (parseQueryResolver text) := by
  unfold parseQueryResolver
  refine stOk_bind stOk_getPos (fun start => ?_)
  refine stOk_bind (stOk_expectP _) (fun _ => ?_)
  refine stOk_bind stOk_skipInlineSpaces (fun _ => ?_)
  refine stOk_bind stOk_parseIdentifier (fun name => ?_)
  refine stOk_bind stOk_skipInlineSpaces (fun _ => ?_)
  refine stOk_bind (stOk_expectP _) (fun _ => ?_)
  refine stOk_bind stOk_parseInlineComment (fun ic => ?_)
  refine stOk_bind stOk_skipWhitespaceOnly (fun _ => ?_)
  refine stOk_bind (stOk_parsePipeline _) (fun pipeline => ?_)
  refine stOk_bind stOk_getPos (fun stop => ?_)
  exact stOk_bind stOk_skipWhitespaceOnly (fun _ => stOk_pure _)

theorem stOk_parseMutationResolver : StOk text (parseMutationResolver text) := by
  unfold parseMutationResolver
  refine stOk_bind stOk_getPos (fun start => ?_)
  refine stOk_bind (stOk_expectP _) (fun _ => ?_)
  refine stOk_bind stOk_skipInlineSpaces (fun _ => ?_)
  refine stOk_bind stOk_parseIdentifier (fun name => ?_)
  refine stOk_bind stOk_skipInlineSpaces (fun _ => ?_)
  refine stOk_bind (stOk_expectP _) (fun _ => ?_)
  refine stOk_bind stOk_parseInlineComment (fun ic => ?_)
  refine stOk_bind stOk_skipWhitespaceOnly (fun _ => ?_)
  refine stOk_bind (stOk_parsePipeline _) (fun pipeline => ?_)
  refine stOk_bind stOk_getPos (fun stop => ?_)
  exact stOk_bind stOk_skipWhitespaceOnly (fun _ => stOk_pure _)

theorem stOk_parseTypeResolver : StOk text (parseTypeResolver text) := by
  unfold parseTypeResolver
  refine stOk_bind stOk_getPos (fun start => ?_)
  refine stOk_bind (stOk_expectP _) (fun _ => ?_)
  refine stOk_bind stOk_skipInlineSpaces (fun _ => ?_)
  refine stOk_bind stOk_parseIdentifier (fun typeName => ?_)
  refine stOk_bind (stOk_expectP _) (fun _ => ?_)
  refine stOk_bind stOk_parseIdentifier (fun fieldName => ?_)
  refine stOk_bind stOk_skipInlineSpaces (fun _ => ?_)
  refine stOk_bind (stOk_expectP _) (fun _ => ?_)
  refine stOk_bind stOk_parseInlineComment (fun ic => ?_)
  refine stOk_bind stOk_skipWhitespaceOnly (fun _ => ?_)
  refine stOk_bind (stOk_parsePipeline _) (fun pipeline => ?_)
  refine stOk_bind stOk_getPos (fun stop => ?_)
  exact stOk_bind stOk_skipWhitespaceOnly (fun _ => stOk_pure _)

theorem stOk_parseFeatureFlags : StOk text (parseFeatureFlags text) := by
  unfold parseFeatureFlags
  refine stOk_bind (stOk_expectP _) (fun _ => ?_)
  refine stOk_bind stOk_skipInlineSpaces (fun _ => ?_)
  refine stOk_bind (stOk_expectP _) (fun _ => ?_)
  refine stOk_bind stOk_skipWhitespaceOnly (fun _ => ?_)
  refine stOk_bind (stOk_parsePipeline _) (fun pipeline => ?_)
  exact stOk_bind stOk_skipWhitespaceOnly (fun _ => stOk_pure _)

theorem stOk_parseRoute : StOk text (parseRoute text) := by
  unfold parseRoute
  refine stOk_bind stOk_getPos (fun start => ?_)
  refine stOk_bind stOk_parseMethod (fun method => ?_)
  refine stOk_bind stOk_skipInlineSpaces (fun _ => ?_)
  refine stOk_bind (stOk_consumeWhile _) (fun path => ?_)
  refine stOk_bind stOk_parseInlineComment (fun ic => ?_)
  refine stOk_bind stOk_skipSpaces (fun _ => ?_)
  refine stOk_bind stOk_parsePipelineRef (fun pipeline => ?_)
  refine stOk_bind stOk_getPos (fun stop => ?_)
  exact stOk_bind stOk_skipWhitespaceOnly (fun _ => stOk_pure _)

theorem unrec_ne_ub : strL "Unrecognized or unsupported syntax" ≠ ubMsg := by
  intro h
  exact absurd (congrArg (List.head? ·.reverse) h) (by decide)

theorem stOk_parseProgramAlts (acc : Program) (start : Nat) :
    StOk text (parseProgramAlts text acc start) := by
  unfold parseProgramAlts
  refine stOk_bind (stOk_tryParse stOk_parseStandaloneComment) (fun comment => ?_)
  rcases hc : comment.join with _ | c
  · refine stOk_bind (stOk_tryParse stOk_parseConfig) (fun cfg => ?_)
    cases cfg
    · refine stOk_bind (stOk_tryParse stOk_parseGraphQLSchema) (fun schema => ?_)
      cases schema
      · refine stOk_bind (stOk_tryParse stOk_parseQueryResolver) (fun query => ?_)
        cases query
        · refine stOk_bind (stOk_tryParse stOk_parseMutationResolver) (fun mu => ?_)
          cases mu
          · refine stOk_bind (stOk_tryParse stOk_parseTypeResolver) (fun res => ?_)
            cases res
            · refine stOk_bind (stOk_tryParse stOk_parseFeatureFlags) (fun flags => ?_)
              cases flags
              · refine stOk_bind (stOk_tryParse stOk_parseNamedPipeline) (fun np => ?_)
                cases np
                · refine stOk_bind (stOk_tryParse stOk_parseVariable) (fun v => ?_)
                  cases v
                  · refine stOk_bind (stOk_tryParse stOk_parseRoute) (fun route => ?_)
                    cases route
                    · refine stOk_bind (stOk_tryParse stOk_parseDescribe) (fun d => ?_)
                      cases d
                      · refine stOk_bind stOk_getPos (fun p => ?_)
                        refine stOk_ite ?_ (stOk_pure _)
                        refine stOk_bind (stOk_reportP _ _ _ unrec_ne_ub) (fun _ => ?_)
                        refine stOk_bind stOk_skipToEol (fun _ => ?_)
                        refine stOk_bind stOk_curP (fun ch => ?_)
                        refine stOk_bind (stOk_ite (stOk_bumpPos 1) (stOk_pure _))
                          (fun _ => ?_)
                        exact stOk_bind (stOk_consumeWhile _) (fun _ => stOk_pure _)
                      · exact stOk_pure _
                    · exact stOk_pure _
                  · exact stOk_pure _
                · exact stOk_pure _
              · exact stOk_pure _
            · exact stOk_pure _
          · exact stOk_pure _
        · exact stOk_pure _
      · exact stOk_pure _
    · exact stOk_pure _
  · refine stOk_bind stOk_curP (fun ch => ?_)
    refine stOk_bind (stOk_ite (stOk_bumpPos 1) (stOk_pure _)) (fun _ => ?_)
    exact stOk_pure _

theorem stOk_parseProgramIter (acc : Program) :
    StOk text (parseProgramIter text acc) := by
  unfold parseProgramIter
  refine stOk_bind stOk_eofP (fun e1 => stOk_ite (stOk_pure _) ?_)
  refine stOk_bind stOk_skipWhitespaceOnly (fun _ => ?_)
  refine stOk_bind stOk_eofP (fun e2 => stOk_ite (stOk_pure _) ?_)
  exact stOk_bind stOk_getPos (fun start => stOk_parseProgramAlts _ _)

theorem stOk_parseProgramLoop (fuel : Nat) :
    ∀ acc, StOk text (parseProgramLoop text fuel acc) := by
  induction fuel with
  | zero => intro acc; exact stOk_pfail
  | succ f ih =>
    intro acc
    show StOk text (do
      let r ← parseProgramIter text acc
      match r with
      | .done a => pure a
      | .next a => parseProgramLoop text f a)
    refine stOk_bind (stOk_parseProgramIter _) (fun r => ?_)
    cases r
    · exact stOk_pure _
    · exact ih _

end StOkLemmas

/- ## Run-shape helpers, totality and strict progress of the top loop -/

section Totality

variable {α β : Type} {text : Str}

theorem bind_run (m : PM α) (k : α → PM β) (st : St) :
    (m >>= k) st = match m st with
      | (some a, st1) => k a st1
      | (none, st1) => (none, st1) := rfl

theorem bind_some {m : PM α} {k : α → PM β} {st st1 : St} {a : α}
    (h : m st = (some a, st1)) : (m >>= k) st = k a st1 := by
  rw [bind_run, h]

theorem tryParse_run (m : PM α) (st : St) :
    tryParseP m st = match m st with
      | (some a, st1) => (some (some a), st1)
      | (none, st1) => (some none, { st1 with pos := st.pos }) := rfl

theorem ite_run {c : Prop} [Decidable c] (f g : PM α) (st : St) :
    (if c then f else g) st = if c then f st else g st :=
  apply_ite (fun (m : PM α) => m st) c f g

theorem total_pure (a : α) : Total (pure a : PM α) := fun _ => rfl

theorem total_bind {m : PM α} {k : α → PM β} (hm : Total m)
    (hk : ∀ a, Total (k a)) : Total (m >>= k) := by
  intro st
  rw [bind_run]
  generalize hq : m st = q
  obtain ⟨r, st1⟩ := q
  rcases r with _ | a
  · have := hm st
    rw [hq] at this
    simp at this
  · exact hk a st1

theorem total_tryParse (m : PM α) : Total (tryParseP m) := by
  intro st
  rw [tryParse_run]
  generalize m st = q
  obtain ⟨r, st1⟩ := q
  rcases r with _ | a <;> rfl

theorem total_ite {c : Prop} [Decidable c] {m₁ m₂ : PM α} (h₁ : Total m₁)
    (h₂ : Total m₂) : Total (if c then m₁ else m₂) := by
  split
  · exact h₁
  · exact h₂

theorem total_getPos : Total getPos := fun _ => rfl

theorem total_getSt : Total getSt := fun _ => rfl

theorem total_setPos (p : Nat) : Total (setPos p) := fun _ => rfl

theorem total_bumpPos (n : Nat) : Total (bumpPos n) := fun _ => rfl

theorem total_reportP (msg : Str) (a b : Nat) (sev : Str) :
    Total (reportP msg a b sev) := fun _ => rfl

theorem total_consumeWhile (p : Char → Bool) : Total (consumeWhileP text p) :=
  fun _ => rfl

theorem total_testPrefix (s : Str) : Total (testPrefixP text s) := fun _ => rfl

theorem total_matchP (s : Str) : Total (matchP text s) := by
  intro st
  unfold matchP
  split <;> rfl

theorem total_curP : Total (curP text) := fun _ => rfl

theorem total_eofP : Total (eofP text) := fun _ => rfl

theorem total_skipToEol : Total (skipToEolP text) :=
  total_bind (total_consumeWhile _) (fun _ => total_pure _)

theorem total_skipInlineSpaces : Total (skipInlineSpacesP text) :=
  total_bind (total_consumeWhile _) (fun _ => total_pure _)

theorem total_skipWhitespaceOnly : Total (skipWhitespaceOnlyP text) :=
  total_bind (total_consumeWhile _) (fun _ => total_pure _)

theorem total_parseProgramAlts (acc : Program) (start : Nat) :
    Total (parseProgramAlts text acc start) := by
  unfold parseProgramAlts
  refine total_bind (total_tryParse _) (fun comment => ?_)
  rcases hc : comment.join with _ | c
  · refine total_bind (total_tryParse _) (fun cfg => ?_)
    cases cfg
    · refine total_bind (total_tryParse _) (fun schema => ?_)
      cases schema
      · refine total_bind (total_tryParse _) (fun query => ?_)
        cases query
        · refine total_bind (total_tryParse _) (fun mu => ?_)
          cases mu
          · refine total_bind (total_tryParse _) (fun res => ?_)
            cases res
            · refine total_bind (total_tryParse _) (fun flags => ?_)
              cases flags
              · refine total_bind (total_tryParse _) (fun np => ?_)
                cases np
                · refine total_bind (total_tryParse _) (fun v => ?_)
                  cases v
                  · refine total_bind (total_tryParse _) (fun route => ?_)
                    cases route
                    · refine total_bind (total_tryParse _) (fun d => ?_)
                      cases d
                      · refine total_bind total_getPos (fun p => ?_)
                        refine total_ite ?_ (total_pure _)
                        refine total_bind (total_reportP _ _ _ _) (fun _ => ?_)
                        refine total_bind total_skipToEol (fun _ => ?_)
                        refine total_bind total_curP (fun ch => ?_)
                        refine total_bind (total_ite (total_bumpPos 1) (total_pure _))
                          (fun _ => ?_)
                        exact total_bind (total_consumeWhile _) (fun _ => total_pure _)
                      · exact total_pure _
                    · exact total_pure _
                  · exact total_pure _
                · exact total_pure _
              · exact total_pure _
            · exact total_pure _
          · exact total_pure _
        · exact total_pure _
      · exact total_pure _
    · exact total_pure _
  · refine total_bind total_curP (fun ch => ?_)
    refine total_bind (total_ite (total_bumpPos 1) (total_pure _)) (fun _ => ?_)
    exact total_pure _

theorem total_parseProgramIter (acc : Program) :
    Total (parseProgramIter text acc) := by
  unfold parseProgramIter
  refine total_bind total_eofP (fun e1 => total_ite (total_pure _) ?_)
  refine total_bind total_skipWhitespaceOnly (fun _ => ?_)
  refine total_bind total_eofP (fun e2 => total_ite (total_pure _) ?_)
  exact total_bind total_getPos (fun start => total_parseProgramAlts _ _)

theorem pure_run (a : α) (st : St) : (pure a : PM α) st = (some a, st) := rfl

theorem pfail_run (st : St) : (pfail : PM α) st = (none, st) := rfl

theorem getPos_run (st : St) : getPos st = (some st.pos, st) := rfl

theorem getSt_run (st : St) : getSt st = (some st, st) := rfl

theorem setPos_run (p : Nat) (st : St) :
    setPos p st = (some (), { st with pos := p }) := rfl

theorem bumpPos_run (n : Nat) (st : St) :
    bumpPos n st = (some (), { st with pos := st.pos + n }) := rfl

theorem curP_run (st : St) : curP text st = (some (curAt text st.pos), st) := rfl

theorem eofP_run (st : St) : eofP text st = (some (eofAt text st.pos), st) := rfl

theorem testPrefix_run (s : Str) (st : St) :
    testPrefixP text s st = (some (startsWithAt text s st.pos), st) := rfl

theorem consumeWhile_run (p : Char → Bool) (st : St) :
    consumeWhileP text p st =
      (some ((text.drop st.pos).takeWhile p),
       { st with pos := st.pos + ((text.drop st.pos).takeWhile p).length }) := rfl

theorem matchP_run (s : Str) (st : St) :
    matchP text s st =
      if startsWithAt text s st.pos then
        (some true, { st with pos := st.pos + s.length })
      else (some false, st) := rfl

theorem reportP_run (msg : Str) (a b : Nat) (sev : Str) (st : St) :
    reportP msg a b sev st =
      (some (), { st with diagnostics := st.diagnostics ++
        [{ message := msg, start := a, stop := b, severity := sev }] }) := rfl

theorem matchOpt_run {o : Option α} {f : α → PM β} {g : PM β} (st : St) :
    (match o with | some a => f a | none => g) st
      = (match o with | some a => f a st | none => g st) := by
  cases o <;> rfl

theorem strict_pfail : StrictSome (pfail : PM α) := by
  intro st a st' h
  simp [pfail] at h

theorem strict_bind_left {m : PM α} {k : α → PM β} (t : Str)
    (hm : StrictSome m) (hk : ∀ a, StOk t (k a)) : StrictSome (m >>= k) := by
  intro st a st' h
  rw [bind_run] at h
  generalize hq : m st = q at h
  obtain ⟨r, st1⟩ := q
  rcases r with _ | b
  · simp at h
  · obtain ⟨hle, _⟩ := hk b st1 (some a) st' h
    exact lt_of_lt_of_le (hm st b st1 hq) hle

theorem strict_bind_right {m : PM α} {k : α → PM β} (t : Str)
    (hm : StOk t m) (hk : ∀ a, StrictSome (k a)) : StrictSome (m >>= k) := by
  intro st a st' h
  rw [bind_run] at h
  generalize hq : m st = q at h
  obtain ⟨r, st1⟩ := q
  rcases r with _ | b
  · simp at h
  · obtain ⟨hle, _⟩ := hm st (some b) st1 hq
    exact lt_of_le_of_lt hle (hk b st1 a st' h)

theorem strict_match_if {s : Str} {v : α} {rest : PM α} (hs : 0 < s.length)
    (hrest : StrictSome rest) :
    StrictSome (matchP text s >>= fun ok => if ok then pure v else rest) := by
  intro st a st' h
  rw [bind_run, matchP_run] at h
  by_cases hc : startsWithAt text s st.pos
  · rw [if_pos hc] at h
    injection h with h1 h2
    rw [← h2]
    exact Nat.lt_add_of_pos_right hs
  · rw [if_neg hc] at h
    exact hrest st a st' h

theorem strict_expectP {s : Str} (hs : 0 < s.length) :
    StrictSome (expectP text s) := by
  unfold expectP
  exact strict_match_if hs strict_pfail

theorem strict_parseIdentifier : StrictSome (parseIdentifier text) := by
  intro st a st' h
  unfold parseIdentifier at h
  simp only [bind_run, curP_run, getPos_run, bumpPos_run, consumeWhile_run,
    pure_run, ite_run, pfail_run] at h
  split at h
  · cases h
    exact Nat.lt_of_lt_of_le (Nat.lt_succ_self _) (Nat.le_add_right _ _)
  · simp at h

theorem strict_parseMethod : StrictSome (parseMethod text) := by
  unfold parseMethod
  exact strict_match_if (by decide)
    (strict_match_if (by decide)
      (strict_match_if (by decide)
        (strict_match_if (by decide) strict_pfail)))

theorem psc_some_strict {st : St} {c : Comment} {st' : St}
    (h : parseStandaloneComment text st = (some (some c), st')) :
    st.pos < st'.pos := by
  unfold parseStandaloneComment at h
  simp only [bind_run, getPos_run, testPrefix_run, bumpPos_run,
    consumeWhile_run, pure_run, ite_run] at h
  split at h
  · cases h
    exact Nat.lt_of_lt_of_le (Nat.lt_succ_self _) (Nat.le_add_right _ _)
  · split at h
    · cases h
      exact Nat.lt_of_lt_of_le (Nat.lt_add_of_pos_right (by decide))
        (Nat.le_add_right _ _)
    · simp at h

theorem psc_none_eq {st st' : St}
    (h : parseStandaloneComment text st = (some none, st')) : st' = st := by
  unfold parseStandaloneComment at h
  simp only [bind_run, getPos_run, testPrefix_run, bumpPos_run,
    consumeWhile_run, pure_run, ite_run] at h
  split at h
  · simp at h
  · split at h
    · simp at h
    · cases h
      rfl

theorem tryParse_some_inv {m : PM α} {st st' : St} {v : Option α}
    (h : tryParseP m st = (some v, st')) :
    (∃ a, v = some a ∧ m st = (some a, st')) ∨
    (v = none ∧ ∃ st1, m st = (none, st1) ∧ st' = { st1 with pos := st.pos }) := by
  rw [tryParse_run] at h
  generalize hq : m st = q at h
  obtain ⟨r, st1⟩ := q
  rcases r with _ | a
  · right
    injection h with h1 h2
    injection h1 with h1
    exact ⟨h1.symm, st1, rfl, h2.symm⟩
  · left
    injection h with h1 h2
    injection h1 with h1
    refine ⟨a, h1.symm, ?_⟩
    rw [h2]

theorem takeWhile_stop {p : Char → Bool} : ∀ (l : Str),
    (l.takeWhile p).length < l.length →
    ∃ c, l.get? (l.takeWhile p).length = some c ∧ p c = false := by
  intro l
  induction l with
  | nil => intro h; simp at h
  | cons hd tl ih =>
    intro h
    by_cases hp : p hd
    · rw [List.takeWhile_cons, if_pos hp] at h ⊢
      simp only [List.length_cons, Nat.add_lt_add_iff_right] at h
      obtain ⟨c, hc, hpc⟩ := ih (by simpa using h)
      exact ⟨c, by simpa using hc, hpc⟩
    · rw [List.takeWhile_cons, if_neg hp]
      exact ⟨hd, rfl, by simpa using hp⟩

theorem get_drop_eq (l : Str) (n m : Nat) : (l.drop n).get? m = l.get? (n + m) := by
  simp [List.get?_eq_getElem?, List.getElem?_drop]

theorem curAt_stop {p : Char → Bool} {pos : Nat}
    (h : pos + ((text.drop pos).takeWhile p).length < text.length) :
    p (curAt text (pos + ((text.drop pos).takeWhile p).length)) = false := by
  have hlen : ((text.drop pos).takeWhile p).length < (text.drop pos).length := by
    rw [List.length_drop]
    omega
  obtain ⟨c, hc, hpc⟩ := takeWhile_stop _ hlen
  rw [get_drop_eq] at hc
  unfold curAt
  rw [hc]
  simpa using hpc

theorem skipToEol_progress (pos : Nat) (hlt : pos < text.length) :
    curAt text (pos + ((text.drop pos).takeWhile (fun c => c ≠ '\n')).length) = '\n'
    ∨ 1 ≤ ((text.drop pos).takeWhile (fun c => c ≠ '\n')).length := by
  by_cases hin :
      pos + ((text.drop pos).takeWhile (fun c => c ≠ '\n')).length < text.length
  · left
    have := curAt_stop hin
    simpa using this
  · right
    omega

theorem strict_parseConfig : StrictSome (parseConfig text) := by
  unfold parseConfig
  refine strict_bind_right text stOk_getPos (fun start => ?_)
  refine strict_bind_left text (strict_expectP (by decide)) (fun _ => ?_)
  refine stOk_bind stOk_skipInlineSpaces (fun _ => ?_)
  refine stOk_bind stOk_parseIdentifier (fun name => ?_)
  refine stOk_bind stOk_skipInlineSpaces (fun _ => ?_)
  refine stOk_bind (stOk_expectP _) (fun _ => ?_)
  refine stOk_bind stOk_parseInlineComment (fun ic => ?_)
  refine stOk_bind stOk_skipSpaces (fun _ => ?_)
  refine stOk_bind (stOk_parseConfigLoop _ _) (fun props => ?_)
  refine stOk_bind stOk_skipSpaces (fun _ => ?_)
  refine stOk_bind (stOk_expectP _) (fun _ => ?_)
  refine stOk_bind stOk_skipWhitespaceOnly (fun _ => ?_)
  exact stOk_bind stOk_getPos (fun stop => stOk_pure _)

theorem strict_parseGraphQLSchema : StrictSome (parseGraphQLSchema text) := by
  unfold parseGraphQLSchema
  refine strict_bind_right text stOk_getPos (fun start => ?_)
  refine strict_bind_left text (strict_expectP (by decide)) (fun _ => ?_)
  refine stOk_bind stOk_skipInlineSpaces (fun _ => ?_)
  refine stOk_bind (stOk_expectP _) (fun _ => ?_)
  refine stOk_bind stOk_parseInlineComment (fun ic => ?_)
  refine stOk_bind stOk_skipInlineSpaces (fun _ => ?_)
  refine stOk_bind stOk_parseBacktickString (fun sdl => ?_)
  refine stOk_bind stOk_getPos (fun stop => ?_)
  exact stOk_bind stOk_skipWhitespaceOnly (fun _ => stOk_pure _)

theorem strict_parseQueryResolver : StrictSome (parseQueryResolver text) := by
  unfold parseQueryResolver
  refine strict_bind_right text stOk_getPos (fun start => ?_)
  refine strict_bind_left text (strict_expectP (by decide)) (fun _ => ?_)
  refine stOk_bind stOk_skipInlineSpaces (fun _ => ?_)
  refine stOk_bind stOk_parseIdentifier (fun name => ?_)
  refine stOk_bind stOk_skipInlineSpaces (fun _ => ?_)
  refine stOk_bind (stOk_expectP _) (fun _ => ?_)
  refine stOk_bind stOk_parseInlineComment (fun ic => ?_)
  refine stOk_bind stOk_skipWhitespaceOnly (fun _ => ?_)
  refine stOk_bind (stOk_parsePipeline _) (fun pipeline => ?_)
  refine stOk_bind stOk_getPos (fun stop => ?_)
  exact stOk_bind stOk_skipWhitespaceOnly (fun _ => stOk_pure _)

theorem strict_parseMutationResolver : StrictSome (parseMutationResolver text) := by
  unfold parseMutationResolver
  refine strict_bind_right text stOk_getPos (fun start => ?_)
  refine strict_bind_left text (strict_expectP (by decide)) (fun _ => ?_)
  refine stOk_bind stOk_skipInlineSpaces (fun _ => ?_)
  refine stOk_bind stOk_parseIdentifier (fun name => ?_)
  refine stOk_bind stOk_skipInlineSpaces (fun _ => ?_)
  refine stOk_bind (stOk_expectP _) (fun _ => ?_)
  refine stOk_bind stOk_parseInlineComment (fun ic => ?_)
  refine stOk_bind stOk_skipWhitespaceOnly (fun _ => ?_)
  refine stOk_bind (stOk_parsePipeline _) (fun pipeline => ?_)
  refine stOk_bind stOk_getPos (fun stop => ?_)
  exact stOk_bind stOk_skipWhitespaceOnly (fun _ => stOk_pure _)

theorem strict_parseTypeResolver : StrictSome (parseTypeResolver text) := by
  unfold parseTypeResolver
  refine strict_bind_right text stOk_getPos (fun start => ?_)
  refine strict_bind_left text (strict_expectP (by decide)) (fun _ => ?_)
  refine stOk_bind stOk_skipInlineSpaces (fun _ => ?_)
  refine stOk_bind stOk_parseIdentifier (fun typeName => ?_)
  refine stOk_bind (stOk_expectP _) (fun _ => ?_)
  refine stOk_bind stOk_parseIdentifier (fun fieldName => ?_)
  refine stOk_bind stOk_skipInlineSpaces (fun _ => ?_)
  refine stOk_bind (stOk_expectP _) (fun _ => ?_)
  refine stOk_bind stOk_parseInlineComment (fun ic => ?_)
  refine stOk_bind stOk_skipWhitespaceOnly (fun _ => ?_)
  refine stOk_bind (stOk_parsePipeline _) (fun pipeline => ?_)
  refine stOk_bind stOk_getPos (fun stop => ?_)
  exact stOk_bind stOk_skipWhitespaceOnly (fun _ => stOk_pure _)

theorem strict_parseFeatureFlags : StrictSome (parseFeatureFlags text) := by
  unfold parseFeatureFlags
  refine strict_bind_left text (strict_expectP (by decide)) (fun _ => ?_)
  refine stOk_bind stOk_skipInlineSpaces (fun _ => ?_)
  refine stOk_bind (stOk_expectP _) (fun _ => ?_)
  refine stOk_bind stOk_skipWhitespaceOnly (fun _ => ?_)
  refine stOk_bind (stOk_parsePipeline _) (fun pipeline => ?_)
  exact stOk_bind stOk_skipWhitespaceOnly (fun _ => stOk_pure _)

theorem strict_parseNamedPipeline : StrictSome (parseNamedPipeline text) := by
  unfold parseNamedPipeline
  refine strict_bind_right text stOk_getPos (fun start => ?_)
  refine strict_bind_left text (strict_expectP (by decide)) (fun _ => ?_)
  refine stOk_bind stOk_skipInlineSpaces (fun _ => ?_)
  refine stOk_bind stOk_parseIdentifier (fun name => ?_)
  refine stOk_bind stOk_skipInlineSpaces (fun _ => ?_)
  refine stOk_bind (stOk_expectP _) (fun _ => ?_)
  refine stOk_bind stOk_parseInlineComment (fun ic => ?_)
  refine stOk_bind stOk_skipInlineSpaces (fun _ => ?_)
  refine stOk_bind (stOk_parsePipeline _) (fun pipeline => ?_)
  refine stOk_bind stOk_getPos (fun stop => ?_)
  refine stOk_bind (stOk_setPipelineRange _ _) (fun _ => ?_)
  exact stOk_bind stOk_skipWhitespaceOnly (fun _ => stOk_pure _)

theorem strict_parseVariable : StrictSome (parseVariable text) := by
  unfold parseVariable
  refine strict_bind_right text stOk_getPos (fun start => ?_)
  refine strict_bind_left text strict_parseIdentifier (fun varType => ?_)
  refine stOk_bind stOk_skipInlineSpaces (fun _ => ?_)
  refine stOk_bind stOk_parseIdentifier (fun name => ?_)
  refine stOk_bind stOk_skipInlineSpaces (fun _ => ?_)
  refine stOk_bind (stOk_expectP _) (fun _ => ?_)
  refine stOk_bind stOk_skipInlineSpaces (fun _ => ?_)
  refine stOk_bind stOk_parseBacktickString (fun value => ?_)
  refine stOk_bind stOk_parseInlineComment (fun ic => ?_)
  refine stOk_bind stOk_getPos (fun stop => ?_)
  refine stOk_bind (stOk_setVariableRange _ _) (fun _ => ?_)
  exact stOk_bind stOk_skipWhitespaceOnly (fun _ => stOk_pure _)

theorem strict_parseRoute : StrictSome (parseRoute text) := by
  unfold parseRoute
  refine strict_bind_right text stOk_getPos (fun start => ?_)
  refine strict_bind_left text strict_parseMethod (fun method => ?_)
  refine stOk_bind stOk_skipInlineSpaces (fun _ => ?_)
  refine stOk_bind (stOk_consumeWhile _) (fun path => ?_)
  refine stOk_bind stOk_parseInlineComment (fun ic => ?_)
  refine stOk_bind stOk_skipSpaces (fun _ => ?_)
  refine stOk_bind stOk_parsePipelineRef (fun pipeline => ?_)
  refine stOk_bind stOk_getPos (fun stop => ?_)
  exact stOk_bind stOk_skipWhitespaceOnly (fun _ => stOk_pure _)

theorem strict_parseDescribe : StrictSome (parseDescribe text) := by
  unfold parseDescribe
  refine strict_bind_right text stOk_getPos (fun start => ?_)
  refine strict_bind_right text stOk_skipSpaces (fun _ => ?_)
  refine strict_bind_left text (strict_expectP (by decide)) (fun _ => ?_)
  refine stOk_bind stOk_skipInlineSpaces (fun _ => ?_)
  refine stOk_bind (stOk_expectP _) (fun _ => ?_)
  refine stOk_bind (stOk_consumeWhile _) (fun name => ?_)
  refine stOk_bind (stOk_expectP _) (fun _ => ?_)
  refine stOk_bind stOk_parseInlineComment (fun ic => ?_)
  refine stOk_bind stOk_skipSpaces (fun _ => ?_)
  refine stOk_bind (stOk_setCurrentDescribeName _) (fun _ => ?_)
  refine stOk_bind (stOk_parseDescribeLoop _ _) (fun acc => ?_)
  refine stOk_bind (stOk_setCurrentDescribeName _) (fun _ => ?_)
  exact stOk_bind stOk_getPos (fun stop => stOk_pure _)

/-- Each `.next` outcome of the alternative chain leaves the cursor
strictly to the right of where the round started: either an alternative
succeeded (and every alternative consumes at least one character when it
succeeds) or error recovery skipped at least one character of the current
line. -/
theorem parseProgramAlts_progress {acc : Program} {start : Nat} {st : St}
    {a : Program} {st' : St} (hlt : st.pos < text.length)
    (hstart : start = st.pos)
    (h : parseProgramAlts text acc start st = (some (LoopOut.next a), st')) :
    st.pos < st'.pos := by
  unfold parseProgramAlts at h
  rw [bind_run] at h
  generalize hq1 : tryParseP (parseStandaloneComment text) st = q1 at h
  obtain ⟨r1, s1⟩ := q1
  rcases r1 with _ | comment
  · simp at h
  · try simp only [] at h
    generalize hj : comment.join = j at h
    rcases j with _ | c
    · have hp1 : s1.pos = st.pos := by
        rcases tryParse_some_inv hq1 with ⟨cmv, hveq, hrun⟩ | ⟨hveq, sF, hrun, hrest⟩
        · subst hveq
          simp [Option.join] at hj
          subst hj
          rw [psc_none_eq hrun]
        · rw [hrest]
      try simp only [] at h
      rw [bind_run] at h
      generalize hq2 : tryParseP (parseConfig text) s1 = q2 at h
      obtain ⟨r2, s2⟩ := q2
      rcases r2 with _ | cfg
      · simp at h
      · try simp only [] at h
        rcases cfg with _ | c2
        · have hp2 : s2.pos = st.pos := by
            rcases tryParse_some_inv hq2 with ⟨x, hx, _⟩ | ⟨_, sF, _, hrest⟩
            · simp at hx
            · rw [hrest]; exact hp1
          try simp only [] at h
          rw [bind_run] at h
          generalize hq3 : tryParseP (parseGraphQLSchema text) s2 = q3 at h
          obtain ⟨r3, s3⟩ := q3
          rcases r3 with _ | schema
          · simp at h
          · try simp only [] at h
            rcases schema with _ | c3
            · have hp3 : s3.pos = st.pos := by
                rcases tryParse_some_inv hq3 with ⟨x, hx, _⟩ | ⟨_, sF, _, hrest⟩
                · simp at hx
                · rw [hrest]; exact hp2
              try simp only [] at h
              rw [bind_run] at h
              generalize hq4 : tryParseP (parseQueryResolver text) s3 = q4 at h
              obtain ⟨r4, s4⟩ := q4
              rcases r4 with _ | query
              · simp at h
              · try simp only [] at h
                rcases query with _ | c4
                · have hp4 : s4.pos = st.pos := by
                    rcases tryParse_some_inv hq4 with ⟨x, hx, _⟩ | ⟨_, sF, _, hrest⟩
                    · simp at hx
                    · rw [hrest]; exact hp3
                  try simp only [] at h
                  rw [bind_run] at h
                  generalize hq5 : tryParseP (parseMutationResolver text) s4 = q5 at h
                  obtain ⟨r5, s5⟩ := q5
                  rcases r5 with _ | mu
                  · simp at h
                  · try simp only [] at h
                    rcases mu with _ | c5
                    · have hp5 : s5.pos = st.pos := by
                        rcases tryParse_some_inv hq5 with ⟨x, hx, _⟩ | ⟨_, sF, _, hrest⟩
                        · simp at hx
                        · rw [hrest]; exact hp4
                      try simp only [] at h
                      rw [bind_run] at h
                      generalize hq6 : tryParseP (parseTypeResolver text) s5 = q6 at h
                      obtain ⟨r6, s6⟩ := q6
                      rcases r6 with _ | res
                      · simp at h
                      · try simp only [] at h
                        rcases res with _ | c6
                        · have hp6 : s6.pos = st.pos := by
                            rcases tryParse_some_inv hq6 with ⟨x, hx, _⟩ | ⟨_, sF, _, hrest⟩
                            · simp at hx
                            · rw [hrest]; exact hp5
                          try simp only [] at h
                          rw [bind_run] at h
                          generalize hq7 : tryParseP (parseFeatureFlags text) s6 = q7 at h
                          obtain ⟨r7, s7⟩ := q7
                          rcases r7 with _ | flags
                          · simp at h
                          · try simp only [] at h
                            rcases flags with _ | c7
                            · have hp7 : s7.pos = st.pos := by
                                rcases tryParse_some_inv hq7 with ⟨x, hx, _⟩ | ⟨_, sF, _, hrest⟩
                                · simp at hx
                                · rw [hrest]; exact hp6
                              try simp only [] at h
                              rw [bind_run] at h
                              generalize hq8 : tryParseP (parseNamedPipeline text) s7 = q8 at h
                              obtain ⟨r8, s8⟩ := q8
                              rcases r8 with _ | np
                              · simp at h
                              · try simp only [] at h
                                rcases np with _ | c8
                                · have hp8 : s8.pos = st.pos := by
                                    rcases tryParse_some_inv hq8 with ⟨x, hx, _⟩ | ⟨_, sF, _, hrest⟩
                                    · simp at hx
                                    · rw [hrest]; exact hp7
                                  try simp only [] at h
                                  rw [bind_run] at h
                                  generalize hq9 : tryParseP (parseVariable text) s8 = q9 at h
                                  obtain ⟨r9, s9⟩ := q9
                                  rcases r9 with _ | v9
                                  · simp at h
                                  · try simp only [] at h
                                    rcases v9 with _ | c9
                                    · have hp9 : s9.pos = st.pos := by
                                        rcases tryParse_some_inv hq9 with ⟨x, hx, _⟩ | ⟨_, sF, _, hrest⟩
                                        · simp at hx
                                        · rw [hrest]; exact hp8
                                      try simp only [] at h
                                      rw [bind_run] at h
                                      generalize hq10 : tryParseP (parseRoute text) s9 = q10 at h
                                      obtain ⟨r10, s10⟩ := q10
                                      rcases r10 with _ | route
                                      · simp at h
                                      · try simp only [] at h
                                        rcases route with _ | c10
                                        · have hp10 : s10.pos = st.pos := by
                                            rcases tryParse_some_inv hq10 with ⟨x, hx, _⟩ | ⟨_, sF, _, hrest⟩
                                            · simp at hx
                                            · rw [hrest]; exact hp9
                                          try simp only [] at h
                                          rw [bind_run] at h
                                          generalize hq11 : tryParseP (parseDescribe text) s10 = q11 at h
                                          obtain ⟨r11, s11⟩ := q11
                                          rcases r11 with _ | d11
                                          · simp at h
                                          · try simp only [] at h
                                            rcases d11 with _ | c11
                                            · have hp11 : s11.pos = st.pos := by
                                                rcases tryParse_some_inv hq11 with ⟨x, hx, _⟩ | ⟨_, sF, _, hrest⟩
                                                · simp at hx
                                                · rw [hrest]; exact hp10
                                              try simp only [] at h
                                              rw [bind_run, getPos_run] at h
                                              try simp only [] at h
                                              rw [ite_run] at h
                                              split at h
                                              · by_cases hch : curAt text (s11.pos +
                                                    ((text.drop s11.pos).takeWhile (fun c => c ≠ '\n')).length) = '\n'
                                                · simp only [bind_run, reportP_run, skipToEolP, consumeWhile_run,
                                                    curP_run, ite_run, bumpPos_run, pure_run, hch,
                                                    eq_self_iff_true, if_true] at h
                                                  cases h
                                                  simp
                                                  omega
                                                · simp only [bind_run, reportP_run, skipToEolP, consumeWhile_run,
                                                    curP_run, ite_run, bumpPos_run, pure_run, hch,
                                                    if_false] at h
                                                  cases h
                                                  rcases @skipToEol_progress text s11.pos (by omega) with hnl | hone
                                                  · exact absurd hnl hch
                                                  · simp at hone ⊢
                                                    omega
                                              · rename_i hne
                                                exact absurd (hp11.trans hstart.symm) hne
                                            · rcases tryParse_some_inv hq11 with ⟨x, hx, hrun⟩ | ⟨hx, _, _, _⟩
                                              · injection hx with hx
                                                subst hx
                                                cases h
                                                rw [← hp10]
                                                exact strict_parseDescribe _ _ _ hrun
                                              · simp at hx
                                        · rcases tryParse_some_inv hq10 with ⟨x, hx, hrun⟩ | ⟨hx, _, _, _⟩
                                          · injection hx with hx
                                            subst hx
                                            cases h
                                            rw [← hp9]
                                            exact strict_parseRoute _ _ _ hrun
                                          · simp at hx
                                    · rcases tryParse_some_inv hq9 with ⟨x, hx, hrun⟩ | ⟨hx, _, _, _⟩
                                      · injection hx with hx
                                        subst hx
                                        cases h
                                        rw [← hp8]
                                        exact strict_parseVariable _ _ _ hrun
                                      · simp at hx
                                · rcases tryParse_some_inv hq8 with ⟨x, hx, hrun⟩ | ⟨hx, _, _, _⟩
                                  · injection hx with hx
                                    subst hx
                                    cases h
                                    rw [← hp7]
                                    exact strict_parseNamedPipeline _ _ _ hrun
                                  · simp at hx
                            · rcases tryParse_some_inv hq7 with ⟨x, hx, hrun⟩ | ⟨hx, _, _, _⟩
                              · injection hx with hx
                                subst hx
                                cases h
                                rw [← hp6]
                                exact strict_parseFeatureFlags _ _ _ hrun
                              · simp at hx
                        · rcases tryParse_some_inv hq6 with ⟨x, hx, hrun⟩ | ⟨hx, _, _, _⟩
                          · injection hx with hx
                            subst hx
                            cases h
                            rw [← hp5]
                            exact strict_parseTypeResolver _ _ _ hrun
                          · simp at hx
                    · rcases tryParse_some_inv hq5 with ⟨x, hx, hrun⟩ | ⟨hx, _, _, _⟩
                      · injection hx with hx
                        subst hx
                        cases h
                        rw [← hp4]
                        exact strict_parseMutationResolver _ _ _ hrun
                      · simp at hx
                · rcases tryParse_some_inv hq4 with ⟨x, hx, hrun⟩ | ⟨hx, _, _, _⟩
                  · injection hx with hx
                    subst hx
                    cases h
                    rw [← hp3]
                    exact strict_parseQueryResolver _ _ _ hrun
                  · simp at hx
            · rcases tryParse_some_inv hq3 with ⟨x, hx, hrun⟩ | ⟨hx, _, _, _⟩
              · injection hx with hx
                subst hx
                cases h
                rw [← hp2]
                exact strict_parseGraphQLSchema _ _ _ hrun
              · simp at hx
        · rcases tryParse_some_inv hq2 with ⟨x, hx, hrun⟩ | ⟨hx, _, _, _⟩
          · injection hx with hx
            subst hx
            cases h
            rw [← hp1]
            exact strict_parseConfig _ _ _ hrun
          · simp at hx
    · rcases tryParse_some_inv hq1 with ⟨cmv, hveq, hrun⟩ | ⟨hveq, _, _, _⟩
      · subst hveq
        simp [Option.join] at hj
        subst hj
        have hstrict := psc_some_strict hrun
        by_cases hch : curAt text s1.pos = '\n'
        · simp only [bind_run, curP_run, ite_run, bumpPos_run, pure_run, hch,
            eq_self_iff_true, if_true] at h
          cases h
          simp
          omega
        · simp only [bind_run, curP_run, ite_run, bumpPos_run, pure_run, hch,
            if_false] at h
          cases h
          exact hstrict
      · subst hveq
        simp at hj

/-- A `.next` outcome of one round of the top-level loop strictly advances
the cursor, and can only happen while input remains. -/
theorem parseProgramIter_progress {acc : Program} {st : St} {a : Program}
    {st' : St}
    (h : parseProgramIter text acc st = (some (LoopOut.next a), st')) :
    st.pos < st'.pos ∧ st.pos < text.length := by
  unfold parseProgramIter at h
  rw [bind_run, eofP_run] at h
  try simp only [] at h
  rw [ite_run] at h
  split at h
  · simp [pure_run] at h
  · rename_i he1
    have hlt0 : st.pos < text.length := by
      unfold eofAt at he1
      simpa using he1
    simp only [bind_run, skipWhitespaceOnlyP, consumeWhile_run, pure_run,
      eofP_run, ite_run, getPos_run] at h
    split at h
    · simp at h
    · rename_i he2
      have hlt1 : st.pos +
          ((text.drop st.pos).takeWhile
            (fun ch => ch = ' ' || ch = '\t' || ch = '\r' || ch = '\n')).length
          < text.length := by
        unfold eofAt at he2
        simpa using he2
      have := parseProgramAlts_progress hlt1 rfl h
      constructor
      · exact lt_of_le_of_lt (Nat.le_add_right _ _) this
      · exact hlt0

/-- With fuel exceeding the remaining input length, the top-level loop
always returns a program: the `.done` guard fires at end of input and every
`.next` round strictly advances the cursor. -/
theorem parseProgramLoop_total (fuel : Nat) :
    ∀ (acc : Program) (st : St), text.length - st.pos < fuel →
      ((parseProgramLoop text fuel acc) st).1.isSome = true := by
  induction fuel with
  | zero => intro acc st h; omega
  | succ f ih =>
    intro acc st hf
    show ((parseProgramIter text acc >>= fun r => match r with
          | LoopOut.done a => pure a
          | LoopOut.next a => parseProgramLoop text f a) st).1.isSome = true
    rw [bind_run]
    generalize hq : parseProgramIter text acc st = q
    obtain ⟨r, st1⟩ := q
    rcases r with _ | lo
    · have := @total_parseProgramIter text acc st
      rw [hq] at this
      simp at this
    · rcases lo with b | b
      · rfl
      · obtain ⟨hlt1, hlt2⟩ := parseProgramIter_progress hq
        exact ih b st1 (by omega)

end Totality

/- ## Symbolic runners for the tag-expression grammar

These lemmas run one layer of the grammar from an arbitrary state, with the
input-dependent scanner outcomes supplied as hypotheses; the step-condition
equivalence claim is proved by chaining them over both spellings of a
two-tag guard. -/

section TagRunners

theorem skipInline_one (tx : Str) (st : St) (c : Char) (t : Str)
    (hdrop : tx.drop st.pos = ' ' :: c :: t)
    (hc : (c = ' ' || c = '\t' || c = '\r') = false) :
    skipInlineSpacesP tx st = (some (), { st with pos := st.pos + 1 }) := by
  have htw : (' ' :: c :: t).takeWhile
      (fun ch => ch = ' ' || ch = '\t' || ch = '\r') = [' '] := by
    rw [List.takeWhile_cons, if_pos (by decide), List.takeWhile_cons,
      if_neg (by simp [hc])]
  unfold skipInlineSpacesP
  rw [bind_run, consumeWhile_run, hdrop, htw]
  rfl

theorem skipInline_at (tx : Str) (st : St) (t : Str)
    (hdrop : tx.drop st.pos = '@' :: t) :
    skipInlineSpacesP tx st = (some (), st) := by
  have htw : ('@' :: t).takeWhile
      (fun ch => ch = ' ' || ch = '\t' || ch = '\r') = [] := by
    rw [List.takeWhile_cons, if_neg (by decide)]
  unfold skipInlineSpacesP
  rw [bind_run, consumeWhile_run, hdrop, htw]
  rfl

theorem skipInline_nil (tx : Str) (st : St)
    (hdrop : tx.drop st.pos = []) :
    skipInlineSpacesP tx st = (some (), st) := by
  unfold skipInlineSpacesP
  rw [bind_run, consumeWhile_run, hdrop]
  rfl

theorem tagPrimary_tag (tx : Str) (n : Nat) (st st' : St) (g : Tag)
    (hcur : ¬ (curAt tx st.pos = '('))
    (htag : parseTag tx st = (some g, st')) :
    (tagFnsAt tx (n + 1)).tagPrimary st = (some (TagExpr.Tag g), st') := by
  show (curP tx >>= fun c =>
    if c = '(' then
      (bumpPos 1 >>= fun _ => skipInlineSpacesP tx >>= fun _ =>
       (tagFnsAt tx n).tagExpr >>= fun expr => skipInlineSpacesP tx >>= fun _ =>
       expectP tx (strL ")") >>= fun _ => pure expr)
    else (parseTag tx >>= fun tag => pure (TagExpr.Tag tag))) st = _
  rw [bind_some (curP_run st), if_neg hcur, bind_some htag]
  rfl

theorem andLoop_stop (tx : Str) (n : Nat) (left : TagExpr) (st stSkip : St)
    (hskip : skipInlineSpacesP tx st = (some (), stSkip))
    (hcond : startsWithAt tx (strL "and") stSkip.pos = false) :
    (tagFnsAt tx (n + 1)).andLoop left st =
      (some left, { stSkip with pos := st.pos }) := by
  show (getPos >>= fun saved => skipInlineSpacesP tx >>= fun _ =>
    getPos >>= fun p =>
    if startsWithAt tx (strL "and") p && !(identContAt tx (p + 3)) then
      (bumpPos 3 >>= fun _ => skipInlineSpacesP tx >>= fun _ =>
       (tagFnsAt tx n).tagPrimary >>= fun right =>
       (tagFnsAt tx n).andLoop (TagExpr.And left right))
    else (setPos saved >>= fun _ => pure left)) st = _
  rw [bind_some (getPos_run st), bind_some hskip, bind_some (getPos_run stSkip),
    hcond]
  rw [if_neg (by simp)]
  rfl

theorem andLoop_take (tx : Str) (n : Nat) (left right : TagExpr)
    (st stSkip stTag stR : St) (out : Option TagExpr × St)
    (hskip : skipInlineSpacesP tx st = (some (), stSkip))
    (hcond : startsWithAt tx (strL "and") stSkip.pos = true)
    (hident : identContAt tx (stSkip.pos + 3) = false)
    (hskip2 : skipInlineSpacesP tx { stSkip with pos := stSkip.pos + 3 } =
      (some (), stTag))
    (hprim : (tagFnsAt tx n).tagPrimary stTag = (some right, stR))
    (hrest : (tagFnsAt tx n).andLoop (TagExpr.And left right) stR = out) :
    (tagFnsAt tx (n + 1)).andLoop left st = out := by
  show (getPos >>= fun saved => skipInlineSpacesP tx >>= fun _ =>
    getPos >>= fun p =>
    if startsWithAt tx (strL "and") p && !(identContAt tx (p + 3)) then
      (bumpPos 3 >>= fun _ => skipInlineSpacesP tx >>= fun _ =>
       (tagFnsAt tx n).tagPrimary >>= fun right2 =>
       (tagFnsAt tx n).andLoop (TagExpr.And left right2))
    else (setPos saved >>= fun _ => pure left)) st = _
  rw [bind_some (getPos_run st), bind_some hskip, bind_some (getPos_run stSkip),
    hcond, hident]
  rw [if_pos (by decide)]
  rw [bind_some (bumpPos_run 3 stSkip), bind_some hskip2, bind_some hprim]
  exact hrest

theorem orLoop_stop (tx : Str) (n : Nat) (left : TagExpr) (st stSkip : St)
    (hskip : skipInlineSpacesP tx st = (some (), stSkip))
    (hcond : startsWithAt tx (strL "or") stSkip.pos = false) :
    (tagFnsAt tx (n + 1)).orLoop left st =
      (some left, { stSkip with pos := st.pos }) := by
  show (getPos >>= fun saved => skipInlineSpacesP tx >>= fun _ =>
    getPos >>= fun p =>
    if startsWithAt tx (strL "or") p && !(identContAt tx (p + 2)) then
      (bumpPos 2 >>= fun _ => skipInlineSpacesP tx >>= fun _ =>
       (tagFnsAt tx n).andExpr >>= fun right =>
       (tagFnsAt tx n).orLoop (TagExpr.Or left right))
    else (setPos saved >>= fun _ => pure left)) st = _
  rw [bind_some (getPos_run st), bind_some hskip, bind_some (getPos_run stSkip),
    hcond]
  rw [if_neg (by simp)]
  rfl

theorem andExpr_run (tx : Str) (n : Nat) (st st1 : St) (l : TagExpr)
    (out : Option TagExpr × St)
    (hprim : (tagFnsAt tx n).tagPrimary st = (some l, st1))
    (hloop : (tagFnsAt tx n).andLoop l st1 = out) :
    (tagFnsAt tx (n + 1)).andExpr st = out := by
  show ((tagFnsAt tx n).tagPrimary >>= fun left =>
    (tagFnsAt tx n).andLoop left) st = out
  rw [bind_some hprim]
  exact hloop

theorem orExpr_run (tx : Str) (n : Nat) (st st1 : St) (l : TagExpr)
    (out : Option TagExpr × St)
    (hand : (tagFnsAt tx n).andExpr st = (some l, st1))
    (hloop : (tagFnsAt tx n).orLoop l st1 = out) :
    (tagFnsAt tx (n + 1)).orExpr st = out := by
  show ((tagFnsAt tx n).andExpr >>= fun left =>
    (tagFnsAt tx n).orLoop left) st = out
  rw [bind_some hand]
  exact hloop

theorem stepCond_take (tx : Str) (ih : TagExpr → PM TagExpr) (expr : TagExpr)
    (st stSkip st' : St) (g : Tag) (out : Option TagExpr × St)
    (hskip : skipInlineSpacesP tx st = (some (), stSkip))
    (hcur : curAt tx stSkip.pos = '@')
    (hslash : startsWithAt tx (strL "//") stSkip.pos = false)
    (htag : parseTag tx stSkip = (some g, st'))
    (hrest : ih (TagExpr.And expr (TagExpr.Tag g)) st' = out) :
    parseStepCondStep tx ih expr st = out := by
  unfold parseStepCondStep
  show (skipInlineSpacesP tx >>= fun _ => curP tx >>= fun ch2 =>
    if ch2 = '\n' || ch2 = '\r' || ch2 = '#' then pure expr
    else (testPrefixP tx (strL "//") >>= fun b =>
      if b then pure expr
      else if ch2 ≠ '@' then pure expr
      else (parseTag tx >>= fun nextTag =>
        ih (TagExpr.And expr (TagExpr.Tag nextTag))))) st = _
  rw [bind_some hskip, bind_some (curP_run stSkip), hcur]
  rw [if_neg (by decide)]
  rw [bind_some (testPrefix_run _ _), hslash]
  rw [if_neg (by decide)]
  rw [if_neg (by decide)]
  rw [bind_some htag]
  exact hrest

theorem stepCond_stop (tx : Str) (ih : TagExpr → PM TagExpr) (expr : TagExpr)
    (st stSkip : St)
    (hskip : skipInlineSpacesP tx st = (some (), stSkip))
    (hcur : curAt tx stSkip.pos = nulChar)
    (hslash : startsWithAt tx (strL "//") stSkip.pos = false) :
    parseStepCondStep tx ih expr st = (some expr, stSkip) := by
  unfold parseStepCondStep
  show (skipInlineSpacesP tx >>= fun _ => curP tx >>= fun ch2 =>
    if ch2 = '\n' || ch2 = '\r' || ch2 = '#' then pure expr
    else (testPrefixP tx (strL "//") >>= fun b =>
      if b then pure expr
      else if ch2 ≠ '@' then pure expr
      else (parseTag tx >>= fun nextTag =>
        ih (TagExpr.And expr (TagExpr.Tag nextTag))))) st = _
  rw [bind_some hskip, bind_some (curP_run stSkip), hcur]
  rw [if_neg (by decide)]
  rw [bind_some (testPrefix_run _ _), hslash]
  rw [if_neg (by decide)]
  rw [if_pos (by decide)]
  rfl

theorem stepCondition_at (tx : Str) (fuel : Nat) (st stSkip st1 st2 : St)
    (e e2 : TagExpr)
    (hskip : skipInlineSpacesP tx st = (some (), stSkip))
    (hcur : curAt tx stSkip.pos = '@')
    (hexpr : parseTagExpr tx fuel stSkip = (some e, st1))
    (hloop : parseStepCondLoop tx fuel e st1 = (some e2, st2)) :
    parseStepCondition tx fuel st = (some (some e2), st2) := by
  unfold parseStepCondition
  show (skipInlineSpacesP tx >>= fun _ => curP tx >>= fun ch =>
    if ch ≠ '@' && ch ≠ '(' then pure none
    else (parseTagExpr tx fuel >>= fun expr =>
      parseStepCondLoop tx fuel expr >>= fun expr2 =>
      pure (some expr2))) st = _
  rw [bind_some hskip, bind_some (curP_run stSkip), hcur]
  rw [if_neg (by decide)]
  rw [bind_some hexpr, bind_some hloop]
  rfl

end TagRunners

/-- Claim C1 (evidence of a code bug): the round-trip law fails on the code
as written.  The program `featureFlags =\n  |> jq: ` followed by a
backticked `x` parses to a `Program` whose `featureFlags` field holds a
one-step pipeline, but `prettyPrint` never emits the feature-flags pipeline
(its `allItems` collection omits that field), so the printed text is just a
newline, which re-parses to the empty program: `featureFlags`, a semantic
field, is lost by `parse ∘ prettyPrint`. -/
theorem roundTrip_drops_featureFlags :
    parseProgram ffText = some ffProg ∧
    prettyPrint ffProg = strL "\n" ∧
    parseProgram (prettyPrint ffProg) = some emptyProgram ∧
    ffProg.featureFlags = some ffPipe ∧
    emptyProgram.featureFlags = none := by
  refine ⟨rfl, rfl, ?_, rfl, rfl⟩
  rw [show prettyPrint ffProg = strL "\n" from rfl]
  rfl

/-- Claim C4: the tag-expression parser gives `and` precedence over `or`
and parentheses override it: `@a and @b or @c` parses to
`Or(And(a,b), c)` and `@a and (@b or @c)` parses to `And(a, Or(b,c))`. -/
theorem tag_precedence :
    (parseTagExpr precText1 (precText1.length + 1) initSt).1 = some precTree1 ∧
    (parseTagExpr precText2 (precText2.length + 1) initSt).1 = some precTree2 :=
  ⟨rfl, rfl⟩

/-- Claim C6: a result branch with status 700 still parses structurally
(statusCode 700 is carried in the branch), exactly one diagnostic is
produced, its severity is `error`, its range covers exactly the text
`700`, and the following `default(500)` sibling branch is still parsed. -/
theorem invalid_status_code_diagnostic :
    parseProgramWithDiagnostics badStatusText = some (badStatusProg, [badStatusDiag]) ∧
    badStatusDiag.severity = strL "error" ∧
    sliceStr badStatusText badStatusDiag.start badStatusDiag.stop = strL "700" ∧
    badStatusBranches.map ResultBranch.statusCode = [700, 500] :=
  ⟨rfl, rfl, rfl, rfl⟩

/-- Inside a quoted/backticked string, `splitBalancedArgsAux` only copies
characters into the current argument. -/
theorem splitAux_inString (sc : Char) (inner : Str) :
    ∀ (rest cur : Str) (d : Int) (args : List Str),
    (∀ c ∈ inner, c ≠ sc ∧ c ≠ '\\') →
    splitBalancedArgsAux (inner ++ rest) cur d true sc false args =
      splitBalancedArgsAux rest (cur ++ inner) d true sc false args := by
  induction inner with
  | nil => intro rest cur d args _; simp
  | cons c cs ih =>
    intro rest cur d args h
    have hc := h c (by simp)
    have hrest : ∀ x ∈ cs, x ≠ sc ∧ x ≠ '\\' := fun x hx => h x (by simp [hx])
    simp only [List.cons_append, splitBalancedArgsAux, hc.1, hc.2,
      Bool.false_and, Bool.and_false, if_false, decide_eq_true_eq]
    rw [if_neg (by simp), if_pos trivial]
    rw [show cs.append rest = cs ++ rest from rfl, ih rest (cur ++ [c]) d args hrest]
    simp

/-- At non-zero bracket depth, bracket-free comma-bearing text is copied
into the current argument without splitting. -/
theorem splitAux_depth (sc : Char) (inner : Str) :
    ∀ (rest cur : Str) (d : Int) (args : List Str), d ≠ 0 →
    (∀ c ∈ inner, c ≠ '(' ∧ c ≠ ')' ∧ c ≠ '[' ∧ c ≠ ']' ∧ c ≠ '{' ∧ c ≠ '}' ∧
      c ≠ '"' ∧ c ≠ '`') →
    splitBalancedArgsAux (inner ++ rest) cur d false sc false args =
      splitBalancedArgsAux rest (cur ++ inner) d false sc false args := by
  induction inner with
  | nil => intro rest cur d args _ _; simp
  | cons c cs ih =>
    intro rest cur d args hd h
    have hc := h c (by simp)
    have hrest : ∀ x ∈ cs, x ≠ '(' ∧ x ≠ ')' ∧ x ≠ '[' ∧ x ≠ ']' ∧ x ≠ '{' ∧
        x ≠ '}' ∧ x ≠ '"' ∧ x ≠ '`' := fun x hx => h x (by simp [hx])
    obtain ⟨ka, kb, kc, kd, ke, kf, kg, kh⟩ := hc
    simp only [List.cons_append, splitBalancedArgsAux, ka, kb, kc, kd, ke, kf,
      kg, kh, hd, Bool.and_false, Bool.false_and, if_false, decide_eq_true_eq]
    rw [if_neg (by simp), if_neg (by simp [kg, kh]), if_neg (by simp),
      if_neg (by simp), if_neg (by simp [ka, kc, ke]),
      if_neg (by simp [kb, kd, kf]), if_neg (by simp [hd])]
    rw [show cs.append rest = cs ++ rest from rfl, ih rest (cur ++ [c]) d args hd hrest]
    simp

/-- Trimming fixes a string delimited by non-space characters. -/
theorem jsTrim_of_ends (a b : Char) (xs : Str) (ha : isJsSpace a = false)
    (hb : isJsSpace b = false) : jsTrim (a :: xs ++ [b]) = a :: xs ++ [b] := by
  unfold jsTrim
  have h1 : List.dropWhile isJsSpace (a :: (xs ++ [b])) = a :: (xs ++ [b]) := by
    simp [List.dropWhile_cons, ha]
  rw [show a :: xs ++ [b] = a :: (xs ++ [b]) from rfl, h1]
  have h2 : (a :: (xs ++ [b])).reverse = b :: (xs.reverse ++ [a]) := by simp
  rw [h2]
  have h3 : List.dropWhile isJsSpace (b :: (xs.reverse ++ [a])) =
      b :: (xs.reverse ++ [a]) := by
    simp [List.dropWhile_cons, hb]
  rw [h3, ← h2, List.reverse_reverse]

/-- Commas inside a double-quoted argument never split it. -/
theorem splitBalancedArgs_quoted (inner : Str)
    (h : ∀ c ∈ inner, c ≠ '"' ∧ c ≠ '\\') :
    splitBalancedArgs (strL "\"" ++ inner ++ strL "\"") =
      [strL "\"" ++ inner ++ strL "\""] := by
  unfold splitBalancedArgs
  rw [show strL "\"" ++ inner ++ strL "\"" = '"' :: (inner ++ ['"']) by
    simp [strL]]
  rw [show splitBalancedArgsAux ('"' :: (inner ++ ['"'])) [] 0 false nulChar false [] =
      splitBalancedArgsAux (inner ++ ['"']) ['"'] 0 true '"' false [] by
    simp [splitBalancedArgsAux, nulChar]]
  rw [splitAux_inString '"' inner ['"'] ['"'] 0 [] h]
  rw [show splitBalancedArgsAux ['"'] (['"'] ++ inner) 0 true '"' false [] =
      splitBalancedArgsAux [] ((['"'] ++ inner) ++ ['"']) 0 false nulChar false [] by
    simp [splitBalancedArgsAux]]
  rw [show (['"'] ++ inner) ++ ['"'] = '"' :: inner ++ ['"'] by simp]
  simp only [splitBalancedArgsAux]
  rw [jsTrim_of_ends '"' '"' inner (by decide) (by decide)]
  simp [strL]

/-- Commas inside a bracketed argument never split it. -/
theorem splitBalancedArgs_bracketed (inner : Str)
    (h : ∀ c ∈ inner, c ≠ '(' ∧ c ≠ ')' ∧ c ≠ '[' ∧ c ≠ ']' ∧ c ≠ '{' ∧
      c ≠ '}' ∧ c ≠ '"' ∧ c ≠ '`') :
    splitBalancedArgs (strL "[" ++ inner ++ strL "]") =
      [strL "[" ++ inner ++ strL "]"] := by
  unfold splitBalancedArgs
  rw [show strL "[" ++ inner ++ strL "]" = '[' :: (inner ++ [']']) by simp [strL]]
  rw [show splitBalancedArgsAux ('[' :: (inner ++ [']'])) [] 0 false nulChar false [] =
      splitBalancedArgsAux (inner ++ [']']) ['['] 1 false nulChar false [] by
    simp [splitBalancedArgsAux, nulChar]]
  rw [splitAux_depth nulChar inner [']'] ['['] 1 [] (by decide) h]
  rw [show splitBalancedArgsAux [']'] (['['] ++ inner) 1 false nulChar false [] =
      splitBalancedArgsAux [] ((['['] ++ inner) ++ [']']) 0 false nulChar false [] by
    simp [splitBalancedArgsAux, nulChar]]
  rw [show (['['] ++ inner) ++ [']'] = '[' :: inner ++ [']'] by simp]
  simp only [splitBalancedArgsAux]
  rw [jsTrim_of_ends '[' ']' inner (by decide) (by decide)]
  simp [strL]

/-- Claim C7: inline-argument splitting respects quoting and bracket
nesting.  The step head `echo(a, "b,c", [d,e]): x` parses with argument
list exactly `a`, `"b,c"` (quotes retained) and `[d,e]`; moreover a comma
inside a quoted string or inside brackets never splits an argument. -/
theorem inline_args_split :
    parseProgram echoText = some echoProg ∧
    splitBalancedArgs (strL "a, \"b,c\", [d,e]") = echoArgs ∧
    (∀ inner : Str, (∀ c ∈ inner, c ≠ '"' ∧ c ≠ '\\') →
      splitBalancedArgs (strL "\"" ++ inner ++ strL "\"") =
        [strL "\"" ++ inner ++ strL "\""]) ∧
    (∀ inner : Str,
      (∀ c ∈ inner, c ≠ '(' ∧ c ≠ ')' ∧ c ≠ '[' ∧ c ≠ ']' ∧ c ≠ '{' ∧
        c ≠ '}' ∧ c ≠ '"' ∧ c ≠ '`') →
      splitBalancedArgs (strL "[" ++ inner ++ strL "]") =
        [strL "[" ++ inner ++ strL "]"]) :=
  ⟨rfl, rfl, splitBalancedArgs_quoted, splitBalancedArgs_bracketed⟩

/-- Witness for C7 at the concrete arguments of the example. -/
theorem inline_args_split_witness :
    splitBalancedArgs (strL "\"" ++ strL "b,c" ++ strL "\"") =
      [strL "\"" ++ strL "b,c" ++ strL "\""] ∧
    splitBalancedArgs (strL "[" ++ strL "d,e" ++ strL "]") =
      [strL "[" ++ strL "d,e" ++ strL "]"] :=
  ⟨inline_args_split.2.2.1 (strL "b,c") (by decide),
   inline_args_split.2.2.2 (strL "d,e") (by decide)⟩

/-- Claim C9: a parenthesised tag argument list that is empty
(`@flag()`) or ends in a comma (`@flag(foo,)`) makes `parseTag` fail
without recording any diagnostic; inside a program the enclosing
`pipeline` alternative fails and backtracks to the saved cursor, and the
whole parse records only the generic `Unrecognized or unsupported syntax`
warnings (no diagnostic about the tag arguments). -/
theorem tag_args_failures_backtrack :
    (parseTag emptyArgsTagText initSt).1 = none ∧
    (parseTag emptyArgsTagText initSt).2.diagnostics = [] ∧
    (parseTag trailingCommaTagText initSt).1 = none ∧
    (parseTag trailingCommaTagText initSt).2.diagnostics = [] ∧
    (tryParseP (parseNamedPipeline badTagPipelineText) initSt).1 = some none ∧
    (tryParseP (parseNamedPipeline badTagPipelineText) initSt).2.pos = 0 ∧
    parseProgramWithDiagnostics badTagPipelineText =
      some (emptyProgram, badTagPipelineDiags) :=
  ⟨rfl, rfl, rfl, rfl, rfl, rfl, rfl⟩

/-- Claim C10: both entry points build a fresh parser over the same text
and run the same single pass, so the `program` component of
`parseProgramWithDiagnostics` equals the result of `parseProgram` on every
input. -/
theorem parse_entry_points_agree (text : Str) :
    (parseProgramWithDiagnostics text).map Prod.fst = parseProgram text := by
  unfold parseProgramWithDiagnostics parseProgram
  rcases h : Parser.parseProgram text initSt with ⟨r, st⟩
  cases r <;> simp

/-- Witness for C10 at a concrete input. -/
theorem parse_entry_points_agree_witness :
    (parseProgramWithDiagnostics ffText).map Prod.fst = parseProgram ffText :=
  parse_entry_points_agree ffText

/-- Claim C2: `parseProgram` returns a `Program` on every input (the image
of a thrown exception, `none`, never reaches the caller), and a region
matching no top-level form is skipped line by line under an
`Unrecognized or unsupported syntax` warning while the rest of the source
is still parsed (on `recovText` the garbage first line produces exactly
that one warning and the following route declaration is still recovered). -/
theorem parse_never_raises :
    (∀ t : Str, (parseProgram t).isSome = true) ∧
    (parseProgramWithDiagnostics recovText).map Prod.snd =
      some [{ message := strL "Unrecognized or unsupported syntax", start := 0
            , stop := 3, severity := strL "warning" }] ∧
    (parseProgramWithDiagnostics recovText).map (fun pr => pr.1.routes.length) =
      some 1 := by
  refine ⟨?_, rfl, rfl⟩
  intro t
  unfold parseProgram Parser.parseProgram
  rw [bind_run]
  generalize hq0 : skipWhitespaceOnlyP t initSt = q0
  obtain ⟨r0, st0⟩ := q0
  rcases r0 with _ | u0
  · have := @total_skipWhitespaceOnly t initSt
    rw [hq0] at this
    simp at this
  · try simp only []
    rw [bind_run]
    generalize hq1 : parseProgramLoop t (t.length + 1) emptyProgram st0 = q1
    obtain ⟨r1, st1⟩ := q1
    rcases r1 with _ | prog
    · have h2 := @parseProgramLoop_total t (t.length + 1) emptyProgram st0 (by omega)
      rw [hq1] at h2
      simp at h2
    · try simp only []
      rw [bind_run, ite_run]
      by_cases hodd : (t.filter (fun c => c = '`')).length % 2 = 1
      · rw [if_pos hodd]
        rfl
      · rw [if_neg hodd]
        rfl

/-- Claim C3: each `.next` round of the top-level loop strictly advances
the cursor and only happens while input remains, and therefore fuel
exceeding the remaining input length makes the loop total: a single parse
call processes the entire finite source to completion. -/
theorem top_loop_terminates :
    (∀ (t : Str) (acc : Program) (st : St) (a : Program) (st' : St),
        parseProgramIter t acc st = (some (LoopOut.next a), st') →
        st.pos < st'.pos ∧ st.pos < t.length) ∧
    (∀ (t : Str) (fuel : Nat) (acc : Program) (st : St),
        t.length - st.pos < fuel →
        ((parseProgramLoop t fuel acc) st).1.isSome = true) :=
  ⟨fun _ _ _ _ _ h => parseProgramIter_progress h,
   fun _ fuel acc st h => parseProgramLoop_total fuel acc st h⟩

/-- Witness for C3: one recovery round on the unparseable input `?` moves
the cursor from 0 to 1, and fuel 2 suffices for the whole loop there. -/
theorem top_loop_terminates_witness :
    (initSt.pos <
        (St.mk 1
          [{ message := strL "Unrecognized or unsupported syntax", start := 0
           , stop := 1, severity := strL "warning" }] [] [] [] none none).pos ∧
      initSt.pos < (strL "?").length) ∧
    ((parseProgramLoop (strL "?") 2 emptyProgram) initSt).1.isSome = true :=
  ⟨top_loop_terminates.1 (strL "?") emptyProgram initSt emptyProgram
      (St.mk 1
        [{ message := strL "Unrecognized or unsupported syntax", start := 0
         , stop := 1, severity := strL "warning" }] [] [] [] none none) rfl,
   top_loop_terminates.2 (strL "?") 2 emptyProgram initSt (by decide)⟩

/-- Claim C8: parsing always returns normally, and the diagnostics list
contains the unclosed-backtick diagnostic exactly when the source holds an
odd number of backticks — a single such diagnostic, pointing at the last
backtick of the source; with an even backtick count no diagnostic with
that message is ever produced. -/
theorem unclosed_backtick_diagnostic :
    ∀ t : Str, ∃ p ds, parseProgramWithDiagnostics t = some (p, ds) ∧
      ds.filter (fun d => d.message = ubMsg) =
        (if (t.filter (fun c => c = '`')).length % 2 = 1
         then [ubDiagAt t] else []) := by
  intro t
  unfold parseProgramWithDiagnostics Parser.parseProgram
  rw [bind_run]
  generalize hq0 : skipWhitespaceOnlyP t initSt = q0
  obtain ⟨r0, st0⟩ := q0
  rcases r0 with _ | u0
  · have := @total_skipWhitespaceOnly t initSt
    rw [hq0] at this
    simp at this
  · try simp only []
    rw [bind_run]
    generalize hq1 : parseProgramLoop t (t.length + 1) emptyProgram st0 = q1
    obtain ⟨r1, st1⟩ := q1
    rcases r1 with _ | prog
    · have h2 := @parseProgramLoop_total t (t.length + 1) emptyProgram st0 (by omega)
      rw [hq1] at h2
      simp at h2
    · obtain ⟨-, ds0, hds0, hnb0⟩ := @stOk_skipWhitespaceOnly t initSt (some u0) st0 hq0
      obtain ⟨-, ds1, hds1, hnb1⟩ :=
        stOk_parseProgramLoop (t.length + 1) emptyProgram st0 (some prog) st1 hq1
      have hfil : st1.diagnostics.filter (fun d => d.message = ubMsg) = [] := by
        rw [List.filter_eq_nil]
        intro d hd
        rw [hds1, hds0] at hd
        simp only [List.mem_append] at hd
        rcases hd with (hd | hd) | hd
        · simp [initSt] at hd
        · simpa using hnb0 d hd
        · simpa using hnb1 d hd
      try simp only []
      rw [bind_run, ite_run]
      by_cases hodd : (t.filter (fun c => c = '`')).length % 2 = 1
      · rw [if_pos hodd]
        refine ⟨prog, _, rfl, ?_⟩
        rw [List.filter_append, hfil, if_pos hodd]
        simp [ubDiagAt, ubMsg]
      · rw [if_neg hodd]
        refine ⟨prog, st1.diagnostics, rfl, ?_⟩
        rw [if_neg hodd]
        exact hfil


/-- Claim C5 (corrected): a guard written as two space-separated bare tags
parses to the same left-associated `And` tree as the explicit-`and`
spelling — the two conditions agree on every field except the recorded
byte offsets of the second tag, which necessarily differ because ` and `
occupies four more characters than a single space.  The hypotheses say the
two tag tokens parse as bare tags at the relevant offsets in each
spelling. -/
theorem spaced_tags_implicit_and
    (s1 s2 : Str) (g1A g2A g1B g2B : Tag) (fuel : Nat)
    (hs1 : s1.head? = some '@') (hs2 : s2.head? = some '@')
    (hfuel : 5 ≤ fuel)
    (h1A : parseTag (s1 ++ ' ' :: s2) initSt =
      (some g1A, { initSt with pos := s1.length }))
    (h2A : parseTag (s1 ++ ' ' :: s2) { initSt with pos := s1.length + 1 } =
      (some g2A, { initSt with pos := (s1 ++ ' ' :: s2).length }))
    (h1B : parseTag (s1 ++ ' ' :: 'a' :: 'n' :: 'd' :: ' ' :: s2) initSt =
      (some g1B, { initSt with pos := s1.length }))
    (h2B : parseTag (s1 ++ ' ' :: 'a' :: 'n' :: 'd' :: ' ' :: s2)
        { initSt with pos := s1.length + 5 } =
      (some g2B,
       { initSt with pos := (s1 ++ ' ' :: 'a' :: 'n' :: 'd' :: ' ' :: s2).length }))
    (hg1 : tagScrub g1B = tagScrub g1A) (hg2 : tagScrub g2B = tagScrub g2A) :
    parseStepCondition (s1 ++ ' ' :: s2) fuel initSt =
      (some (some (TagExpr.And (TagExpr.Tag g1A) (TagExpr.Tag g2A))),
       { initSt with pos := (s1 ++ ' ' :: s2).length }) ∧
    parseStepCondition (s1 ++ ' ' :: 'a' :: 'n' :: 'd' :: ' ' :: s2) fuel initSt =
      (some (some (TagExpr.And (TagExpr.Tag g1B) (TagExpr.Tag g2B))),
       { initSt with pos := (s1 ++ ' ' :: 'a' :: 'n' :: 'd' :: ' ' :: s2).length }) ∧
    exprScrub (TagExpr.And (TagExpr.Tag g1B) (TagExpr.Tag g2B)) =
      exprScrub (TagExpr.And (TagExpr.Tag g1A) (TagExpr.Tag g2A)) := by
  obtain ⟨k, rfl⟩ : ∃ k, fuel = k + 5 := ⟨fuel - 5, by omega⟩
  rcases s1 with _ | ⟨c1, t1⟩
  · simp at hs1
  rcases s2 with _ | ⟨c2, t2⟩
  · simp at hs2
  simp only [List.head?_cons, Option.some.injEq] at hs1 hs2
  subst hs1
  subst hs2
  have haA : (('@' :: t1) ++ ' ' :: '@' :: t2).drop ('@' :: t1).length = ' ' :: '@' :: t2 := List.drop_left _ _
  have hdA2 : (('@' :: t1) ++ ' ' :: '@' :: t2).drop (('@' :: t1).length + 1) = '@' :: t2 := by
    rw [← List.drop_drop, haA]
    rfl
  have handA : startsWithAt (('@' :: t1) ++ ' ' :: '@' :: t2) (strL "and") (('@' :: t1).length + 1) = false := by
    unfold startsWithAt
    rw [hdA2]
    rfl
  have horA : startsWithAt (('@' :: t1) ++ ' ' :: '@' :: t2) (strL "or") (('@' :: t1).length + 1) = false := by
    unfold startsWithAt
    rw [hdA2]
    rfl
  have hslashA : startsWithAt (('@' :: t1) ++ ' ' :: '@' :: t2) (strL "//") (('@' :: t1).length + 1) = false := by
    unfold startsWithAt
    rw [hdA2]
    rfl
  have hcurA1 : curAt (('@' :: t1) ++ ' ' :: '@' :: t2) (('@' :: t1).length + 1) = '@' := by
    unfold curAt
    have h := get_drop_eq (('@' :: t1) ++ ' ' :: '@' :: t2) ('@' :: t1).length 1
    rw [haA] at h
    rw [← h]
    rfl
  have hdAL : (('@' :: t1) ++ ' ' :: '@' :: t2).drop (('@' :: t1) ++ ' ' :: '@' :: t2).length = [] := List.drop_length _
  have hcurAL : curAt (('@' :: t1) ++ ' ' :: '@' :: t2) (('@' :: t1) ++ ' ' :: '@' :: t2).length = nulChar := by
    unfold curAt
    rw [List.get?_len_le (le_refl _)]
    rfl
  have hslashAL : startsWithAt (('@' :: t1) ++ ' ' :: '@' :: t2) (strL "//") (('@' :: t1) ++ ' ' :: '@' :: t2).length = false := by
    unfold startsWithAt
    rw [List.drop_length]
    rfl
  have haB : (('@' :: t1) ++ ' ' :: 'a' :: 'n' :: 'd' :: ' ' :: '@' :: t2).drop ('@' :: t1).length = ' ' :: 'a' :: 'n' :: 'd' :: ' ' :: '@' :: t2 :=
    List.drop_left _ _
  have hdB2 : (('@' :: t1) ++ ' ' :: 'a' :: 'n' :: 'd' :: ' ' :: '@' :: t2).drop (('@' :: t1).length + 1) = 'a' :: 'n' :: 'd' :: ' ' :: '@' :: t2 := by
    rw [← List.drop_drop, haB]
    rfl
  have handB : startsWithAt (('@' :: t1) ++ ' ' :: 'a' :: 'n' :: 'd' :: ' ' :: '@' :: t2) (strL "and") (('@' :: t1).length + 1) = true := by
    unfold startsWithAt
    rw [hdB2]
    rfl
  have hidB : identContAt (('@' :: t1) ++ ' ' :: 'a' :: 'n' :: 'd' :: ' ' :: '@' :: t2) (('@' :: t1).length + 1 + 3) = false := by
    unfold identContAt
    have h := get_drop_eq (('@' :: t1) ++ ' ' :: 'a' :: 'n' :: 'd' :: ' ' :: '@' :: t2) (('@' :: t1).length + 1) 3
    rw [hdB2] at h
    rw [← h]
    rfl
  have hdB4 : (('@' :: t1) ++ ' ' :: 'a' :: 'n' :: 'd' :: ' ' :: '@' :: t2).drop (('@' :: t1).length + 1 + 3) = ' ' :: '@' :: t2 := by
    rw [← List.drop_drop, hdB2]
    rfl
  have hcurB5 : curAt (('@' :: t1) ++ ' ' :: 'a' :: 'n' :: 'd' :: ' ' :: '@' :: t2) (('@' :: t1).length + 1 + 3 + 1) = '@' := by
    unfold curAt
    have h := get_drop_eq (('@' :: t1) ++ ' ' :: 'a' :: 'n' :: 'd' :: ' ' :: '@' :: t2) (('@' :: t1).length + 1 + 3) 1
    rw [hdB4] at h
    rw [← h]
    rfl
  have hdBL : (('@' :: t1) ++ ' ' :: 'a' :: 'n' :: 'd' :: ' ' :: '@' :: t2).drop (('@' :: t1) ++ ' ' :: 'a' :: 'n' :: 'd' :: ' ' :: '@' :: t2).length = [] := List.drop_length _
  have hcurBL : curAt (('@' :: t1) ++ ' ' :: 'a' :: 'n' :: 'd' :: ' ' :: '@' :: t2) (('@' :: t1) ++ ' ' :: 'a' :: 'n' :: 'd' :: ' ' :: '@' :: t2).length = nulChar := by
    unfold curAt
    rw [List.get?_len_le (le_refl _)]
    rfl
  have hslashBL : startsWithAt (('@' :: t1) ++ ' ' :: 'a' :: 'n' :: 'd' :: ' ' :: '@' :: t2) (strL "//") (('@' :: t1) ++ ' ' :: 'a' :: 'n' :: 'd' :: ' ' :: '@' :: t2).length = false := by
    unfold startsWithAt
    rw [List.drop_length]
    rfl
  have handBL : startsWithAt (('@' :: t1) ++ ' ' :: 'a' :: 'n' :: 'd' :: ' ' :: '@' :: t2) (strL "and") (('@' :: t1) ++ ' ' :: 'a' :: 'n' :: 'd' :: ' ' :: '@' :: t2).length = false := by
    unfold startsWithAt
    rw [List.drop_length]
    rfl
  have horBL : startsWithAt (('@' :: t1) ++ ' ' :: 'a' :: 'n' :: 'd' :: ' ' :: '@' :: t2) (strL "or") (('@' :: t1) ++ ' ' :: 'a' :: 'n' :: 'd' :: ' ' :: '@' :: t2).length = false := by
    unfold startsWithAt
    rw [List.drop_length]
    rfl
  have hcurA0 : curAt (('@' :: t1) ++ ' ' :: '@' :: t2) initSt.pos = '@' := rfl
  have hcurB0 : curAt (('@' :: t1) ++ ' ' :: 'a' :: 'n' :: 'd' :: ' ' :: '@' :: t2) initSt.pos = '@' := rfl
  have hskA0 : skipInlineSpacesP (('@' :: t1) ++ ' ' :: '@' :: t2) initSt = (some (), initSt) :=
    skipInline_at (('@' :: t1) ++ ' ' :: '@' :: t2) initSt (t1 ++ ' ' :: '@' :: t2) rfl
  have hskA1 : skipInlineSpacesP (('@' :: t1) ++ ' ' :: '@' :: t2) { initSt with pos := ('@' :: t1).length } = (some (), { initSt with pos := ('@' :: t1).length + 1 }) := by
    have h := skipInline_one (('@' :: t1) ++ ' ' :: '@' :: t2) { initSt with pos := ('@' :: t1).length } '@' t2 haA (by decide)
    exact h
  have hprimA : (tagFnsAt (('@' :: t1) ++ ' ' :: '@' :: t2) (k + 2)).tagPrimary initSt =
      (some (TagExpr.Tag g1A), { initSt with pos := ('@' :: t1).length }) :=
    tagPrimary_tag (('@' :: t1) ++ ' ' :: '@' :: t2) (k + 1) initSt { initSt with pos := ('@' :: t1).length } g1A
      (fun hcc => absurd (hcurA0.symm.trans hcc) (by decide)) h1A
  have hALA : (tagFnsAt (('@' :: t1) ++ ' ' :: '@' :: t2) (k + 2)).andLoop (TagExpr.Tag g1A) { initSt with pos := ('@' :: t1).length } =
      (some (TagExpr.Tag g1A), { initSt with pos := ('@' :: t1).length }) := by
    have h := andLoop_stop (('@' :: t1) ++ ' ' :: '@' :: t2) (k + 1) (TagExpr.Tag g1A) { initSt with pos := ('@' :: t1).length } { initSt with pos := ('@' :: t1).length + 1 } hskA1 handA
    exact h
  have hAndA : (tagFnsAt (('@' :: t1) ++ ' ' :: '@' :: t2) (k + 3)).andExpr initSt =
      (some (TagExpr.Tag g1A), { initSt with pos := ('@' :: t1).length }) :=
    andExpr_run (('@' :: t1) ++ ' ' :: '@' :: t2) (k + 2) initSt { initSt with pos := ('@' :: t1).length } (TagExpr.Tag g1A) _ hprimA hALA
  have hOLA : (tagFnsAt (('@' :: t1) ++ ' ' :: '@' :: t2) (k + 3)).orLoop (TagExpr.Tag g1A) { initSt with pos := ('@' :: t1).length } =
      (some (TagExpr.Tag g1A), { initSt with pos := ('@' :: t1).length }) := by
    have h := orLoop_stop (('@' :: t1) ++ ' ' :: '@' :: t2) (k + 2) (TagExpr.Tag g1A) { initSt with pos := ('@' :: t1).length } { initSt with pos := ('@' :: t1).length + 1 } hskA1 horA
    exact h
  have hexprA : parseTagExpr (('@' :: t1) ++ ' ' :: '@' :: t2) (k + 5) initSt =
      (some (TagExpr.Tag g1A), { initSt with pos := ('@' :: t1).length }) := by
    show (tagFnsAt (('@' :: t1) ++ ' ' :: '@' :: t2) (k + 4)).orExpr initSt = _
    exact orExpr_run (('@' :: t1) ++ ' ' :: '@' :: t2) (k + 3) initSt { initSt with pos := ('@' :: t1).length } (TagExpr.Tag g1A) _ hAndA hOLA
  have hLoopA2 : parseStepCondLoop (('@' :: t1) ++ ' ' :: '@' :: t2) (k + 4)
      (TagExpr.And (TagExpr.Tag g1A) (TagExpr.Tag g2A)) { initSt with pos := (('@' :: t1) ++ ' ' :: '@' :: t2).length } =
      (some (TagExpr.And (TagExpr.Tag g1A) (TagExpr.Tag g2A)), { initSt with pos := (('@' :: t1) ++ ' ' :: '@' :: t2).length }) := by
    show parseStepCondStep (('@' :: t1) ++ ' ' :: '@' :: t2) (parseStepCondLoop (('@' :: t1) ++ ' ' :: '@' :: t2) (k + 3)) _ _ = _
    have h := stepCond_stop (('@' :: t1) ++ ' ' :: '@' :: t2) (parseStepCondLoop (('@' :: t1) ++ ' ' :: '@' :: t2) (k + 3))
      (TagExpr.And (TagExpr.Tag g1A) (TagExpr.Tag g2A)) { initSt with pos := (('@' :: t1) ++ ' ' :: '@' :: t2).length } { initSt with pos := (('@' :: t1) ++ ' ' :: '@' :: t2).length }
      (skipInline_nil (('@' :: t1) ++ ' ' :: '@' :: t2) { initSt with pos := (('@' :: t1) ++ ' ' :: '@' :: t2).length } hdAL) hcurAL hslashAL
    exact h
  have hLoopA1 : parseStepCondLoop (('@' :: t1) ++ ' ' :: '@' :: t2) (k + 5) (TagExpr.Tag g1A) { initSt with pos := ('@' :: t1).length } =
      (some (TagExpr.And (TagExpr.Tag g1A) (TagExpr.Tag g2A)), { initSt with pos := (('@' :: t1) ++ ' ' :: '@' :: t2).length }) := by
    show parseStepCondStep (('@' :: t1) ++ ' ' :: '@' :: t2) (parseStepCondLoop (('@' :: t1) ++ ' ' :: '@' :: t2) (k + 4)) _ _ = _
    exact stepCond_take (('@' :: t1) ++ ' ' :: '@' :: t2) (parseStepCondLoop (('@' :: t1) ++ ' ' :: '@' :: t2) (k + 4)) (TagExpr.Tag g1A)
      { initSt with pos := ('@' :: t1).length } { initSt with pos := ('@' :: t1).length + 1 } { initSt with pos := (('@' :: t1) ++ ' ' :: '@' :: t2).length } g2A _ hskA1 hcurA1 hslashA h2A hLoopA2
  have hskB0 : skipInlineSpacesP (('@' :: t1) ++ ' ' :: 'a' :: 'n' :: 'd' :: ' ' :: '@' :: t2) initSt = (some (), initSt) :=
    skipInline_at (('@' :: t1) ++ ' ' :: 'a' :: 'n' :: 'd' :: ' ' :: '@' :: t2) initSt (t1 ++ ' ' :: 'a' :: 'n' :: 'd' :: ' ' :: '@' :: t2) rfl
  have hskB1 : skipInlineSpacesP (('@' :: t1) ++ ' ' :: 'a' :: 'n' :: 'd' :: ' ' :: '@' :: t2) { initSt with pos := ('@' :: t1).length } = (some (), { initSt with pos := ('@' :: t1).length + 1 }) := by
    have h := skipInline_one (('@' :: t1) ++ ' ' :: 'a' :: 'n' :: 'd' :: ' ' :: '@' :: t2) { initSt with pos := ('@' :: t1).length } 'a' ('n' :: 'd' :: ' ' :: '@' :: t2) haB
      (by decide)
    exact h
  have hskB4 : skipInlineSpacesP (('@' :: t1) ++ ' ' :: 'a' :: 'n' :: 'd' :: ' ' :: '@' :: t2) { initSt with pos := ('@' :: t1).length + 1 + 3 } = (some (), { initSt with pos := ('@' :: t1).length + 1 + 3 + 1 }) := by
    have h := skipInline_one (('@' :: t1) ++ ' ' :: 'a' :: 'n' :: 'd' :: ' ' :: '@' :: t2) { initSt with pos := ('@' :: t1).length + 1 + 3 } '@' t2 hdB4 (by decide)
    exact h
  have hprimB1 : (tagFnsAt (('@' :: t1) ++ ' ' :: 'a' :: 'n' :: 'd' :: ' ' :: '@' :: t2) (k + 2)).tagPrimary initSt =
      (some (TagExpr.Tag g1B), { initSt with pos := ('@' :: t1).length }) :=
    tagPrimary_tag (('@' :: t1) ++ ' ' :: 'a' :: 'n' :: 'd' :: ' ' :: '@' :: t2) (k + 1) initSt { initSt with pos := ('@' :: t1).length } g1B
      (fun hcc => absurd (hcurB0.symm.trans hcc) (by decide)) h1B
  have hprimB2 : (tagFnsAt (('@' :: t1) ++ ' ' :: 'a' :: 'n' :: 'd' :: ' ' :: '@' :: t2) (k + 1)).tagPrimary { initSt with pos := ('@' :: t1).length + 1 + 3 + 1 } =
      (some (TagExpr.Tag g2B), { initSt with pos := (('@' :: t1) ++ ' ' :: 'a' :: 'n' :: 'd' :: ' ' :: '@' :: t2).length }) :=
    tagPrimary_tag (('@' :: t1) ++ ' ' :: 'a' :: 'n' :: 'd' :: ' ' :: '@' :: t2) k { initSt with pos := ('@' :: t1).length + 1 + 3 + 1 } { initSt with pos := (('@' :: t1) ++ ' ' :: 'a' :: 'n' :: 'd' :: ' ' :: '@' :: t2).length } g2B
      (fun hcc => absurd (hcurB5.symm.trans hcc) (by decide)) h2B
  have hALB2 : (tagFnsAt (('@' :: t1) ++ ' ' :: 'a' :: 'n' :: 'd' :: ' ' :: '@' :: t2) (k + 1)).andLoop
      (TagExpr.And (TagExpr.Tag g1B) (TagExpr.Tag g2B)) { initSt with pos := (('@' :: t1) ++ ' ' :: 'a' :: 'n' :: 'd' :: ' ' :: '@' :: t2).length } =
      (some (TagExpr.And (TagExpr.Tag g1B) (TagExpr.Tag g2B)), { initSt with pos := (('@' :: t1) ++ ' ' :: 'a' :: 'n' :: 'd' :: ' ' :: '@' :: t2).length }) := by
    have h := andLoop_stop (('@' :: t1) ++ ' ' :: 'a' :: 'n' :: 'd' :: ' ' :: '@' :: t2) k
      (TagExpr.And (TagExpr.Tag g1B) (TagExpr.Tag g2B)) { initSt with pos := (('@' :: t1) ++ ' ' :: 'a' :: 'n' :: 'd' :: ' ' :: '@' :: t2).length } { initSt with pos := (('@' :: t1) ++ ' ' :: 'a' :: 'n' :: 'd' :: ' ' :: '@' :: t2).length }
      (skipInline_nil (('@' :: t1) ++ ' ' :: 'a' :: 'n' :: 'd' :: ' ' :: '@' :: t2) { initSt with pos := (('@' :: t1) ++ ' ' :: 'a' :: 'n' :: 'd' :: ' ' :: '@' :: t2).length } hdBL) handBL
    exact h
  have hALB : (tagFnsAt (('@' :: t1) ++ ' ' :: 'a' :: 'n' :: 'd' :: ' ' :: '@' :: t2) (k + 2)).andLoop (TagExpr.Tag g1B) { initSt with pos := ('@' :: t1).length } =
      (some (TagExpr.And (TagExpr.Tag g1B) (TagExpr.Tag g2B)), { initSt with pos := (('@' :: t1) ++ ' ' :: 'a' :: 'n' :: 'd' :: ' ' :: '@' :: t2).length }) := by
    have h := andLoop_take (('@' :: t1) ++ ' ' :: 'a' :: 'n' :: 'd' :: ' ' :: '@' :: t2) (k + 1) (TagExpr.Tag g1B) (TagExpr.Tag g2B)
      { initSt with pos := ('@' :: t1).length } { initSt with pos := ('@' :: t1).length + 1 } { initSt with pos := ('@' :: t1).length + 1 + 3 + 1 } { initSt with pos := (('@' :: t1) ++ ' ' :: 'a' :: 'n' :: 'd' :: ' ' :: '@' :: t2).length } _ hskB1 handB hidB hskB4 hprimB2 hALB2
    exact h
  have hAndB : (tagFnsAt (('@' :: t1) ++ ' ' :: 'a' :: 'n' :: 'd' :: ' ' :: '@' :: t2) (k + 3)).andExpr initSt =
      (some (TagExpr.And (TagExpr.Tag g1B) (TagExpr.Tag g2B)), { initSt with pos := (('@' :: t1) ++ ' ' :: 'a' :: 'n' :: 'd' :: ' ' :: '@' :: t2).length }) :=
    andExpr_run (('@' :: t1) ++ ' ' :: 'a' :: 'n' :: 'd' :: ' ' :: '@' :: t2) (k + 2) initSt { initSt with pos := ('@' :: t1).length } (TagExpr.Tag g1B) _ hprimB1 hALB
  have hOLB : (tagFnsAt (('@' :: t1) ++ ' ' :: 'a' :: 'n' :: 'd' :: ' ' :: '@' :: t2) (k + 3)).orLoop
      (TagExpr.And (TagExpr.Tag g1B) (TagExpr.Tag g2B)) { initSt with pos := (('@' :: t1) ++ ' ' :: 'a' :: 'n' :: 'd' :: ' ' :: '@' :: t2).length } =
      (some (TagExpr.And (TagExpr.Tag g1B) (TagExpr.Tag g2B)), { initSt with pos := (('@' :: t1) ++ ' ' :: 'a' :: 'n' :: 'd' :: ' ' :: '@' :: t2).length }) := by
    have h := orLoop_stop (('@' :: t1) ++ ' ' :: 'a' :: 'n' :: 'd' :: ' ' :: '@' :: t2) (k + 2)
      (TagExpr.And (TagExpr.Tag g1B) (TagExpr.Tag g2B)) { initSt with pos := (('@' :: t1) ++ ' ' :: 'a' :: 'n' :: 'd' :: ' ' :: '@' :: t2).length } { initSt with pos := (('@' :: t1) ++ ' ' :: 'a' :: 'n' :: 'd' :: ' ' :: '@' :: t2).length }
      (skipInline_nil (('@' :: t1) ++ ' ' :: 'a' :: 'n' :: 'd' :: ' ' :: '@' :: t2) { initSt with pos := (('@' :: t1) ++ ' ' :: 'a' :: 'n' :: 'd' :: ' ' :: '@' :: t2).length } hdBL) horBL
    exact h
  have hexprB : parseTagExpr (('@' :: t1) ++ ' ' :: 'a' :: 'n' :: 'd' :: ' ' :: '@' :: t2) (k + 5) initSt =
      (some (TagExpr.And (TagExpr.Tag g1B) (TagExpr.Tag g2B)), { initSt with pos := (('@' :: t1) ++ ' ' :: 'a' :: 'n' :: 'd' :: ' ' :: '@' :: t2).length }) := by
    show (tagFnsAt (('@' :: t1) ++ ' ' :: 'a' :: 'n' :: 'd' :: ' ' :: '@' :: t2) (k + 4)).orExpr initSt = _
    exact orExpr_run (('@' :: t1) ++ ' ' :: 'a' :: 'n' :: 'd' :: ' ' :: '@' :: t2) (k + 3) initSt { initSt with pos := (('@' :: t1) ++ ' ' :: 'a' :: 'n' :: 'd' :: ' ' :: '@' :: t2).length }
      (TagExpr.And (TagExpr.Tag g1B) (TagExpr.Tag g2B)) _ hAndB hOLB
  have hLoopB : parseStepCondLoop (('@' :: t1) ++ ' ' :: 'a' :: 'n' :: 'd' :: ' ' :: '@' :: t2) (k + 5)
      (TagExpr.And (TagExpr.Tag g1B) (TagExpr.Tag g2B)) { initSt with pos := (('@' :: t1) ++ ' ' :: 'a' :: 'n' :: 'd' :: ' ' :: '@' :: t2).length } =
      (some (TagExpr.And (TagExpr.Tag g1B) (TagExpr.Tag g2B)), { initSt with pos := (('@' :: t1) ++ ' ' :: 'a' :: 'n' :: 'd' :: ' ' :: '@' :: t2).length }) := by
    show parseStepCondStep (('@' :: t1) ++ ' ' :: 'a' :: 'n' :: 'd' :: ' ' :: '@' :: t2) (parseStepCondLoop (('@' :: t1) ++ ' ' :: 'a' :: 'n' :: 'd' :: ' ' :: '@' :: t2) (k + 4)) _ _ = _
    have h := stepCond_stop (('@' :: t1) ++ ' ' :: 'a' :: 'n' :: 'd' :: ' ' :: '@' :: t2) (parseStepCondLoop (('@' :: t1) ++ ' ' :: 'a' :: 'n' :: 'd' :: ' ' :: '@' :: t2) (k + 4))
      (TagExpr.And (TagExpr.Tag g1B) (TagExpr.Tag g2B)) { initSt with pos := (('@' :: t1) ++ ' ' :: 'a' :: 'n' :: 'd' :: ' ' :: '@' :: t2).length } { initSt with pos := (('@' :: t1) ++ ' ' :: 'a' :: 'n' :: 'd' :: ' ' :: '@' :: t2).length }
      (skipInline_nil (('@' :: t1) ++ ' ' :: 'a' :: 'n' :: 'd' :: ' ' :: '@' :: t2) { initSt with pos := (('@' :: t1) ++ ' ' :: 'a' :: 'n' :: 'd' :: ' ' :: '@' :: t2).length } hdBL) hcurBL hslashBL
    exact h
  refine ⟨?_, ?_, ?_⟩
  · exact stepCondition_at (('@' :: t1) ++ ' ' :: '@' :: t2) (k + 5) initSt initSt { initSt with pos := ('@' :: t1).length } { initSt with pos := (('@' :: t1) ++ ' ' :: '@' :: t2).length }
      (TagExpr.Tag g1A) (TagExpr.And (TagExpr.Tag g1A) (TagExpr.Tag g2A))
      hskA0 rfl hexprA hLoopA1
  · exact stepCondition_at (('@' :: t1) ++ ' ' :: 'a' :: 'n' :: 'd' :: ' ' :: '@' :: t2) (k + 5) initSt initSt { initSt with pos := (('@' :: t1) ++ ' ' :: 'a' :: 'n' :: 'd' :: ' ' :: '@' :: t2).length }
      { initSt with pos := (('@' :: t1) ++ ' ' :: 'a' :: 'n' :: 'd' :: ' ' :: '@' :: t2).length } (TagExpr.And (TagExpr.Tag g1B) (TagExpr.Tag g2B))
      (TagExpr.And (TagExpr.Tag g1B) (TagExpr.Tag g2B))
      hskB0 rfl hexprB hLoopB
  · simp only [exprScrub, hg1, hg2]


/-- Witness for claim C5 at the spec's own example pair `@dev @flag(x)` /
`@dev and @flag(x)`: all hypotheses hold by computation and both guards
parse to left-associated `And` trees equal after offset erasure. -/
theorem spaced_tags_implicit_and_witness :
    parseStepCondition (strL "@dev" ++ ' ' :: strL "@flag(x)") 5 initSt =
      (some (some (TagExpr.And
        (TagExpr.Tag ⟨strL "dev", false, [], 0, 4⟩)
        (TagExpr.Tag ⟨strL "flag", false, [strL "x"], 5, 13⟩))),
       { initSt with pos := 13 }) ∧
    parseStepCondition
        (strL "@dev" ++ ' ' :: 'a' :: 'n' :: 'd' :: ' ' :: strL "@flag(x)") 5 initSt =
      (some (some (TagExpr.And
        (TagExpr.Tag ⟨strL "dev", false, [], 0, 4⟩)
        (TagExpr.Tag ⟨strL "flag", false, [strL "x"], 9, 17⟩))),
       { initSt with pos := 17 }) ∧
    exprScrub (TagExpr.And
        (TagExpr.Tag ⟨strL "dev", false, [], 0, 4⟩)
        (TagExpr.Tag ⟨strL "flag", false, [strL "x"], 9, 17⟩)) =
      exprScrub (TagExpr.And
        (TagExpr.Tag ⟨strL "dev", false, [], 0, 4⟩)
        (TagExpr.Tag ⟨strL "flag", false, [strL "x"], 5, 13⟩)) :=
  spaced_tags_implicit_and (strL "@dev") (strL "@flag(x)")
    ⟨strL "dev", false, [], 0, 4⟩ ⟨strL "flag", false, [strL "x"], 5, 13⟩
    ⟨strL "dev", false, [], 0, 4⟩ ⟨strL "flag", false, [strL "x"], 9, 17⟩
    5 rfl rfl (by decide) rfl rfl rfl rfl rfl rfl


/-- Counterexample to the literal reading of claim C5: the conditions
produced for `@dev @flag(x)` and `@dev and @flag(x)` are not equal as
values, because each parsed tag records its literal start/end byte
offsets and the explicit `and` shifts the second tag by four characters
(5..13 versus 9..17). -/
theorem spaced_tags_implicit_and_cex :
    decide ((parseStepCondition (strL "@dev @flag(x)") 5 initSt).1 =
      (parseStepCondition (strL "@dev and @flag(x)") 5 initSt).1) = false := by
  decide

end WebPipe
